import Mathlib

/-! go-mp4 box catalog: per-box hooks of `box_types.go`

A shallow embedding of the hook methods declared in `box_types.go`
(`GetFieldSize`, `GetFieldLength`, `IsOptFieldEnabled`, `BeforeUnmarshal`)
together with the records they read.

Conventions of the embedding:
* Go unsigned integers of width `w` are `Fin (2 ^ w)`; arithmetic is carried
  out on `.val` in `Nat`, with an explicit `% 2 ^ w` wherever the Go
  expression can wrap.
* Go signed integers are `Int`.
* Go `uint` results (field sizes and lengths) are `Nat`.
* A Go `panic` is the `Result.panic` outcome.
* Fixed-size byte arrays that the code compares as a whole (`[4]byte`,
  `[3]byte`) are records of bytes; other arrays and slices are lists.
-/

namespace Mp4

/-! ## Basic types -/

/-- Outcome of a hook that either returns a value or panics. -/
inductive Result (α : Type) where
  | ok (v : α)
  | panic (msg : String)
  deriving DecidableEq, Repr

/-- Go `byte` / `uint8`. -/
abbrev Byte := Fin 256
/-- Go `uint16`. -/
abbrev U16 := Fin 65536
/-- Go `uint32`. -/
abbrev U32 := Fin 4294967296
/-- Go `uint64`. -/
abbrev U64 := Fin 18446744073709551616

/-- Go `[3]byte`. -/
structure Byte3 where
  b0 : Byte
  b1 : Byte
  b2 : Byte
  deriving DecidableEq, Repr

/-- Go `[4]byte`, used for four-character codes. -/
structure Byte4 where
  b0 : Byte
  b1 : Byte
  b2 : Byte
  b3 : Byte
  deriving DecidableEq, Repr

/-- Modelled from the spec: the `Context` record is declared outside
`box_types.go`; the hooks read exactly these two flags of it
(`isQuickTimeCompatible`, `underWave`). -/
structure Context where
  IsQuickTimeCompatible : Bool
  UnderWave : Bool
  deriving DecidableEq, Repr

/-- Modelled from the spec: the `FullBox` record is declared outside
`box_types.go`: an 8-bit version followed by 24 bits of flags, which the
hooks access as `Version` and `Flags` (a `[3]byte`). -/
structure FullBox where
  Version : Byte
  Flags : Byte3
  deriving DecidableEq, Repr

/-- Modelled from the spec: `FullBox.GetVersion` is declared outside
`box_types.go`; it returns the 8-bit version. -/
def FullBox.GetVersion (box : FullBox) : Nat := box.Version.val

/-- Modelled from the spec: `FullBox.GetFlags` is declared outside
`box_types.go`; it returns the 24-bit flags word, the three flag bytes read
as one big-endian integer. -/
def FullBox.GetFlags (box : FullBox) : Nat :=
  ((box.Flags.b0.val <<< 16) ^^^ (box.Flags.b1.val <<< 8)) ^^^ box.Flags.b2.val

/-- Number of set bits among the low 32 bits of `n` (the population count of
a `uint32`). -/
def popcount (n : Nat) : Nat := (List.range 32).countP (fun i => n.testBit i)

/-! ## colr -/

/-- The `Colr` box. -/
structure Colr where
  ColourType : Byte4
  ColourPrimaries : U16
  TransferCharacteristics : U16
  MatrixCoefficients : U16
  FullRangeFlag : Bool
  Reserved : Byte
  Profile : List Byte
  Unknown : List Byte
  deriving DecidableEq, Repr

/-- The four-character code `nclx`. -/
def fccNclx : Byte4 := ⟨0x6e, 0x63, 0x6c, 0x78⟩
/-- The four-character code `rICC`. -/
def fccRICC : Byte4 := ⟨0x72, 0x49, 0x43, 0x43⟩
/-- The four-character code `prof`. -/
def fccProf : Byte4 := ⟨0x70, 0x72, 0x6f, 0x66⟩

/-- `Colr.IsOptFieldEnabled`: the outer switch is on `ColourType`, the inner
one on the field name. -/
def Colr.IsOptFieldEnabled (colr : Colr) (name : String) (_ctx : Context) : Bool :=
  if colr.ColourType = fccNclx then
    match name with
    | "ColourType" => true
    | "ColourPrimaries" => true
    | "TransferCharacteristics" => true
    | "MatrixCoefficients" => true
    | "FullRangeFlag" => true
    | "Reserved" => true
    | _ => false
  else if colr.ColourType = fccRICC ∨ colr.ColourType = fccProf then
    decide (name = "Profile")
  else
    decide (name = "Unknown")

/-- The seven fields of `Colr` tagged `opt=dynamic`, in declaration order. -/
def Colr.optFields : List String :=
  ["ColourPrimaries", "TransferCharacteristics", "MatrixCoefficients",
   "FullRangeFlag", "Reserved", "Profile", "Unknown"]

/-! ## elst -/

/-- One entry of the `Elst` box. -/
structure ElstEntry where
  SegmentDurationV0 : U32
  MediaTimeV0 : Int
  SegmentDurationV1 : U64
  MediaTimeV1 : Int
  MediaRateInteger : Int
  MediaRateFraction : Int
  deriving DecidableEq, Repr

/-- The `Elst` box. -/
structure Elst where
  toFullBox : FullBox
  EntryCount : U32
  Entries : List ElstEntry
  deriving DecidableEq, Repr

/-- `Elst.GetFieldSize`. -/
def Elst.GetFieldSize (elst : Elst) (name : String) (_ctx : Context) : Result Nat :=
  let fail : Result Nat :=
    .panic ("invalid name of dynamic-size field: boxType=elst fieldName=" ++ name)
  match name with
  | "Entries" =>
    match elst.toFullBox.GetVersion with
    | 0 => .ok (0 + 32 + 32 + 16 + 16)
    | 1 => .ok (0 + 64 + 64 + 16 + 16)
    | _ => fail
  | _ => fail

/-! ## meta -/

/-- Errors a byte-stream read or seek can report. -/
inductive IoError where
  | EOF
  | ErrUnexpectedEOF
  | other (msg : String)
  deriving DecidableEq, Repr

/-- Modelled from the spec: the random-access byte-stream reader (`read`,
`seek`) is an external collaborator of the engine. It is modelled as a finite
byte sequence with a cursor; `endErr` is the error its `read` reports once the
data is exhausted (`EOF` for an ordinary stream) and `seekErr`, when set, is
the error every `seek` reports. -/
structure ReadSeeker where
  data : List Byte
  pos : Nat
  endErr : IoError
  seekErr : Option IoError
  deriving DecidableEq, Repr

/-- Modelled from the spec: reading exactly `n` bytes (`io.ReadFull`). On
success the cursor advances by `n`. When fewer than `n` bytes remain the
cursor ends at the end of the data and the error is the reader's own, except
that an `EOF` after a partial read is reported as `ErrUnexpectedEOF`. -/
def ReadSeeker.ReadFull (r : ReadSeeker) (n : Nat) : Except IoError (List Byte) × ReadSeeker :=
  let avail := (r.data.drop r.pos).take n
  if avail.length = n then
    (.ok avail, { r with pos := r.pos + n })
  else
    let err := if 0 < avail.length ∧ r.endErr = IoError.EOF then IoError.ErrUnexpectedEOF
               else r.endErr
    (.error err, { r with pos := r.pos + avail.length })

/-- Modelled from the spec: `seek` relative to the current position
(`io.SeekCurrent`). It fails with the reader's `seekErr` when there is one and
when the target offset is negative; otherwise it moves the cursor. -/
def ReadSeeker.SeekCurrent (r : ReadSeeker) (offset : Int) : Except IoError Nat × ReadSeeker :=
  match r.seekErr with
  | some e => (.error e, r)
  | none =>
    if (r.pos : Int) + offset < 0 then
      (.error (IoError.other "negative position"), r)
    else
      (.ok ((r.pos : Int) + offset).toNat, { r with pos := ((r.pos : Int) + offset).toNat })

/-- The `Meta` box. -/
structure Meta where
  toFullBox : FullBox
  deriving DecidableEq, Repr

/-- The values `(n, override, err)` returned by `BeforeUnmarshal`. -/
structure BeforeUnmarshalResult where
  n : Nat
  override : Bool
  err : Option IoError
  deriving DecidableEq, Repr

/-- `Meta.BeforeUnmarshal`: returns the triple `(n, override, err)` together
with the box and the reader as the call leaves them. -/
def Meta.BeforeUnmarshal (box : Meta) (r : ReadSeeker) (_size : Nat) (_ctx : Context) :
    BeforeUnmarshalResult × Meta × ReadSeeker :=
  match r.ReadFull 4 with
  | (.error err, r1) => (⟨0, false, some err⟩, box, r1)
  | (.ok buf, r1) =>
    match r1.SeekCurrent (-4) with
    | (.error err, r2) => (⟨0, false, some err⟩, box, r2)
    | (.ok _, r2) =>
      if (buf.getD 0 0).val ||| (buf.getD 1 0).val ||| (buf.getD 2 0).val
          ||| (buf.getD 3 0).val ≠ 0 then
        (⟨0, true, none⟩, { box with toFullBox := { Version := 0, Flags := ⟨0, 0, 0⟩ } }, r2)
      else
        (⟨0, false, none⟩, box, r2)

/-! ## Sample entries -/

/-- The `SampleEntry` record embedded in every sample entry. The embedded
`AnyTypeBox` is declared outside `box_types.go` and read by no hook here. -/
structure SampleEntry where
  Reserved : List Byte
  DataReferenceIndex : U16
  deriving DecidableEq, Repr

/-- The `AudioSampleEntry` box. -/
structure AudioSampleEntry where
  toSampleEntry : SampleEntry
  EntryVersion : U16
  Reserved : List U16
  ChannelCount : U16
  SampleSize : U16
  PreDefined : U16
  Reserved2 : U16
  SampleRate : U32
  QuickTimeData : List Byte
  deriving DecidableEq, Repr

/-- `AudioSampleEntry.IsOptFieldEnabled`. -/
def AudioSampleEntry.IsOptFieldEnabled (ase : AudioSampleEntry) (name : String)
    (ctx : Context) : Bool :=
  if name = "QuickTimeData" then
    ctx.IsQuickTimeCompatible && (ctx.UnderWave || ase.EntryVersion == 1 || ase.EntryVersion == 2)
  else if ctx.IsQuickTimeCompatible && ctx.UnderWave then
    false
  else
    true

/-- `AudioSampleEntry.GetFieldLength`. The constant `LengthUnlimited` is
declared outside `box_types.go` and is taken as a parameter. -/
def AudioSampleEntry.GetFieldLength (LengthUnlimited : Nat) (ase : AudioSampleEntry)
    (name : String) (ctx : Context) : Nat :=
  if name = "QuickTimeData" ∧ ctx.IsQuickTimeCompatible = true then
    if ctx.UnderWave then
      LengthUnlimited
    else if ase.EntryVersion = 1 then
      16
    else if ase.EntryVersion = 2 then
      36
    else
      0
  else
    0

/-- The fields of `AudioSampleEntry` other than `QuickTimeData`, in
declaration order. -/
def AudioSampleEntry.plainFields : List String :=
  ["SampleEntry", "EntryVersion", "Reserved", "ChannelCount", "SampleSize",
   "PreDefined", "Reserved2", "SampleRate"]

/-! ## sgpd -/

/-- Entry of `Sgpd.RollDistancesL`. -/
structure RollDistanceWithLength where
  DescriptionLength : U32
  RollDistance : Int
  deriving DecidableEq, Repr

/-- Element of `AlternativeStartupEntry.Opts`. -/
structure AlternativeStartupEntryOpt where
  NumOutputSamples : U16
  NumTotalSamples : U16
  deriving DecidableEq, Repr

/-- Entry of `Sgpd.AlternativeStartupEntries`. -/
structure AlternativeStartupEntry where
  RollCount : U16
  FirstOutputSample : U16
  SampleOffset : List U32
  Opts : List AlternativeStartupEntryOpt
  deriving DecidableEq, Repr

/-- Entry of `Sgpd.AlternativeStartupEntriesL`. -/
structure AlternativeStartupEntryL where
  DescriptionLength : U32
  toAlternativeStartupEntry : AlternativeStartupEntry
  deriving DecidableEq, Repr

/-- Entry of `Sgpd.VisualRandomAccessEntries`. -/
structure VisualRandomAccessEntry where
  NumLeadingSamplesKnown : Bool
  NumLeadingSamples : Byte
  deriving DecidableEq, Repr

/-- Entry of `Sgpd.VisualRandomAccessEntriesL`. -/
structure VisualRandomAccessEntryL where
  DescriptionLength : U32
  toVisualRandomAccessEntry : VisualRandomAccessEntry
  deriving DecidableEq, Repr

/-- Entry of `Sgpd.TemporalLevelEntries`. -/
structure TemporalLevelEntry where
  LevelUndependentlyUecodable : Bool
  Reserved : Byte
  deriving DecidableEq, Repr

/-- Entry of `Sgpd.TemporalLevelEntriesL`. -/
structure TemporalLevelEntryL where
  DescriptionLength : U32
  toTemporalLevelEntry : TemporalLevelEntry
  deriving DecidableEq, Repr

/-- The `Sgpd` box. -/
structure Sgpd where
  toFullBox : FullBox
  GroupingType : Byte4
  DefaultLength : U32
  DefaultSampleDescriptionIndex : U32
  EntryCount : U32
  RollDistances : List Int
  RollDistancesL : List RollDistanceWithLength
  AlternativeStartupEntries : List AlternativeStartupEntry
  AlternativeStartupEntriesL : List AlternativeStartupEntryL
  VisualRandomAccessEntries : List VisualRandomAccessEntry
  VisualRandomAccessEntriesL : List VisualRandomAccessEntryL
  TemporalLevelEntries : List TemporalLevelEntry
  TemporalLevelEntriesL : List TemporalLevelEntryL
  Unsupported : List Byte
  deriving DecidableEq, Repr

/-- The four-character code `roll`. -/
def fccRoll : Byte4 := ⟨0x72, 0x6f, 0x6c, 0x6c⟩
/-- The four-character code `prol`. -/
def fccProl : Byte4 := ⟨0x70, 0x72, 0x6f, 0x6c⟩
/-- The four-character code `alst`. -/
def fccAlst : Byte4 := ⟨0x61, 0x6c, 0x73, 0x74⟩
/-- The four-character code `rap ` (with a trailing space). -/
def fccRap : Byte4 := ⟨0x72, 0x61, 0x70, 0x20⟩
/-- The four-character code `tele`. -/
def fccTele : Byte4 := ⟨0x74, 0x65, 0x6c, 0x65⟩

/-- `Sgpd.IsOptFieldEnabled`. -/
def Sgpd.IsOptFieldEnabled (sgpd : Sgpd) (name : String) (_ctx : Context) : Bool :=
  let noDefaultLength : Bool := sgpd.toFullBox.Version == 1 && sgpd.DefaultLength == 0
  let rollDistances : Bool := sgpd.GroupingType == fccRoll || sgpd.GroupingType == fccProl
  let alternativeStartupEntries : Bool := sgpd.GroupingType == fccAlst
  let visualRandomAccessEntries : Bool := sgpd.GroupingType == fccRap
  let temporalLevelEntries : Bool := sgpd.GroupingType == fccTele
  match name with
  | "RollDistances" => rollDistances && !noDefaultLength
  | "RollDistancesL" => rollDistances && noDefaultLength
  | "AlternativeStartupEntries" => alternativeStartupEntries && !noDefaultLength
  | "AlternativeStartupEntriesL" => alternativeStartupEntries && noDefaultLength
  | "VisualRandomAccessEntries" => visualRandomAccessEntries && !noDefaultLength
  | "VisualRandomAccessEntriesL" => visualRandomAccessEntries && noDefaultLength
  | "TemporalLevelEntries" => temporalLevelEntries && !noDefaultLength
  | "TemporalLevelEntriesL" => temporalLevelEntries && noDefaultLength
  | "Unsupported" =>
    !rollDistances && !alternativeStartupEntries && !visualRandomAccessEntries
      && !temporalLevelEntries
  | _ => false

/-- The nine payload fields of `Sgpd` tagged `opt=dynamic`, in declaration
order. -/
def Sgpd.optFields : List String :=
  ["RollDistances", "RollDistancesL", "AlternativeStartupEntries",
   "AlternativeStartupEntriesL", "VisualRandomAccessEntries",
   "VisualRandomAccessEntriesL", "TemporalLevelEntries", "TemporalLevelEntriesL",
   "Unsupported"]

/-! ## tfra -/

/-- One entry of the `Tfra` box. -/
structure TfraEntry where
  TimeV0 : U32
  MoofOffsetV0 : U32
  TimeV1 : U64
  MoofOffsetV1 : U64
  TrafNumber : U32
  TrunNumber : U32
  SampleNumber : U32
  deriving DecidableEq, Repr

/-- The `Tfra` box. -/
structure Tfra where
  toFullBox : FullBox
  TrackID : U32
  Reserved : U32
  LengthSizeOfTrafNum : Byte
  LengthSizeOfTrunNum : Byte
  LengthSizeOfSampleNum : Byte
  NumberOfEntry : U32
  Entries : List TfraEntry
  deriving DecidableEq, Repr

/-- `Tfra.GetFieldSize`. The sums stay far below `2 ^ 64`, so the Go `uint`
arithmetic never wraps. -/
def Tfra.GetFieldSize (tfra : Tfra) (name : String) (_ctx : Context) : Result Nat :=
  let fail : Result Nat :=
    .panic ("invalid name of dynamic-size field: boxType=tfra fieldName=" ++ name)
  match name with
  | "TrafNumber" => .ok ((tfra.LengthSizeOfTrafNum.val + 1) * 8)
  | "TrunNumber" => .ok ((tfra.LengthSizeOfTrunNum.val + 1) * 8)
  | "SampleNumber" => .ok ((tfra.LengthSizeOfSampleNum.val + 1) * 8)
  | "Entries" =>
    match tfra.toFullBox.GetVersion with
    | 0 =>
      .ok (0 + 32 + 32 + (tfra.LengthSizeOfTrafNum.val + 1) * 8
        + (tfra.LengthSizeOfTrunNum.val + 1) * 8 + (tfra.LengthSizeOfSampleNum.val + 1) * 8)
    | 1 =>
      .ok (0 + 64 + 64 + (tfra.LengthSizeOfTrafNum.val + 1) * 8
        + (tfra.LengthSizeOfTrunNum.val + 1) * 8 + (tfra.LengthSizeOfSampleNum.val + 1) * 8)
    | _ => fail
  | _ => fail

/-! ## trun -/

/-- One entry of the `Trun` box. -/
structure TrunEntry where
  SampleDuration : U32
  SampleSize : U32
  SampleFlags : U32
  SampleCompositionTimeOffsetV0 : U32
  SampleCompositionTimeOffsetV1 : Int
  deriving DecidableEq, Repr

/-- The `Trun` box. -/
structure Trun where
  toFullBox : FullBox
  SampleCount : U32
  DataOffset : Int
  FirstSampleFlags : U32
  Entries : List TrunEntry
  deriving DecidableEq, Repr

/-- `Trun.GetFieldSize`. -/
def Trun.GetFieldSize (trun : Trun) (name : String) (_ctx : Context) : Result Nat :=
  match name with
  | "Entries" =>
    let flags := trun.toFullBox.GetFlags
    let size := 0
    let size := if flags &&& 0x100 ≠ 0 then size + 32 else size
    let size := if flags &&& 0x200 ≠ 0 then size + 32 else size
    let size := if flags &&& 0x400 ≠ 0 then size + 32 else size
    let size := if flags &&& 0x800 ≠ 0 then size + 32 else size
    .ok size
  | _ => .panic ("invalid name of dynamic-size field: boxType=trun fieldName=" ++ name)

/-! ## emsg -/

/-- Go `string`: a sequence of bytes; `len` is the number of bytes. -/
abbrev GoString := List Byte

/-- The `Emsg` box. -/
structure Emsg where
  toFullBox : FullBox
  SchemeIdUri : GoString
  Value : GoString
  Timescale : U32
  PresentationTimeDelta : U32
  PresentationTime : U64
  EventDuration : U32
  Id : U32
  MessageData : List Byte
  deriving DecidableEq, Repr

/-- Modelled from the spec: the byte-sink writer (`write`) is an external
collaborator of the engine. It is modelled as the sequence of bytes written
so far; `limit`, when set, is the total number of bytes the sink accepts and
`writeErr` the error it reports once a write does not fit. -/
structure Writer where
  out : List Byte
  limit : Option Nat
  writeErr : IoError
  deriving DecidableEq, Repr

/-- Modelled from the spec: `write(buf)` on the byte sink. A write that does
not fit stores the bytes that do and reports the sink's error. -/
def Writer.Write (w : Writer) (p : List Byte) : Option IoError × Writer :=
  match w.limit with
  | none => (none, { w with out := w.out ++ p })
  | some l =>
    if w.out.length + p.length ≤ l then
      (none, { w with out := w.out ++ p })
    else
      (some w.writeErr, { w with out := w.out ++ p.take (l - w.out.length) })

/-- Modelled from the spec: `util.WriteString` is declared outside
`box_types.go`; a c-string is written as its bytes followed by a NUL. -/
def WriteString (w : Writer) (s : GoString) : Option IoError × Writer :=
  match w.Write s with
  | (some e, w1) => (some e, w1)
  | (none, w1) => w1.Write [0]

/-- The bytes before the first NUL of a byte sequence, if it holds a NUL. -/
def scanCString : List Byte → Option GoString
  | [] => none
  | b :: bs => if b = 0 then some [] else (scanCString bs).map (fun s => b :: s)

/-- Modelled from the spec: `util.ReadString` is declared outside
`box_types.go`; a c-string is read until NUL and the NUL is consumed. When the
data ends before a NUL the result is the empty string with the reader's end
error, the cursor being at the end of the data. -/
def ReadString (r : ReadSeeker) : (GoString × Option IoError) × ReadSeeker :=
  match scanCString (r.data.drop r.pos) with
  | some s => ((s, none), { r with pos := r.pos + s.length + 1 })
  | none => (([], some r.endErr), { r with pos := r.pos + (r.data.drop r.pos).length })

/-- The values `(bits, override, err)` returned by `OnReadField` and
`OnWriteField`. -/
structure FieldHookResult where
  bits : Nat
  override : Bool
  err : Option IoError
  deriving DecidableEq, Repr

/-- `Emsg.OnReadField`: returns `(rbits, override, err)` together with the box
and the reader as the call leaves them. In-memory string lengths are far
below `2 ^ 60`, so the `uint64` bit count does not wrap. -/
def Emsg.OnReadField (emsg : Emsg) (name : String) (r : ReadSeeker) (_leftBits : U64)
    (_ctx : Context) : FieldHookResult × Emsg × ReadSeeker :=
  if emsg.toFullBox.GetVersion = 0 then
    (⟨0, false, none⟩, emsg, r)
  else
    match name with
    | "SchemeIdUri" => (⟨0, true, none⟩, emsg, r)
    | "Value" => (⟨0, true, none⟩, emsg, r)
    | "MessageData" =>
      match ReadString r with
      | ((s, some e), r1) => (⟨0, false, some e⟩, { emsg with SchemeIdUri := s }, r1)
      | ((s, none), r1) =>
        match ReadString r1 with
        | ((v, some e), r2) =>
          (⟨0, false, some e⟩, { emsg with SchemeIdUri := s, Value := v }, r2)
        | ((v, none), r2) =>
          (⟨0 + (s.length + v.length + 2) * 8, false, none⟩,
            { emsg with SchemeIdUri := s, Value := v }, r2)
    | _ => (⟨0, false, none⟩, emsg, r)

/-- `Emsg.OnWriteField`: returns `(wbits, override, err)` together with the
writer as the call leaves it; the box is not modified. -/
def Emsg.OnWriteField (emsg : Emsg) (name : String) (w : Writer) (_ctx : Context) :
    FieldHookResult × Writer :=
  if emsg.toFullBox.GetVersion = 0 then
    (⟨0, false, none⟩, w)
  else
    match name with
    | "SchemeIdUri" => (⟨0, true, none⟩, w)
    | "Value" => (⟨0, true, none⟩, w)
    | "MessageData" =>
      match WriteString w emsg.SchemeIdUri with
      | (some e, w1) => (⟨0, false, some e⟩, w1)
      | (none, w1) =>
        match WriteString w1 emsg.Value with
        | (some e, w2) => (⟨0, false, some e⟩, w2)
        | (none, w2) =>
          (⟨0 + (emsg.SchemeIdUri.length + emsg.Value.length + 2) * 8, false, none⟩, w2)
    | _ => (⟨0, false, none⟩, w)

/-! ## hdlr -/

/-- The `Hdlr` box. -/
structure Hdlr where
  toFullBox : FullBox
  PreDefined : U32
  HandlerType : Byte4
  Reserved : List U32
  Name : GoString
  Padding : List Byte
  deriving DecidableEq, Repr

/-- `Hdlr.IsPString`. -/
def Hdlr.IsPString (hdlr : Hdlr) (name : String) (_bytes : List Byte) (remainingSize : U64)
    (_ctx : Context) : Result Bool :=
  match name with
  | "Name" => .ok (remainingSize == 0 && hdlr.PreDefined != 0)
  | _ => .panic ("invalid field name: name=" ++ name)

/-! ## stsz -/

/-- The `Stsz` box. -/
structure Stsz where
  toFullBox : FullBox
  SampleSize : U32
  SampleCount : U32
  EntrySize : List U32
  deriving DecidableEq, Repr

/-- `Stsz.GetFieldLength`. -/
def Stsz.GetFieldLength (stsz : Stsz) (name : String) (_ctx : Context) : Result Nat :=
  match name with
  | "EntrySize" =>
    if stsz.SampleSize = 0 then
      .ok stsz.SampleCount.val
    else
      .ok 0
  | _ => .panic ("invalid name of dynamic-length field: boxType=stsz fieldName=" ++ name)

/-! ## Field codec, encode side -/

/-- Modelled from the spec: the bit-stream writer is declared outside
`box_types.go`; it emits an unsigned integer of `size` bits most significant
bit first, so that multi-byte integers are big-endian. -/
def writeBits (size v : Nat) : List Bool :=
  (List.range size).reverse.map (fun i => v.testBit i)

/-- The number whose binary digits, most significant first, are `bs`. -/
def bitsToNat (bs : List Bool) : Nat :=
  bs.foldl (fun acc b => 2 * acc + b.toNat) 0

/-- Modelled from the spec: the bit-stream writer is declared outside
`box_types.go`; bits are packed into bytes most significant bit first, a last
group of fewer than eight bits being completed with zero bits. -/
def packBits : List Bool → List Byte
  | b7 :: b6 :: b5 :: b4 :: b3 :: b2 :: b1 :: b0 :: rest =>
    Fin.ofNat (bitsToNat [b7, b6, b5, b4, b3, b2, b1, b0]) :: packBits rest
  | [] => []
  | bs => [Fin.ofNat (bitsToNat (bs ++ List.replicate (8 - bs.length) false))]

/-- Modelled from the spec: the FullBox header on the wire, an 8-bit version
followed by the three flag bytes. -/
def FullBox.marshalBits (box : FullBox) : List Bool :=
  writeBits 8 box.Version.val ++ writeBits 8 box.Flags.b0.val
    ++ writeBits 8 box.Flags.b1.val ++ writeBits 8 box.Flags.b2.val

/-- Modelled from the spec: the field codec (the marshaller is declared
outside `box_types.go`) run on the `Stsz` schema. Fields are emitted in
declaration order: the FullBox header, `SampleSize` (`size=32`), `SampleCount`
(`size=32`), then as many `EntrySize` elements (`size=32`, `len=dynamic`) as
`GetFieldLength("EntrySize")` answers. There is no encoding (`none`) when the
hook panics or the slice holds fewer elements than the hook's answer. -/
def Stsz.Marshal (stsz : Stsz) (ctx : Context) : Option (List Byte) :=
  match stsz.GetFieldLength "EntrySize" ctx with
  | .panic _ => none
  | .ok n =>
    if stsz.EntrySize.length < n then none
    else
      some (packBits (stsz.toFullBox.marshalBits
        ++ writeBits 32 stsz.SampleSize.val
        ++ writeBits 32 stsz.SampleCount.val
        ++ (stsz.EntrySize.take n).flatMap (fun e => writeBits 32 e.val)))

/-! ## float64 -/

/-- Nearest integer to a rational, ties going to the even neighbour. -/
def roundHalfEven (q : ℚ) : ℤ :=
  let f := ⌊q⌋
  let r := q - f
  if r < 1 / 2 then f
  else if 1 / 2 < r then f + 1
  else if f % 2 = 0 then f
  else f + 1

/-- Go `float64` rounding of an exact result `q` (IEEE-754 binary64, round to
nearest, ties to even): the significand has 53 bits and the weight of its
last bit is at least `2 ^ (-1074)`. `none` stands for a result that overflows to
infinity. -/
def roundFloat64 (q : ℚ) : Option ℚ :=
  if q = 0 then some 0
  else
    let e : ℤ := max (Int.log 2 |q| - 52) (-1074)
    let v : ℚ := (roundHalfEven (|q| / 2 ^ e) : ℚ) * 2 ^ e
    if 2 ^ 1024 ≤ v then none
    else if q < 0 then some (-v)
    else some v

/-! ## tkhd -/

/-- The `Tkhd` box. -/
structure Tkhd where
  toFullBox : FullBox
  CreationTimeV0 : U32
  ModificationTimeV0 : U32
  TrackIDV0 : U32
  ReservedV0 : U32
  DurationV0 : U32
  CreationTimeV1 : U64
  ModificationTimeV1 : U64
  TrackIDV1 : U32
  ReservedV1 : U32
  DurationV1 : U64
  Reserved : List U32
  Layer : Int
  AlternateGroup : Int
  Volume : Int
  Reserved2 : U16
  Matrix : List Int
  Width : U32
  Height : U32
  deriving DecidableEq, Repr

/-- `Tkhd.GetWidth`: `float64(tkhd.Width) / (1 << 16)`, the conversion and the
division each rounding to `float64`. -/
def Tkhd.GetWidth (tkhd : Tkhd) : Option ℚ :=
  (roundFloat64 (tkhd.Width.val : ℚ)).bind (fun x => roundFloat64 (x / 65536))

/-- `Tkhd.GetHeight`: `float64(tkhd.Height) / (1 << 16)`, the conversion and
the division each rounding to `float64`. -/
def Tkhd.GetHeight (tkhd : Tkhd) : Option ℚ :=
  (roundFloat64 (tkhd.Height.val : ℚ)).bind (fun x => roundFloat64 (x / 65536))

/-! ## Boxes with a counted array -/

/-- The `Co64` box. -/
structure Co64 where
  toFullBox : FullBox
  EntryCount : U32
  ChunkOffset : List U64
  deriving DecidableEq, Repr

/-- `Co64.GetFieldLength`. -/
def Co64.GetFieldLength (co64 : Co64) (name : String) (_ctx : Context) : Result Nat :=
  match name with
  | "ChunkOffset" => .ok co64.EntryCount.val
  | _ => .panic ("invalid name of dynamic-length field: boxType=co64 fieldName=" ++ name)

/-- One entry of the `Ctts` box. -/
structure CttsEntry where
  SampleCount : U32
  SampleOffsetV0 : U32
  SampleOffsetV1 : Int
  deriving DecidableEq, Repr

/-- The `Ctts` box. -/
structure Ctts where
  toFullBox : FullBox
  EntryCount : U32
  Entries : List CttsEntry
  deriving DecidableEq, Repr

/-- `Ctts.GetFieldLength`. -/
def Ctts.GetFieldLength (ctts : Ctts) (name : String) (_ctx : Context) : Result Nat :=
  match name with
  | "Entries" => .ok ctts.EntryCount.val
  | _ => .panic ("invalid name of dynamic-length field: boxType=ctts fieldName=" ++ name)

/-- `Elst.GetFieldLength`. -/
def Elst.GetFieldLength (elst : Elst) (name : String) (_ctx : Context) : Result Nat :=
  match name with
  | "Entries" => .ok elst.EntryCount.val
  | _ => .panic ("invalid name of dynamic-length field: boxType=elst fieldName=" ++ name)

/-- One entry of the `Sbgp` box. -/
structure SbgpEntry where
  SampleCount : U32
  GroupDescriptionIndex : U32
  deriving DecidableEq, Repr

/-- The `Sbgp` box. -/
structure Sbgp where
  toFullBox : FullBox
  GroupingType : U32
  GroupingTypeParameter : U32
  EntryCount : U32
  Entries : List SbgpEntry
  deriving DecidableEq, Repr

/-- `Sbgp.GetFieldLength`. -/
def Sbgp.GetFieldLength (sbgp : Sbgp) (name : String) (_ctx : Context) : Result Nat :=
  match name with
  | "Entries" => .ok sbgp.EntryCount.val
  | _ => .panic ("invalid name of dynamic-length field: boxType=sbgp fieldName=" ++ name)

/-- One reference of the `Sidx` box. -/
structure SidxReference where
  ReferenceType : Bool
  ReferencedSize : U32
  SubsegmentDuration : U32
  StartsWithSAP : Bool
  SAPType : U32
  SAPDeltaTime : U32
  deriving DecidableEq, Repr

/-- The `Sidx` box. -/
structure Sidx where
  toFullBox : FullBox
  ReferenceID : U32
  Timescale : U32
  EarliestPresentationTimeV0 : U32
  FirstOffsetV0 : U32
  EarliestPresentationTimeV1 : U64
  FirstOffsetV1 : U64
  Reserved : U16
  ReferenceCount : U16
  References : List SidxReference
  deriving DecidableEq, Repr

/-- `Sidx.GetFieldLength`. -/
def Sidx.GetFieldLength (sidx : Sidx) (name : String) (_ctx : Context) : Result Nat :=
  match name with
  | "References" => .ok sidx.ReferenceCount.val
  | _ => .panic ("invalid name of dynamic-length field: boxType=sidx fieldName=" ++ name)

/-- The `Stco` box. -/
structure Stco where
  toFullBox : FullBox
  EntryCount : U32
  ChunkOffset : List U32
  deriving DecidableEq, Repr

/-- `Stco.GetFieldLength`. -/
def Stco.GetFieldLength (stco : Stco) (name : String) (_ctx : Context) : Result Nat :=
  match name with
  | "ChunkOffset" => .ok stco.EntryCount.val
  | _ => .panic ("invalid name of dynamic-length field: boxType=stco fieldName=" ++ name)

/-- One entry of the `Stsc` box. -/
structure StscEntry where
  FirstChunk : U32
  SamplesPerChunk : U32
  SampleDescriptionIndex : U32
  deriving DecidableEq, Repr

/-- The `Stsc` box. -/
structure Stsc where
  toFullBox : FullBox
  EntryCount : U32
  Entries : List StscEntry
  deriving DecidableEq, Repr

/-- `Stsc.GetFieldLength`. -/
def Stsc.GetFieldLength (stsc : Stsc) (name : String) (_ctx : Context) : Result Nat :=
  match name with
  | "Entries" => .ok stsc.EntryCount.val
  | _ => .panic ("invalid name of dynamic-length field: boxType=stsc fieldName=" ++ name)

/-- The `Stss` box. -/
structure Stss where
  toFullBox : FullBox
  EntryCount : U32
  SampleNumber : List U32
  deriving DecidableEq, Repr

/-- `Stss.GetFieldLength`. -/
def Stss.GetFieldLength (stss : Stss) (name : String) (_ctx : Context) : Result Nat :=
  match name with
  | "SampleNumber" => .ok stss.EntryCount.val
  | _ => .panic ("invalid name of dynamic-length field: boxType=stss fieldName=" ++ name)

/-- One entry of the `Stts` box. -/
structure SttsEntry where
  SampleCount : U32
  SampleDelta : U32
  deriving DecidableEq, Repr

/-- The `Stts` box. -/
structure Stts where
  toFullBox : FullBox
  EntryCount : U32
  Entries : List SttsEntry
  deriving DecidableEq, Repr

/-- `Stts.GetFieldLength`. -/
def Stts.GetFieldLength (stts : Stts) (name : String) (_ctx : Context) : Result Nat :=
  match name with
  | "Entries" => .ok stts.EntryCount.val
  | _ => .panic ("invalid name of dynamic-length field: boxType=stts fieldName=" ++ name)

/-- `Tfra.GetFieldLength`. -/
def Tfra.GetFieldLength (tfra : Tfra) (name : String) (_ctx : Context) : Result Nat :=
  match name with
  | "Entries" => .ok tfra.NumberOfEntry.val
  | _ => .panic ("invalid name of dynamic-length field: boxType=tfra fieldName=" ++ name)

/-- `Trun.GetFieldLength`. -/
def Trun.GetFieldLength (trun : Trun) (name : String) (_ctx : Context) : Result Nat :=
  match name with
  | "Entries" => .ok trun.SampleCount.val
  | _ => .panic ("invalid name of dynamic-length field: boxType=trun fieldName=" ++ name)

/-! ## Fixed-point integer getters -/

/-- `Tkhd.GetWidthInt`: `uint16(tkhd.Width >> 16)`; the conversion keeps the low
16 bits. -/
def Tkhd.GetWidthInt (tkhd : Tkhd) : U16 :=
  Fin.ofNat ((tkhd.Width.val >>> 16) % 2 ^ 16)

/-- `Tkhd.GetHeightInt`: `uint16(tkhd.Height >> 16)`; the conversion keeps the
low 16 bits. -/
def Tkhd.GetHeightInt (tkhd : Tkhd) : U16 :=
  Fin.ofNat ((tkhd.Height.val >>> 16) % 2 ^ 16)

/-- The `Mvhd` box. `Rate` is an `int32`, `Volume` and `Reserved` are `int16`. -/
structure Mvhd where
  toFullBox : FullBox
  CreationTimeV0 : U32
  ModificationTimeV0 : U32
  CreationTimeV1 : U64
  ModificationTimeV1 : U64
  Timescale : U32
  DurationV0 : U32
  DurationV1 : U64
  Rate : Int
  Volume : Int
  Reserved : Int
  Reserved2 : List U32
  Matrix : List Int
  PreDefined : List Int
  NextTrackID : U32
  deriving DecidableEq, Repr

/-- Go conversion of an integer to `int16`: the value modulo `2 ^ 16` taken in
`[-2 ^ 15, 2 ^ 15)`. -/
def toInt16 (x : Int) : Int := (x + 2 ^ 15) % 2 ^ 16 - 2 ^ 15

/-- `Mvhd.GetRate`: `float64(mvhd.Rate) / (1 << 16)`, the conversion and the
division each rounding to `float64`. -/
def Mvhd.GetRate (mvhd : Mvhd) : Option ℚ :=
  (roundFloat64 (mvhd.Rate : ℚ)).bind (fun x => roundFloat64 (x / 65536))

/-- `Mvhd.GetRateInt`: `int16(mvhd.Rate >> 16)`, the shift being arithmetic. -/
def Mvhd.GetRateInt (mvhd : Mvhd) : Int := toInt16 (mvhd.Rate >>> (16 : Nat))

/-- Integer part of a rational: the value truncated toward zero. -/
def integerPart (q : ℚ) : Int := if 0 ≤ q then ⌊q⌋ else ⌈q⌉

/-! ## esds -/

/-- Descriptor tag `ESDescrTag`. -/
def ESDescrTag : Int := 0x03
/-- Descriptor tag `DecoderConfigDescrTag`. -/
def DecoderConfigDescrTag : Int := 0x04
/-- Descriptor tag `DecSpecificInfoTag`. -/
def DecSpecificInfoTag : Int := 0x05
/-- Descriptor tag `SLConfigDescrTag`. -/
def SLConfigDescrTag : Int := 0x06

/-- The `ESDescriptor` record. `StreamPriority` is an `int8`. -/
structure ESDescriptor where
  ESID : U16
  StreamDependenceFlag : Bool
  UrlFlag : Bool
  OcrStreamFlag : Bool
  StreamPriority : Int
  DependsOnESID : U16
  URLLength : Byte
  URLString : List Byte
  OCRESID : U16
  deriving DecidableEq, Repr

/-- The `DecoderConfigDescriptor` record. `StreamType` is an `int8`. -/
structure DecoderConfigDescriptor where
  ObjectTypeIndication : Byte
  StreamType : Int
  UpStream : Bool
  Reserved : Bool
  BufferSizeDB : U32
  MaxBitrate : U32
  AvgBitrate : U32
  deriving DecidableEq, Repr

/-- The `Descriptor` record of the `Esds` box. `Tag` is an `int8`; the two
pointer fields are optional values. -/
structure Descriptor where
  Tag : Int
  Size : U32
  ESDescriptor : Option ESDescriptor
  DecoderConfigDescriptor : Option DecoderConfigDescriptor
  Data : List Byte
  deriving DecidableEq, Repr

/-- `Descriptor.GetFieldLength`. -/
def Descriptor.GetFieldLength (ds : Descriptor) (name : String) (_ctx : Context) :
    Result Nat :=
  match name with
  | "Data" => .ok ds.Size.val
  | _ => .panic ("invalid name of dynamic-length field: boxType=esds fieldName=" ++ name)

/-- `Descriptor.IsOptFieldEnabled`. -/
def Descriptor.IsOptFieldEnabled (ds : Descriptor) (name : String) (_ctx : Context) : Bool :=
  if ds.Tag = ESDescrTag then
    decide (name = "ESDescriptor")
  else if ds.Tag = DecoderConfigDescrTag then
    decide (name = "DecoderConfigDescriptor")
  else
    decide (name = "Data")

/-- The three payload forms of a `Descriptor`, in declaration order. -/
def Descriptor.optFields : List String :=
  ["ESDescriptor", "DecoderConfigDescriptor", "Data"]

/-! ## avcC -/

/-- AVC profile constant `AVCBaselineProfile`. -/
def AVCBaselineProfile : Byte := 66
/-- AVC profile constant `AVCMainProfile`. -/
def AVCMainProfile : Byte := 77
/-- AVC profile constant `AVCExtendedProfile`. -/
def AVCExtendedProfile : Byte := 88
/-- AVC profile constant `AVCHighProfile`. -/
def AVCHighProfile : Byte := 100
/-- AVC profile constant `AVCHigh10Profile`. -/
def AVCHigh10Profile : Byte := 110
/-- AVC profile constant `AVCHigh422Profile`. -/
def AVCHigh422Profile : Byte := 122

/-- The `AVCParameterSet` record. -/
structure AVCParameterSet where
  Length : U16
  NALUnit : List Byte
  deriving DecidableEq, Repr

/-- The `AVCDecoderConfiguration` box. The embedded `AnyTypeBox` is declared
outside `box_types.go` and read by no hook here. -/
structure AVCDecoderConfiguration where
  ConfigurationVersion : Byte
  Profile : Byte
  ProfileCompatibility : Byte
  Level : Byte
  Reserved : Byte
  LengthSizeMinusOne : Byte
  Reserved2 : Byte
  NumOfSequenceParameterSets : Byte
  SequenceParameterSets : List AVCParameterSet
  NumOfPictureParameterSets : Byte
  PictureParameterSets : List AVCParameterSet
  HighProfileFieldsEnabled : Bool
  Reserved3 : Byte
  ChromaFormat : Byte
  Reserved4 : Byte
  BitDepthLumaMinus8 : Byte
  Reserved5 : Byte
  BitDepthChromaMinus8 : Byte
  NumOfSequenceParameterSetExt : Byte
  SequenceParameterSetsExt : List AVCParameterSet
  deriving DecidableEq, Repr

/-- The error `OnWriteField` reports for a flag that contradicts the profile. -/
def avcInconsistentError : IoError :=
  IoError.other "each values of Profile and HighProfileFieldsEnabled are inconsistent"

/-- `AVCDecoderConfiguration.OnReadField`: returns `(rbits, override, err)`
and the box as the call leaves it; the reader is not touched. -/
def AVCDecoderConfiguration.OnReadField (avcc : AVCDecoderConfiguration) (name : String)
    (_r : ReadSeeker) (leftBits : U64) (_ctx : Context) :
    FieldHookResult × AVCDecoderConfiguration :=
  if name = "HighProfileFieldsEnabled" then
    let enabled : Bool :=
      decide (32 ≤ leftBits.val) &&
        (avcc.Profile == AVCHighProfile || avcc.Profile == AVCHigh10Profile
          || avcc.Profile == AVCHigh422Profile || avcc.Profile == 144)
    (⟨0, true, none⟩, { avcc with HighProfileFieldsEnabled := enabled })
  else
    (⟨0, false, none⟩, avcc)

/-- `AVCDecoderConfiguration.OnWriteField`: returns `(wbits, override, err)`;
neither the box nor the writer is touched. -/
def AVCDecoderConfiguration.OnWriteField (avcc : AVCDecoderConfiguration) (name : String)
    (_w : Writer) (_ctx : Context) : FieldHookResult :=
  if name = "HighProfileFieldsEnabled" then
    if avcc.HighProfileFieldsEnabled && avcc.Profile != AVCHighProfile
        && avcc.Profile != AVCHigh10Profile && avcc.Profile != AVCHigh422Profile
        && avcc.Profile != 144 then
      ⟨0, false, some avcInconsistentError⟩
    else
      ⟨0, true, none⟩
  else
    ⟨0, false, none⟩

/-! ## Schema model -/

/-- The `size` directive of a field tag. -/
inductive FieldSize where
  | lit (bits : Nat)
  | dynamic
  deriving DecidableEq, Repr

/-- One field of a record as its `mp4` struct tag declares it: the name, the
size in bits of one element, the number of elements (1 for a scalar, the array
length for a fixed-size array) and the `ver=`, `nver=` and `opt=` directives. -/
structure SchemaField where
  name : String
  size : FieldSize
  elems : Nat
  ver : Option Nat
  nver : Option Nat
  opt : Option Nat
  deriving DecidableEq, Repr

/-- A scalar field with a literal size and no condition. -/
def SchemaField.plain (name : String) (bits : Nat) : SchemaField :=
  ⟨name, .lit bits, 1, none, none, none⟩

/-- Modelled from the spec: the field codec is declared outside
`box_types.go`. A field is present when its version condition holds (`ver=V`:
the version equals `V`; `nver=V`: it differs from `V`) and its flag condition
holds (`opt=M`: `flags & M` is non-zero). -/
def SchemaField.present (f : SchemaField) (version flags : Nat) : Bool :=
  (match f.ver with
    | some v => version == v
    | none => true)
  && (match f.nver with
    | some v => version != v
    | none => true)
  && (match f.opt with
    | some m => flags &&& m != 0
    | none => true)

/-- Bit width of a field: its element size, literal or asked from the
`GetFieldSize` hook of the box, times its number of elements. -/
def SchemaField.width (f : SchemaField) (getFieldSize : String → Result Nat) : Result Nat :=
  match f.size with
  | .lit n => .ok (n * f.elems)
  | .dynamic =>
    match getFieldSize f.name with
    | .ok n => .ok (n * f.elems)
    | .panic msg => .panic msg

/-- Modelled from the spec: total bit width of the fields of a record that are
present under the given version and flags. -/
def schemaWidth (fields : List SchemaField) (version flags : Nat)
    (getFieldSize : String → Result Nat) : Result Nat :=
  match fields with
  | [] => .ok 0
  | f :: fs =>
    if f.present version flags then
      match f.width getFieldSize, schemaWidth fs version flags getFieldSize with
      | .ok w, .ok rest => .ok (w + rest)
      | .panic msg, _ => .panic msg
      | .ok _, .panic msg => .panic msg
    else
      schemaWidth fs version flags getFieldSize

/-- Whether the field called `name` of a record is present under the given
version and flags. -/
def schemaFieldPresent (fields : List SchemaField) (name : String) (version flags : Nat) :
    Bool :=
  fields.any (fun f => f.name == name && f.present version flags)

/-- Hook of a record without `GetFieldSize`: every query fails. -/
def noFieldSize (name : String) : Result Nat := .panic name

/-- Schema of `ElstEntry`. -/
def ElstEntry.schema : List SchemaField :=
  [{ SchemaField.plain "SegmentDurationV0" 32 with ver := some 0 },
   { SchemaField.plain "MediaTimeV0" 32 with ver := some 0 },
   { SchemaField.plain "SegmentDurationV1" 64 with ver := some 1 },
   { SchemaField.plain "MediaTimeV1" 64 with ver := some 1 },
   SchemaField.plain "MediaRateInteger" 16,
   SchemaField.plain "MediaRateFraction" 16]

/-- Schema of `TfraEntry`. -/
def TfraEntry.schema : List SchemaField :=
  [{ SchemaField.plain "TimeV0" 32 with ver := some 0 },
   { SchemaField.plain "MoofOffsetV0" 32 with ver := some 0 },
   { SchemaField.plain "TimeV1" 64 with ver := some 1 },
   { SchemaField.plain "MoofOffsetV1" 64 with ver := some 1 },
   ⟨"TrafNumber", .dynamic, 1, none, none, none⟩,
   ⟨"TrunNumber", .dynamic, 1, none, none, none⟩,
   ⟨"SampleNumber", .dynamic, 1, none, none, none⟩]

/-- Schema of `TrunEntry`. -/
def TrunEntry.schema : List SchemaField :=
  [{ SchemaField.plain "SampleDuration" 32 with opt := some 0x000100 },
   { SchemaField.plain "SampleSize" 32 with opt := some 0x000200 },
   { SchemaField.plain "SampleFlags" 32 with opt := some 0x000400 },
   { SchemaField.plain "SampleCompositionTimeOffsetV0" 32 with
      opt := some 0x000800, ver := some 0 },
   { SchemaField.plain "SampleCompositionTimeOffsetV1" 32 with
      opt := some 0x000800, nver := some 0 }]

/-- Schema of `CompatibleBrandElem`. -/
def CompatibleBrandElem.schema : List SchemaField :=
  [⟨"CompatibleBrand", .lit 8, 4, none, none, none⟩]

/-- Schema of `CttsEntry`. -/
def CttsEntry.schema : List SchemaField :=
  [SchemaField.plain "SampleCount" 32,
   { SchemaField.plain "SampleOffsetV0" 32 with ver := some 0 },
   { SchemaField.plain "SampleOffsetV1" 32 with ver := some 1 }]

/-- Schema of `SbgpEntry`. -/
def SbgpEntry.schema : List SchemaField :=
  [SchemaField.plain "SampleCount" 32, SchemaField.plain "GroupDescriptionIndex" 32]

/-- Schema of `StscEntry`. -/
def StscEntry.schema : List SchemaField :=
  [SchemaField.plain "FirstChunk" 32, SchemaField.plain "SamplesPerChunk" 32,
   SchemaField.plain "SampleDescriptionIndex" 32]

/-- Schema of `SttsEntry`. -/
def SttsEntry.schema : List SchemaField :=
  [SchemaField.plain "SampleCount" 32, SchemaField.plain "SampleDelta" 32]

/-- Schema of `SidxReference`. -/
def SidxReference.schema : List SchemaField :=
  [SchemaField.plain "ReferenceType" 1, SchemaField.plain "ReferencedSize" 31,
   SchemaField.plain "SubsegmentDuration" 32, SchemaField.plain "StartsWithSAP" 1,
   SchemaField.plain "SAPType" 3, SchemaField.plain "SAPDeltaTime" 28]

/-- Schema of `PsshKID`. -/
def PsshKID.schema : List SchemaField :=
  [⟨"KID", .lit 8, 16, none, none, none⟩]

/-- Schema of `SdtpSampleElem`. -/
def SdtpSampleElem.schema : List SchemaField :=
  [SchemaField.plain "IsLeading" 2, SchemaField.plain "SampleDependsOn" 2,
   SchemaField.plain "SampleIsDependedOon" 2, SchemaField.plain "SampleHasRedundancy" 2]

/-- Schema of `RollDistanceWithLength`. -/
def RollDistanceWithLength.schema : List SchemaField :=
  [SchemaField.plain "DescriptionLength" 32, SchemaField.plain "RollDistance" 16]

/-- Schema of `AlternativeStartupEntryOpt`. -/
def AlternativeStartupEntryOpt.schema : List SchemaField :=
  [SchemaField.plain "NumOutputSamples" 16, SchemaField.plain "NumTotalSamples" 16]

/-- A field that is an array of records and declares a literal `size=N`:
the box, the field, `N`, the schema of the element record and the versions
`AddBoxDef` registers for the box (0 stands for a box without version). -/
structure RecordArrayDecl where
  box : String
  field : String
  size : Nat
  elem : List SchemaField
  versions : List Nat
  deriving DecidableEq, Repr

/-- The arrays of records with a literal `size=N` in `box_types.go`. -/
def recordArrayDecls : List RecordArrayDecl :=
  [⟨"Ftyp", "CompatibleBrands", 32, CompatibleBrandElem.schema, [0]⟩,
   ⟨"Styp", "CompatibleBrands", 32, CompatibleBrandElem.schema, [0]⟩,
   ⟨"Ctts", "Entries", 64, CttsEntry.schema, [0, 1]⟩,
   ⟨"Sbgp", "Entries", 64, SbgpEntry.schema, [0, 1]⟩,
   ⟨"Stsc", "Entries", 96, StscEntry.schema, [0]⟩,
   ⟨"Stts", "Entries", 64, SttsEntry.schema, [0]⟩,
   ⟨"Sidx", "References", 96, SidxReference.schema, [0, 1]⟩,
   ⟨"Pssh", "KIDs", 128, PsshKID.schema, [0, 1]⟩,
   ⟨"Sdtp", "Samples", 8, SdtpSampleElem.schema, [0]⟩,
   ⟨"Sgpd", "RollDistancesL", 16, RollDistanceWithLength.schema, [1, 2]⟩,
   ⟨"AlternativeStartupEntry", "Opts", 32, AlternativeStartupEntryOpt.schema, [1, 2]⟩]

/-- Whether the declared `size=N` of an array of records is the width of one
element under every registered version. -/
def RecordArrayDecl.consistent (a : RecordArrayDecl) (flags : Nat) : Bool :=
  a.versions.all (fun v => schemaWidth a.elem v flags noFieldSize == .ok a.size)

/-! ## tfhd -/

/-- The `Tfhd` box. -/
structure Tfhd where
  toFullBox : FullBox
  TrackID : U32
  BaseDataOffset : U64
  SampleDescriptionIndex : U32
  DefaultSampleDuration : U32
  DefaultSampleSize : U32
  DefaultSampleFlags : U32
  deriving DecidableEq, Repr

/-- Flag constant `TfhdBaseDataOffsetPresent`. -/
def TfhdBaseDataOffsetPresent : Nat := 0x000001
/-- Flag constant `TfhdSampleDescriptionIndexPresent`. -/
def TfhdSampleDescriptionIndexPresent : Nat := 0x000002
/-- Flag constant `TfhdDefaultSampleDurationPresent`. -/
def TfhdDefaultSampleDurationPresent : Nat := 0x000008
/-- Flag constant `TfhdDefaultSampleSizePresent`. -/
def TfhdDefaultSampleSizePresent : Nat := 0x000010
/-- Flag constant `TfhdDefaultSampleFlagsPresent`. -/
def TfhdDefaultSampleFlagsPresent : Nat := 0x000020
/-- Flag constant `TfhdDurationIsEmpty`. -/
def TfhdDurationIsEmpty : Nat := 0x010000
/-- Flag constant `TfhdDefaultBaseIsMoof`. -/
def TfhdDefaultBaseIsMoof : Nat := 0x020000

/-- Schema of the `FullBox` header: the version and three flag bytes. -/
def FullBox.schema : List SchemaField :=
  [SchemaField.plain "Version" 8, ⟨"Flags", .lit 8, 3, none, none, none⟩]

/-- Schema of `Tfhd`: the FullBox header followed by the fields of the box. -/
def Tfhd.schema : List SchemaField :=
  FullBox.schema ++
  [SchemaField.plain "TrackID" 32,
   { SchemaField.plain "BaseDataOffset" 64 with opt := some 0x000001 },
   { SchemaField.plain "SampleDescriptionIndex" 32 with opt := some 0x000002 },
   { SchemaField.plain "DefaultSampleDuration" 32 with opt := some 0x000008 },
   { SchemaField.plain "DefaultSampleSize" 32 with opt := some 0x000010 },
   { SchemaField.plain "DefaultSampleFlags" 32 with opt := some 0x000020 }]

/-- The optional fields of `Tfhd` with the index of the flag bit of their
`opt=` mask and their size in bits. -/
def Tfhd.optFields : List (String × Nat × Nat) :=
  [("BaseDataOffset", 0, 64), ("SampleDescriptionIndex", 1, 32),
   ("DefaultSampleDuration", 3, 32), ("DefaultSampleSize", 4, 32),
   ("DefaultSampleFlags", 5, 32)]

/-- The 24-bit flags word with the bits of `mask` cleared (`flags &^ mask`). -/
def clearFlags (flags mask : Nat) : Nat := flags &&& (0xFFFFFF ^^^ mask)

/-! ## Field codec, decode side, and ftyp -/

/-- Modelled from the spec: the bit-stream reader is declared outside
`box_types.go`; bytes are read most significant bit first. -/
def unpackBits (bs : List Byte) : List Bool :=
  bs.flatMap (fun b => writeBits 8 b.val)

/-- Modelled from the spec: `readBits(n)` of the bit-stream reader: the next
`size` bits as an unsigned integer, most significant bit first, and the bits
that follow; `none` when fewer than `size` bits remain. -/
def readBits (size : Nat) (bits : List Bool) : Option (Nat × List Bool) :=
  if bits.length < size then none
  else some (bitsToNat (bits.take size), bits.drop size)

/-- The 32 bits of a `[4]byte` field (`size=8` per element). -/
def Byte4.bits (b : Byte4) : List Bool :=
  writeBits 8 b.b0.val ++ writeBits 8 b.b1.val ++ writeBits 8 b.b2.val
    ++ writeBits 8 b.b3.val

/-- Modelled from the spec: reads a `[4]byte` field, four elements of 8 bits. -/
def readByte4 (bits : List Bool) : Option (Byte4 × List Bool) :=
  match readBits 8 bits with
  | none => none
  | some (a, r1) =>
    match readBits 8 r1 with
    | none => none
    | some (b, r2) =>
      match readBits 8 r2 with
      | none => none
      | some (c, r3) =>
        match readBits 8 r3 with
        | none => none
        | some (d, r4) => some (⟨Fin.ofNat a, Fin.ofNat b, Fin.ofNat c, Fin.ofNat d⟩, r4)

/-- Element of `Ftyp.CompatibleBrands`. -/
structure CompatibleBrandElem where
  CompatibleBrand : Byte4
  deriving DecidableEq, Repr

/-- The `Ftyp` box. -/
structure Ftyp where
  MajorBrand : Byte4
  MinorVersion : U32
  CompatibleBrands : List CompatibleBrandElem
  deriving DecidableEq, Repr

/-- Modelled from the spec: reads `n` elements of `CompatibleBrands`, each a
`CompatibleBrandElem` of one `[4]byte` field. -/
def readBrands : Nat → List Bool → Option (List CompatibleBrandElem × List Bool)
  | 0, bits => some ([], bits)
  | n + 1, bits =>
    match readByte4 bits with
    | none => none
    | some (b, r1) =>
      match readBrands n r1 with
      | none => none
      | some (bs, r2) => some (⟨b⟩ :: bs, r2)

/-- Modelled from the spec: the field codec (the unmarshaller is declared
outside `box_types.go`) run on the `Ftyp` schema over a payload: `MajorBrand`
(`[4]byte`, `size=8`), `MinorVersion` (`size=32`), then `CompatibleBrands`
elements of `size=32` until the payload is exhausted. There is no result when
the payload is too short or does not end on an element boundary. -/
def Ftyp.Unmarshal (payload : List Byte) : Option Ftyp :=
  match readByte4 (unpackBits payload) with
  | none => none
  | some (major, r1) =>
    match readBits 32 r1 with
    | none => none
    | some (minor, r2) =>
      match readBrands (r2.length / 32) r2 with
      | none => none
      | some (brands, r3) =>
        if r3 = [] then some ⟨major, Fin.ofNat minor, brands⟩ else none

/-- Modelled from the spec: the field codec (the marshaller is declared
outside `box_types.go`) run on the `Ftyp` schema: the fields in declaration
order, every `CompatibleBrands` element included. -/
def Ftyp.Marshal (ftyp : Ftyp) : List Byte :=
  packBits (ftyp.MajorBrand.bits ++ writeBits 32 ftyp.MinorVersion.val
    ++ ftyp.CompatibleBrands.flatMap (fun e => e.CompatibleBrand.bits))

/-- The four-character code `ftyp`. -/
def fccFtyp : Byte4 := ⟨0x66, 0x74, 0x79, 0x70⟩
/-- The four-character code `uuid`. -/
def fccUuid : Byte4 := ⟨0x75, 0x75, 0x69, 0x64⟩

/-- A decoded box header: the number of header bytes, the number of payload
bytes and the box type. -/
structure BoxHeader where
  headerBytes : Nat
  payloadBytes : Nat
  boxType : Byte4
  deriving DecidableEq, Repr

/-- Modelled from the spec: the box header codec is declared outside
`box_types.go`. Decoding reads 4 bytes of size and 4 bytes of type, 8 more
bytes of size when the size is 1 and 16 more bytes of user type when the type
is `uuid`; size 0 means that the payload reaches to the end of the input.
There is no header when bytes are missing or the size is smaller than the
header. -/
def decodeBoxHeader (bs : List Byte) : Option BoxHeader :=
  match readBits 32 (unpackBits bs) with
  | none => none
  | some (size, r1) =>
    match readByte4 r1 with
    | none => none
    | some (typ, r2) =>
      match (if size = 1 then readBits 64 r2 else some (size, r2)) with
      | none => none
      | some (total, r3) =>
        let hdr := 8 + (if size = 1 then 8 else 0) + (if typ = fccUuid then 16 else 0)
        if r3.length < (if typ = fccUuid then 128 else 0) then none
        else if size = 0 then some ⟨hdr, bs.length - hdr, typ⟩
        else if total < hdr then none
        else some ⟨hdr, total - hdr, typ⟩

/-- Modelled from the spec: encoding of the box header of a box that is not
`uuid`: the 32-bit size form unless header plus payload reach `2 ^ 32` bytes,
then the form with size 1 and a 64-bit size. -/
def encodeBoxHeader (typ : Byte4) (payloadBytes : Nat) : List Byte :=
  if payloadBytes + 8 < 2 ^ 32 then
    packBits (writeBits 32 (payloadBytes + 8) ++ typ.bits)
  else
    packBits (writeBits 32 1 ++ typ.bits ++ writeBits 64 (payloadBytes + 16))

/-- Modelled from the spec: decoding of a whole `ftyp` box: the header, then
the field codec over the payload the header announces. -/
def Ftyp.UnmarshalBox (bs : List Byte) : Option Ftyp :=
  match decodeBoxHeader bs with
  | none => none
  | some h =>
    if h.boxType = fccFtyp ∧ h.headerBytes + h.payloadBytes ≤ bs.length then
      Ftyp.Unmarshal ((bs.drop h.headerBytes).take h.payloadBytes)
    else none

/-- Modelled from the spec: encoding of a whole `ftyp` box: the payload is
serialised first and the header carries its size. -/
def Ftyp.MarshalBox (ftyp : Ftyp) : List Byte :=
  encodeBoxHeader fccFtyp ftyp.Marshal.length ++ ftyp.Marshal

/-- The 24-byte `ftyp` box of the end-to-end scenario. -/
def ftypExample : List Byte :=
  [0x00, 0x00, 0x00, 0x18, 0x66, 0x74, 0x79, 0x70, 0x69, 0x73, 0x6F, 0x6D,
   0x00, 0x00, 0x00, 0x01, 0x69, 0x73, 0x6F, 0x6D, 0x61, 0x76, 0x63, 0x31]

/-! ## Hooks of the remaining boxes -/

/-- `AVCDecoderConfiguration.IsOptFieldEnabled`. -/
def AVCDecoderConfiguration.IsOptFieldEnabled (avcc : AVCDecoderConfiguration)
    (name : String) (_ctx : Context) : Bool :=
  match name with
  | "Reserved3" => avcc.HighProfileFieldsEnabled
  | "ChromaFormat" => avcc.HighProfileFieldsEnabled
  | "Reserved4" => avcc.HighProfileFieldsEnabled
  | "BitDepthLumaMinus8" => avcc.HighProfileFieldsEnabled
  | "Reserved5" => avcc.HighProfileFieldsEnabled
  | "BitDepthChromaMinus8" => avcc.HighProfileFieldsEnabled
  | "NumOfSequenceParameterSetExt" => avcc.HighProfileFieldsEnabled
  | "SequenceParameterSetsExt" => avcc.HighProfileFieldsEnabled
  | _ => false

/-- The eight fields of `AVCDecoderConfiguration` tagged `opt=dynamic`, in
declaration order. -/
def AVCDecoderConfiguration.optFields : List String :=
  ["Reserved3", "ChromaFormat", "Reserved4", "BitDepthLumaMinus8", "Reserved5",
   "BitDepthChromaMinus8", "NumOfSequenceParameterSetExt", "SequenceParameterSetsExt"]

/-- The seven fields of the high-profile extension of `AVCDecoderConfiguration`
that declare a literal size, with the sizes of their tags. -/
def AVCDecoderConfiguration.highProfileSchema : List SchemaField :=
  [SchemaField.plain "Reserved3" 6, SchemaField.plain "ChromaFormat" 2,
   SchemaField.plain "Reserved4" 5, SchemaField.plain "BitDepthLumaMinus8" 3,
   SchemaField.plain "Reserved5" 5, SchemaField.plain "BitDepthChromaMinus8" 3,
   SchemaField.plain "NumOfSequenceParameterSetExt" 8]

/-- The `VisualSampleEntry` box. `Compressorname` is a `[32]byte`,
`PreDefined2` a `[3]uint32`, `PreDefined3` an `int16`. -/
structure VisualSampleEntry where
  toSampleEntry : SampleEntry
  PreDefined : U16
  Reserved : U16
  PreDefined2 : List U32
  Width : U16
  Height : U16
  Horizresolution : U32
  Vertresolution : U32
  Reserved2 : U32
  FrameCount : U16
  Compressorname : List Byte
  Depth : U16
  PreDefined3 : Int
  deriving DecidableEq, Repr

/-- Go slice expression `a[lo:hi]` on an array: it panics unless
`lo <= hi <= len(a)`. -/
def sliceArray (a : List Byte) (lo hi : Nat) : Result (List Byte) :=
  if lo ≤ hi ∧ hi ≤ a.length then .ok ((a.take hi).drop lo)
  else .panic "slice bounds out of range"

/-- `VisualSampleEntry.StringifyField`: returns the text and the `handled`
flag. The index `Compressorname[0] + 1` is computed in `uint8`. -/
def VisualSampleEntry.StringifyField (vse : VisualSampleEntry) (name : String)
    (_indent : GoString) (_depth : Int) (_ctx : Context) : Result (GoString × Bool) :=
  match name with
  | "Compressorname" =>
    match vse.Compressorname.head? with
    | none => .panic "index out of range"
    | some n =>
      if n.val ≤ 31 then
        match sliceArray vse.Compressorname 1 ((n.val + 1) % 2 ^ 8) with
        | .ok s => .ok ([0x22] ++ s ++ [0x22], true)
        | .panic msg => .panic msg
      else
        .ok ([], false)
  | _ => .ok ([], false)

/-- One element of `Pssh.KIDs`. -/
structure PsshKID where
  KID : List Byte
  deriving DecidableEq, Repr

/-- The `Pssh` box. `DataSize` is an `int32`. -/
structure Pssh where
  toFullBox : FullBox
  SystemID : List Byte
  KIDCount : U32
  KIDs : List PsshKID
  DataSize : Int
  Data : List Byte
  deriving DecidableEq, Repr

/-- Go conversion of a signed integer to the 64-bit `uint`: the value modulo
`2 ^ 64`. -/
def toUint (x : Int) : Nat := (x % 2 ^ 64).toNat

/-- `Pssh.GetFieldLength`. -/
def Pssh.GetFieldLength (pssh : Pssh) (name : String) (_ctx : Context) : Result Nat :=
  match name with
  | "KIDs" => .ok pssh.KIDCount.val
  | "Data" => .ok (toUint pssh.DataSize)
  | _ => .panic ("invalid name of dynamic-length field: boxType=pssh fieldName=" ++ name)

/-- `Sgpd.GetFieldSize`: the product `DefaultLength * 8` is computed in
`uint32` and then widened. -/
def Sgpd.GetFieldSize (sgpd : Sgpd) (name : String) (_ctx : Context) : Nat :=
  match name with
  | "AlternativeStartupEntries" => (sgpd.DefaultLength.val * 8) % 2 ^ 32
  | _ => 0

/-- `AlternativeStartupEntryL.GetFieldSize`: the product
`DescriptionLength * 8` is computed in `uint32` and then widened. -/
def AlternativeStartupEntryL.GetFieldSize (entry : AlternativeStartupEntryL) (name : String)
    (_ctx : Context) : Nat :=
  match name with
  | "AlternativeStartupEntry" => (entry.DescriptionLength.val * 8) % 2 ^ 32
  | _ => 0

/-- Versions registered for `Elst` by `AddBoxDef(&Elst{}, 0, 1)`. -/
def Elst.versions : List Nat := [0, 1]

/-- Versions registered for `Tfra` by `AddBoxDef(&Tfra{}, 0, 1)`. -/
def Tfra.versions : List Nat := [0, 1]

/-- Versions registered for `Tkhd` by `AddBoxDef(&Tkhd{}, 0, 1)`. -/
def Tkhd.versions : List Nat := [0, 1]

/-- Schema of `Tkhd`: the FullBox header followed by the fields of the box. -/
def Tkhd.schema : List SchemaField :=
  FullBox.schema ++
  [{ SchemaField.plain "CreationTimeV0" 32 with ver := some 0 },
   { SchemaField.plain "ModificationTimeV0" 32 with ver := some 0 },
   { SchemaField.plain "TrackIDV0" 32 with ver := some 0 },
   { SchemaField.plain "ReservedV0" 32 with ver := some 0 },
   { SchemaField.plain "DurationV0" 32 with ver := some 0 },
   { SchemaField.plain "CreationTimeV1" 64 with ver := some 1 },
   { SchemaField.plain "ModificationTimeV1" 64 with ver := some 1 },
   { SchemaField.plain "TrackIDV1" 32 with ver := some 1 },
   { SchemaField.plain "ReservedV1" 32 with ver := some 1 },
   { SchemaField.plain "DurationV1" 64 with ver := some 1 },
   ⟨"Reserved", .lit 32, 2, none, none, none⟩,
   SchemaField.plain "Layer" 16,
   SchemaField.plain "AlternateGroup" 16,
   SchemaField.plain "Volume" 16,
   SchemaField.plain "Reserved2" 16,
   ⟨"Matrix", .lit 32, 9, none, none, none⟩,
   SchemaField.plain "Width" 32,
   SchemaField.plain "Height" 32]

/-- The pairs of `Tkhd` fields that exist in a version-0 and a version-1
form. -/
def Tkhd.versionPairs : List (String × String) :=
  [("CreationTimeV0", "CreationTimeV1"), ("ModificationTimeV0", "ModificationTimeV1"),
   ("TrackIDV0", "TrackIDV1"), ("ReservedV0", "ReservedV1"), ("DurationV0", "DurationV1")]

/-! ## Theorems -/

/-! ### Bit-level helper lemmas -/

theorem and_two_pow_ne_zero_iff (n i : Nat) : n &&& 2 ^ i ≠ 0 ↔ n.testBit i = true := by
  rw [Nat.and_two_pow]
  cases n.testBit i <;> simp

theorem range_thirtyTwo : List.range 32 =
    [0, 1, 2, 3, 4, 5, 6, 7, 8, 9, 10, 11, 12, 13, 14, 15, 16, 17, 18, 19, 20, 21, 22, 23,
     24, 25, 26, 27, 28, 29, 30, 31] := by
  decide

theorem popcount_and_0F00 (n : Nat) : popcount (n &&& 0x0F00) =
    (n.testBit 8).toNat + (n.testBit 9).toNat + (n.testBit 10).toNat
      + (n.testBit 11).toNat := by
  unfold popcount
  rw [range_thirtyTwo]
  simp only [List.countP_cons, Nat.testBit_and, List.countP_nil]
  cases n.testBit 8 <;> cases n.testBit 9 <;> cases n.testBit 10 <;> cases n.testBit 11 <;>
    simp +decide

/-! ### trun -/

/-- C1: for every `Trun`, `GetFieldSize("Entries")` returns
`popcount(flags & 0x0F00) * 32` where `flags` is the 24-bit FullBox flags
word; every `Trun` whose flag bytes are `00 03 05` (flags `0x000305`) has a
per-entry size of 64 bits, that is 8 bytes. -/
theorem trun_getFieldSize_entries (trun : Trun) (ctx : Context) :
    Trun.GetFieldSize trun "Entries" ctx
        = .ok (popcount (trun.toFullBox.GetFlags &&& 0x0F00) * 32)
    ∧ (∀ (v : Byte) (sc : U32) (off : Int) (fsf : U32) (es : List TrunEntry),
        FullBox.GetFlags ⟨v, ⟨0x00, 0x03, 0x05⟩⟩ = 0x000305
        ∧ Trun.GetFieldSize ⟨⟨v, ⟨0x00, 0x03, 0x05⟩⟩, sc, off, fsf, es⟩ "Entries" ctx
            = .ok 64
        ∧ 64 = 8 * 8) := by
  constructor
  · have e8 := and_two_pow_ne_zero_iff trun.toFullBox.GetFlags 8
    have e9 := and_two_pow_ne_zero_iff trun.toFullBox.GetFlags 9
    have e10 := and_two_pow_ne_zero_iff trun.toFullBox.GetFlags 10
    have e11 := and_two_pow_ne_zero_iff trun.toFullBox.GetFlags 11
    norm_num at e8 e9 e10 e11
    rw [popcount_and_0F00]
    simp only [Trun.GetFieldSize]
    cases h8 : trun.toFullBox.GetFlags.testBit 8 <;>
    cases h9 : trun.toFullBox.GetFlags.testBit 9 <;>
    cases h10 : trun.toFullBox.GetFlags.testBit 10 <;>
    cases h11 : trun.toFullBox.GetFlags.testBit 11 <;>
      simp_all
  · intro v sc off fsf es
    have hf : FullBox.GetFlags ⟨v, ⟨0x00, 0x03, 0x05⟩⟩ = 0x000305 := by
      simp only [FullBox.GetFlags]
      decide
    refine ⟨hf, ?_, rfl⟩
    simp only [Trun.GetFieldSize, hf]
    decide

/-! ### elst -/

/-- C2 (as stated, refuted): a version-0 `Elst` does not get 80 bits from
`GetFieldSize("Entries")` and a version-1 `Elst` does not get 128 bits. -/
theorem elst_getFieldSize_entries_not_80_128 :
    Elst.GetFieldSize ⟨⟨0, ⟨0, 0, 0⟩⟩, 0, []⟩ "Entries" ⟨false, false⟩ ≠ .ok 80
    ∧ Elst.GetFieldSize ⟨⟨1, ⟨0, 0, 0⟩⟩, 0, []⟩ "Entries" ⟨false, false⟩ ≠ .ok 128 := by
  decide

/-- C2 (amended): `Elst.GetFieldSize("Entries")` returns 96 bits when the box
version is 0 and 160 bits when the box version is 1. -/
theorem elst_getFieldSize_entries (elst : Elst) (ctx : Context) :
    (elst.toFullBox.GetVersion = 0 → Elst.GetFieldSize elst "Entries" ctx = .ok 96)
    ∧ (elst.toFullBox.GetVersion = 1 → Elst.GetFieldSize elst "Entries" ctx = .ok 160) := by
  constructor <;> intro h <;> simp [Elst.GetFieldSize, h]

theorem elst_getFieldSize_entries_witness :
    Elst.GetFieldSize ⟨⟨0, ⟨0, 0, 0⟩⟩, 2, []⟩ "Entries" ⟨false, false⟩ = .ok 96
    ∧ Elst.GetFieldSize ⟨⟨1, ⟨0, 0, 0⟩⟩, 2, []⟩ "Entries" ⟨true, false⟩ = .ok 160 :=
  ⟨(elst_getFieldSize_entries ⟨⟨0, ⟨0, 0, 0⟩⟩, 2, []⟩ ⟨false, false⟩).1 (by decide),
   (elst_getFieldSize_entries ⟨⟨1, ⟨0, 0, 0⟩⟩, 2, []⟩ ⟨true, false⟩).2 (by decide)⟩

/-! ### tfra -/

/-- C3: for every `Tfra`, `GetFieldSize` on `TrafNumber`, `TrunNumber` and
`SampleNumber` returns `(code + 1) * 8` with `code` the matching
`LengthSizeOf...` field; when the code is a 2-bit value (0..3) the result is
one of 8, 16, 24, 32 and so at most the 32 bits of the `uint32` it sizes. -/
theorem tfra_getFieldSize_numbers (tfra : Tfra) (ctx : Context) :
    (Tfra.GetFieldSize tfra "TrafNumber" ctx = .ok ((tfra.LengthSizeOfTrafNum.val + 1) * 8)
      ∧ Tfra.GetFieldSize tfra "TrunNumber" ctx
          = .ok ((tfra.LengthSizeOfTrunNum.val + 1) * 8)
      ∧ Tfra.GetFieldSize tfra "SampleNumber" ctx
          = .ok ((tfra.LengthSizeOfSampleNum.val + 1) * 8))
    ∧ (tfra.LengthSizeOfTrafNum.val ≤ 3 →
        ∃ s, Tfra.GetFieldSize tfra "TrafNumber" ctx = .ok s ∧ s ∈ [8, 16, 24, 32] ∧ s ≤ 32)
    ∧ (tfra.LengthSizeOfTrunNum.val ≤ 3 →
        ∃ s, Tfra.GetFieldSize tfra "TrunNumber" ctx = .ok s ∧ s ∈ [8, 16, 24, 32] ∧ s ≤ 32)
    ∧ (tfra.LengthSizeOfSampleNum.val ≤ 3 →
        ∃ s, Tfra.GetFieldSize tfra "SampleNumber" ctx = .ok s ∧ s ∈ [8, 16, 24, 32]
          ∧ s ≤ 32) := by
  refine ⟨⟨rfl, rfl, rfl⟩, ?_, ?_, ?_⟩
  · intro h
    refine ⟨_, rfl, ?_, by omega⟩
    generalize tfra.LengthSizeOfTrafNum.val = c at h
    interval_cases c <;> decide
  · intro h
    refine ⟨_, rfl, ?_, by omega⟩
    generalize tfra.LengthSizeOfTrunNum.val = c at h
    interval_cases c <;> decide
  · intro h
    refine ⟨_, rfl, ?_, by omega⟩
    generalize tfra.LengthSizeOfSampleNum.val = c at h
    interval_cases c <;> decide

theorem tfra_getFieldSize_numbers_witness :
    (∃ s, Tfra.GetFieldSize ⟨⟨0, ⟨0, 0, 0⟩⟩, 1, 0, 0, 3, 2, 0, []⟩ "TrafNumber" ⟨false, false⟩
        = .ok s ∧ s ∈ [8, 16, 24, 32] ∧ s ≤ 32)
    ∧ (∃ s, Tfra.GetFieldSize ⟨⟨0, ⟨0, 0, 0⟩⟩, 1, 0, 0, 3, 2, 0, []⟩ "TrunNumber"
        ⟨false, false⟩ = .ok s ∧ s ∈ [8, 16, 24, 32] ∧ s ≤ 32)
    ∧ (∃ s, Tfra.GetFieldSize ⟨⟨0, ⟨0, 0, 0⟩⟩, 1, 0, 0, 3, 2, 0, []⟩ "SampleNumber"
        ⟨false, false⟩ = .ok s ∧ s ∈ [8, 16, 24, 32] ∧ s ≤ 32) :=
  ⟨(tfra_getFieldSize_numbers ⟨⟨0, ⟨0, 0, 0⟩⟩, 1, 0, 0, 3, 2, 0, []⟩ ⟨false, false⟩).2.1
      (by decide),
   (tfra_getFieldSize_numbers ⟨⟨0, ⟨0, 0, 0⟩⟩, 1, 0, 0, 3, 2, 0, []⟩ ⟨false, false⟩).2.2.1
      (by decide),
   (tfra_getFieldSize_numbers ⟨⟨0, ⟨0, 0, 0⟩⟩, 1, 0, 0, 3, 2, 0, []⟩ ⟨false, false⟩).2.2.2
      (by decide)⟩

/-! ### sgpd -/

theorem sgpd_enabled_values (sgpd : Sgpd) (ctx : Context) :
    let nd : Bool := sgpd.toFullBox.Version == 1 && sgpd.DefaultLength == 0
    let gt := sgpd.GroupingType
    sgpd.IsOptFieldEnabled "RollDistances" ctx = ((gt == fccRoll || gt == fccProl) && !nd)
    ∧ sgpd.IsOptFieldEnabled "RollDistancesL" ctx = ((gt == fccRoll || gt == fccProl) && nd)
    ∧ sgpd.IsOptFieldEnabled "AlternativeStartupEntries" ctx = (gt == fccAlst && !nd)
    ∧ sgpd.IsOptFieldEnabled "AlternativeStartupEntriesL" ctx = (gt == fccAlst && nd)
    ∧ sgpd.IsOptFieldEnabled "VisualRandomAccessEntries" ctx = (gt == fccRap && !nd)
    ∧ sgpd.IsOptFieldEnabled "VisualRandomAccessEntriesL" ctx = (gt == fccRap && nd)
    ∧ sgpd.IsOptFieldEnabled "TemporalLevelEntries" ctx = (gt == fccTele && !nd)
    ∧ sgpd.IsOptFieldEnabled "TemporalLevelEntriesL" ctx = (gt == fccTele && nd)
    ∧ sgpd.IsOptFieldEnabled "Unsupported" ctx
        = (!(gt == fccRoll || gt == fccProl) && !(gt == fccAlst) && !(gt == fccRap)
            && !(gt == fccTele)) :=
  ⟨rfl, rfl, rfl, rfl, rfl, rfl, rfl, rfl, rfl⟩

/-- C4: for every `Sgpd` exactly one of the nine optional payload fields is
enabled by `IsOptFieldEnabled`, and `Unsupported` is that field exactly when
`GroupingType` is none of `roll`, `prol`, `alst`, `rap `, `tele`. -/
theorem sgpd_exactly_one_opt_field (sgpd : Sgpd) (ctx : Context) :
    (∃ name, Sgpd.optFields.filter (fun n => sgpd.IsOptFieldEnabled n ctx) = [name])
    ∧ (Sgpd.optFields.filter (fun n => sgpd.IsOptFieldEnabled n ctx) = ["Unsupported"] ↔
        (sgpd.GroupingType ≠ fccRoll ∧ sgpd.GroupingType ≠ fccProl
          ∧ sgpd.GroupingType ≠ fccAlst ∧ sgpd.GroupingType ≠ fccRap
          ∧ sgpd.GroupingType ≠ fccTele)) := by
  obtain ⟨h1, h2, h3, h4, h5, h6, h7, h8, h9⟩ := sgpd_enabled_values sgpd ctx
  simp only [Sgpd.optFields, List.filter_cons, List.filter_nil, h1, h2, h3, h4, h5, h6, h7, h8, h9]
  generalize (sgpd.toFullBox.Version == 1 && sgpd.DefaultLength == 0) = nd
  by_cases g1 : sgpd.GroupingType = fccRoll
  · rw [g1]; cases nd <;> simp +decide
  by_cases g2 : sgpd.GroupingType = fccProl
  · rw [g2]; cases nd <;> simp +decide
  by_cases g3 : sgpd.GroupingType = fccAlst
  · rw [g3]; cases nd <;> simp +decide
  by_cases g4 : sgpd.GroupingType = fccRap
  · rw [g4]; cases nd <;> simp +decide
  by_cases g5 : sgpd.GroupingType = fccTele
  · rw [g5]; cases nd <;> simp +decide
  have e1 : (sgpd.GroupingType == fccRoll) = false := by simpa using g1
  have e2 : (sgpd.GroupingType == fccProl) = false := by simpa using g2
  have e3 : (sgpd.GroupingType == fccAlst) = false := by simpa using g3
  have e4 : (sgpd.GroupingType == fccRap) = false := by simpa using g4
  have e5 : (sgpd.GroupingType == fccTele) = false := by simpa using g5
  simp [e1, e2, e3, e4, e5, g1, g2, g3, g4, g5]

/-- C5: when `GroupingType` selects one of the four layouts, the variant with
the length prefix (name ending in `L`) is enabled iff `Version = 1` and
`DefaultLength = 0`, and the plain variant is enabled otherwise; a version-2
box enables no `L` variant, whatever `DefaultLength` and `GroupingType` are. -/
theorem sgpd_length_prefixed_variant (sgpd : Sgpd) (ctx : Context) :
    ((sgpd.GroupingType = fccRoll ∨ sgpd.GroupingType = fccProl) →
        (sgpd.IsOptFieldEnabled "RollDistancesL" ctx = true
            ↔ (sgpd.toFullBox.Version = 1 ∧ sgpd.DefaultLength = 0))
        ∧ (sgpd.IsOptFieldEnabled "RollDistances" ctx = true
            ↔ ¬ (sgpd.toFullBox.Version = 1 ∧ sgpd.DefaultLength = 0)))
    ∧ (sgpd.GroupingType = fccAlst →
        (sgpd.IsOptFieldEnabled "AlternativeStartupEntriesL" ctx = true
            ↔ (sgpd.toFullBox.Version = 1 ∧ sgpd.DefaultLength = 0))
        ∧ (sgpd.IsOptFieldEnabled "AlternativeStartupEntries" ctx = true
            ↔ ¬ (sgpd.toFullBox.Version = 1 ∧ sgpd.DefaultLength = 0)))
    ∧ (sgpd.GroupingType = fccRap →
        (sgpd.IsOptFieldEnabled "VisualRandomAccessEntriesL" ctx = true
            ↔ (sgpd.toFullBox.Version = 1 ∧ sgpd.DefaultLength = 0))
        ∧ (sgpd.IsOptFieldEnabled "VisualRandomAccessEntries" ctx = true
            ↔ ¬ (sgpd.toFullBox.Version = 1 ∧ sgpd.DefaultLength = 0)))
    ∧ (sgpd.GroupingType = fccTele →
        (sgpd.IsOptFieldEnabled "TemporalLevelEntriesL" ctx = true
            ↔ (sgpd.toFullBox.Version = 1 ∧ sgpd.DefaultLength = 0))
        ∧ (sgpd.IsOptFieldEnabled "TemporalLevelEntries" ctx = true
            ↔ ¬ (sgpd.toFullBox.Version = 1 ∧ sgpd.DefaultLength = 0)))
    ∧ (sgpd.toFullBox.Version = 2 →
        sgpd.IsOptFieldEnabled "RollDistancesL" ctx = false
        ∧ sgpd.IsOptFieldEnabled "AlternativeStartupEntriesL" ctx = false
        ∧ sgpd.IsOptFieldEnabled "VisualRandomAccessEntriesL" ctx = false
        ∧ sgpd.IsOptFieldEnabled "TemporalLevelEntriesL" ctx = false) := by
  obtain ⟨h1, h2, h3, h4, h5, h6, h7, h8, -⟩ := sgpd_enabled_values sgpd ctx
  rw [h1, h2, h3, h4, h5, h6, h7, h8]
  refine ⟨?_, ?_, ?_, ?_, ?_⟩
  · rintro (g | g) <;> rw [g] <;> simp +decide <;> tauto
  · intro g; rw [g]; simp +decide; tauto
  · intro g; rw [g]; simp +decide; tauto
  · intro g; rw [g]; simp +decide; tauto
  · intro hv; rw [hv]; simp +decide

theorem sgpd_length_prefixed_variant_witness :
    (Sgpd.IsOptFieldEnabled
        ⟨⟨1, ⟨0, 0, 0⟩⟩, fccRoll, 0, 0, 1, [], [⟨2, -1⟩], [], [], [], [], [], [], []⟩
        "RollDistancesL" ⟨false, false⟩ = true
      ↔ ((1 : Byte) = 1 ∧ (0 : U32) = 0))
    ∧ Sgpd.IsOptFieldEnabled
        ⟨⟨2, ⟨0, 0, 0⟩⟩, fccAlst, 0, 0, 1, [], [], [], [], [], [], [], [], []⟩
        "AlternativeStartupEntriesL" ⟨false, false⟩ = false :=
  ⟨((sgpd_length_prefixed_variant
        ⟨⟨1, ⟨0, 0, 0⟩⟩, fccRoll, 0, 0, 1, [], [⟨2, -1⟩], [], [], [], [], [], [], []⟩
        ⟨false, false⟩).1 (Or.inl rfl)).1,
   ((sgpd_length_prefixed_variant
        ⟨⟨2, ⟨0, 0, 0⟩⟩, fccAlst, 0, 0, 1, [], [], [], [], [], [], [], [], []⟩
        ⟨false, false⟩).2.2.2.2 rfl).2.1⟩

/-! ### colr -/

/-- C6: `Colr.IsOptFieldEnabled` depends on `ColourType` alone (two boxes with
the same `ColourType` agree on every name under every context); among the
seven optional fields it enables exactly `ColourPrimaries`,
`TransferCharacteristics`, `MatrixCoefficients`, `FullRangeFlag`, `Reserved`
for `nclx`, exactly `Profile` for `rICC` and for `prof`, and exactly `Unknown`
for every other `ColourType`. -/
theorem colr_isOptFieldEnabled_shape (colr : Colr) (ctx : Context) :
    (∀ (other : Colr) (ctx2 : Context) (name : String),
        other.ColourType = colr.ColourType →
        other.IsOptFieldEnabled name ctx2 = colr.IsOptFieldEnabled name ctx)
    ∧ (colr.ColourType = fccNclx →
        Colr.optFields.filter (fun n => colr.IsOptFieldEnabled n ctx)
          = ["ColourPrimaries", "TransferCharacteristics", "MatrixCoefficients",
             "FullRangeFlag", "Reserved"])
    ∧ ((colr.ColourType = fccRICC ∨ colr.ColourType = fccProf) →
        Colr.optFields.filter (fun n => colr.IsOptFieldEnabled n ctx) = ["Profile"])
    ∧ ((colr.ColourType ≠ fccNclx ∧ colr.ColourType ≠ fccRICC
          ∧ colr.ColourType ≠ fccProf) →
        Colr.optFields.filter (fun n => colr.IsOptFieldEnabled n ctx) = ["Unknown"]) := by
  refine ⟨?_, ?_, ?_, ?_⟩
  · intro other ctx2 name h
    simp only [Colr.IsOptFieldEnabled, h]
  · intro h
    simp only [Colr.optFields, List.filter_cons, List.filter_nil, Colr.IsOptFieldEnabled, h]
    decide
  · rintro (h | h) <;>
      simp only [Colr.optFields, List.filter_cons, List.filter_nil, Colr.IsOptFieldEnabled, h]
        <;> decide
  · rintro ⟨h1, h2, h3⟩
    simp only [Colr.optFields, List.filter_cons, List.filter_nil, Colr.IsOptFieldEnabled,
      if_neg h1, h2, h3, or_self, if_false]
    decide

theorem colr_isOptFieldEnabled_shape_witness :
    Colr.optFields.filter
        (fun n => Colr.IsOptFieldEnabled ⟨fccNclx, 1, 13, 6, true, 0, [], []⟩ n ⟨false, false⟩)
      = ["ColourPrimaries", "TransferCharacteristics", "MatrixCoefficients",
         "FullRangeFlag", "Reserved"]
    ∧ Colr.optFields.filter
        (fun n => Colr.IsOptFieldEnabled ⟨fccProf, 0, 0, 0, false, 0, [1, 2], []⟩ n
          ⟨false, false⟩) = ["Profile"]
    ∧ Colr.optFields.filter
        (fun n => Colr.IsOptFieldEnabled ⟨⟨0x6e, 0x63, 0x6c, 0x63⟩, 0, 0, 0, false, 0, [], [9]⟩ n
          ⟨false, false⟩) = ["Unknown"] :=
  ⟨(colr_isOptFieldEnabled_shape ⟨fccNclx, 1, 13, 6, true, 0, [], []⟩ ⟨false, false⟩).2.1 rfl,
   (colr_isOptFieldEnabled_shape ⟨fccProf, 0, 0, 0, false, 0, [1, 2], []⟩
      ⟨false, false⟩).2.2.1 (Or.inr rfl),
   (colr_isOptFieldEnabled_shape ⟨⟨0x6e, 0x63, 0x6c, 0x63⟩, 0, 0, 0, false, 0, [], [9]⟩
      ⟨false, false⟩).2.2.2 (by decide)⟩

/-! ### AudioSampleEntry -/

/-- C7: for every `AudioSampleEntry` and `Context`,
`IsOptFieldEnabled("QuickTimeData")` is true iff `IsQuickTimeCompatible` holds
and (`UnderWave` holds or `EntryVersion` is 1 or 2); when
`IsQuickTimeCompatible` is false the trailing blob is never enabled. -/
theorem audioSampleEntry_quickTimeData_enabled (ase : AudioSampleEntry) (ctx : Context) :
    (ase.IsOptFieldEnabled "QuickTimeData" ctx = true
      ↔ (ctx.IsQuickTimeCompatible = true
          ∧ (ctx.UnderWave = true ∨ ase.EntryVersion = 1 ∨ ase.EntryVersion = 2)))
    ∧ (ctx.IsQuickTimeCompatible = false →
        ase.IsOptFieldEnabled "QuickTimeData" ctx = false) := by
  constructor
  · simp [AudioSampleEntry.IsOptFieldEnabled, or_assoc]
  · intro h
    simp [AudioSampleEntry.IsOptFieldEnabled, h]

theorem audioSampleEntry_quickTimeData_enabled_witness :
    AudioSampleEntry.IsOptFieldEnabled ⟨⟨[0, 0, 0, 0, 0, 0], 1⟩, 1, [0, 0, 0], 2, 16, 0, 0, 0, []⟩
      "QuickTimeData" ⟨false, true⟩ = false :=
  (audioSampleEntry_quickTimeData_enabled
    ⟨⟨[0, 0, 0, 0, 0, 0], 1⟩, 1, [0, 0, 0], 2, 16, 0, 0, 0, []⟩ ⟨false, true⟩).2 rfl

/-- C8: under a QuickTime-compatible context `GetFieldLength("QuickTimeData")`
is `LengthUnlimited` under wave (whatever `EntryVersion` is), 16 when not
under wave with `EntryVersion = 1`, 36 when not under wave with
`EntryVersion = 2`; it is 0 in every other case, in particular in every
context that is not QuickTime-compatible and for every other field name; so
whenever `IsOptFieldEnabled("QuickTimeData")` is true the length is one of
`LengthUnlimited`, 16, 36. -/
theorem audioSampleEntry_getFieldLength (LengthUnlimited : Nat) (ase : AudioSampleEntry)
    (ctx : Context) :
    (ctx.IsQuickTimeCompatible = true →
        (ctx.UnderWave = true →
          ase.GetFieldLength LengthUnlimited "QuickTimeData" ctx = LengthUnlimited)
        ∧ (ctx.UnderWave = false → ase.EntryVersion = 1 →
          ase.GetFieldLength LengthUnlimited "QuickTimeData" ctx = 16)
        ∧ (ctx.UnderWave = false → ase.EntryVersion = 2 →
          ase.GetFieldLength LengthUnlimited "QuickTimeData" ctx = 36)
        ∧ (ctx.UnderWave = false → ase.EntryVersion ≠ 1 → ase.EntryVersion ≠ 2 →
          ase.GetFieldLength LengthUnlimited "QuickTimeData" ctx = 0))
    ∧ (ctx.IsQuickTimeCompatible = false →
        ∀ name, ase.GetFieldLength LengthUnlimited name ctx = 0)
    ∧ (∀ name, name ≠ "QuickTimeData" → ase.GetFieldLength LengthUnlimited name ctx = 0)
    ∧ (ase.IsOptFieldEnabled "QuickTimeData" ctx = true →
        ase.GetFieldLength LengthUnlimited "QuickTimeData" ctx ∈ [LengthUnlimited, 16, 36]) := by
  refine ⟨?_, ?_, ?_, ?_⟩
  · intro hq
    refine ⟨?_, ?_, ?_, ?_⟩
    · intro hw
      simp [AudioSampleEntry.GetFieldLength, hq, hw]
    · intro hw hv
      simp [AudioSampleEntry.GetFieldLength, hq, hw, hv]
    · intro hw hv
      simp [AudioSampleEntry.GetFieldLength, hq, hw, hv]
    · intro hw hv1 hv2
      simp [AudioSampleEntry.GetFieldLength, hq, hw, hv1, hv2]
  · intro hq name
    simp [AudioSampleEntry.GetFieldLength, hq]
  · intro name hn
    simp [AudioSampleEntry.GetFieldLength, hn]
  · intro he
    simp only [AudioSampleEntry.IsOptFieldEnabled, if_true, Bool.and_eq_true, Bool.or_eq_true,
      beq_iff_eq] at he
    obtain ⟨hq, hrest⟩ := he
    cases hw : ctx.UnderWave
    · by_cases hv1 : ase.EntryVersion = 1
      · simp [AudioSampleEntry.GetFieldLength, hq, hw, hv1]
      · have hv2 : ase.EntryVersion = 2 := by
          rcases hrest with (h | h) | h
          · rw [hw] at h; cases h
          · exact absurd h hv1
          · exact h
        simp [AudioSampleEntry.GetFieldLength, hq, hw, hv2]
    · simp [AudioSampleEntry.GetFieldLength, hq, hw]

theorem audioSampleEntry_getFieldLength_witness :
    AudioSampleEntry.GetFieldLength 4294967295
        ⟨⟨[0, 0, 0, 0, 0, 0], 1⟩, 0, [0, 0, 0], 2, 16, 0, 0, 0, [1, 2]⟩ "QuickTimeData"
        ⟨true, true⟩ = 4294967295
    ∧ AudioSampleEntry.GetFieldLength 4294967295
        ⟨⟨[0, 0, 0, 0, 0, 0], 1⟩, 1, [0, 0, 0], 2, 16, 0, 0, 0, []⟩ "QuickTimeData"
        ⟨true, false⟩ = 16
    ∧ AudioSampleEntry.GetFieldLength 4294967295
        ⟨⟨[0, 0, 0, 0, 0, 0], 1⟩, 2, [0, 0, 0], 2, 16, 0, 0, 0, []⟩ "QuickTimeData"
        ⟨true, false⟩ = 36
    ∧ AudioSampleEntry.GetFieldLength 4294967295
        ⟨⟨[0, 0, 0, 0, 0, 0], 1⟩, 0, [0, 0, 0], 2, 16, 0, 0, 0, []⟩ "QuickTimeData"
        ⟨true, false⟩ = 0
    ∧ AudioSampleEntry.GetFieldLength 4294967295
        ⟨⟨[0, 0, 0, 0, 0, 0], 1⟩, 1, [0, 0, 0], 2, 16, 0, 0, 0, []⟩ "QuickTimeData"
        ⟨false, true⟩ = 0
    ∧ AudioSampleEntry.GetFieldLength 4294967295
        ⟨⟨[0, 0, 0, 0, 0, 0], 1⟩, 1, [0, 0, 0], 2, 16, 0, 0, 0, []⟩ "SampleRate"
        ⟨true, true⟩ = 0
    ∧ AudioSampleEntry.GetFieldLength 4294967295
        ⟨⟨[0, 0, 0, 0, 0, 0], 1⟩, 2, [0, 0, 0], 2, 16, 0, 0, 0, []⟩ "QuickTimeData"
        ⟨true, false⟩ ∈ [4294967295, 16, 36] :=
  ⟨((audioSampleEntry_getFieldLength 4294967295
        ⟨⟨[0, 0, 0, 0, 0, 0], 1⟩, 0, [0, 0, 0], 2, 16, 0, 0, 0, [1, 2]⟩ ⟨true, true⟩).1 rfl).1
      rfl,
   ((audioSampleEntry_getFieldLength 4294967295
        ⟨⟨[0, 0, 0, 0, 0, 0], 1⟩, 1, [0, 0, 0], 2, 16, 0, 0, 0, []⟩ ⟨true, false⟩).1 rfl).2.1
      rfl rfl,
   ((audioSampleEntry_getFieldLength 4294967295
        ⟨⟨[0, 0, 0, 0, 0, 0], 1⟩, 2, [0, 0, 0], 2, 16, 0, 0, 0, []⟩ ⟨true, false⟩).1 rfl).2.2.1
      rfl rfl,
   ((audioSampleEntry_getFieldLength 4294967295
        ⟨⟨[0, 0, 0, 0, 0, 0], 1⟩, 0, [0, 0, 0], 2, 16, 0, 0, 0, []⟩ ⟨true, false⟩).1 rfl).2.2.2
      rfl (by decide) (by decide),
   (audioSampleEntry_getFieldLength 4294967295
        ⟨⟨[0, 0, 0, 0, 0, 0], 1⟩, 1, [0, 0, 0], 2, 16, 0, 0, 0, []⟩ ⟨false, true⟩).2.1 rfl
      "QuickTimeData",
   (audioSampleEntry_getFieldLength 4294967295
        ⟨⟨[0, 0, 0, 0, 0, 0], 1⟩, 1, [0, 0, 0], 2, 16, 0, 0, 0, []⟩ ⟨true, true⟩).2.2.1
      "SampleRate" (by decide),
   (audioSampleEntry_getFieldLength 4294967295
        ⟨⟨[0, 0, 0, 0, 0, 0], 1⟩, 2, [0, 0, 0], 2, 16, 0, 0, 0, []⟩ ⟨true, false⟩).2.2.2
      (by decide)⟩

/-- C9: for every field name of `AudioSampleEntry` other than `QuickTimeData`,
`IsOptFieldEnabled` returns false iff the context is both QuickTime-compatible
and under a wave box; so under wave in a QuickTime file the only enabled field
is `QuickTimeData`, and in every other context all the other fields
(`SampleEntry`, `EntryVersion`, `Reserved`, `ChannelCount`, `SampleSize`,
`PreDefined`, `Reserved2`, `SampleRate`) are enabled. -/
theorem audioSampleEntry_plain_fields (ase : AudioSampleEntry) (ctx : Context) :
    (∀ name, name ≠ "QuickTimeData" →
        (ase.IsOptFieldEnabled name ctx = false
          ↔ (ctx.IsQuickTimeCompatible = true ∧ ctx.UnderWave = true)))
    ∧ (∀ name ∈ AudioSampleEntry.plainFields,
        (ase.IsOptFieldEnabled name ctx = false
          ↔ (ctx.IsQuickTimeCompatible = true ∧ ctx.UnderWave = true)))
    ∧ ((ctx.IsQuickTimeCompatible = true ∧ ctx.UnderWave = true) →
        (AudioSampleEntry.plainFields ++ ["QuickTimeData"]).filter
            (fun n => ase.IsOptFieldEnabled n ctx) = ["QuickTimeData"])
    ∧ (¬ (ctx.IsQuickTimeCompatible = true ∧ ctx.UnderWave = true) →
        AudioSampleEntry.plainFields.filter (fun n => ase.IsOptFieldEnabled n ctx)
          = AudioSampleEntry.plainFields) := by
  have key : ∀ name, name ≠ "QuickTimeData" →
      (ase.IsOptFieldEnabled name ctx = false
        ↔ (ctx.IsQuickTimeCompatible = true ∧ ctx.UnderWave = true)) := by
    intro name hn
    simp only [AudioSampleEntry.IsOptFieldEnabled, if_neg hn]
    cases ctx.IsQuickTimeCompatible <;> cases ctx.UnderWave <;> simp
  have hne : ∀ name ∈ AudioSampleEntry.plainFields, name ≠ "QuickTimeData" := by decide
  refine ⟨key, fun name hm => key name (hne name hm), ?_, ?_⟩
  · rintro ⟨hq, hw⟩
    simp [AudioSampleEntry.plainFields, List.filter_cons, AudioSampleEntry.IsOptFieldEnabled,
      hq, hw]
  · intro h
    rw [List.filter_eq_self]
    intro name hm
    have := key name (hne name hm)
    cases hb : ase.IsOptFieldEnabled name ctx
    · exact absurd (this.1 hb) h
    · rfl

theorem audioSampleEntry_plain_fields_witness :
    (AudioSampleEntry.IsOptFieldEnabled
        ⟨⟨[0, 0, 0, 0, 0, 0], 1⟩, 0, [0, 0, 0], 2, 16, 0, 0, 0, [1, 2]⟩ "EntryVersion"
        ⟨true, true⟩ = false
      ↔ ((⟨true, true⟩ : Context).IsQuickTimeCompatible = true
          ∧ (⟨true, true⟩ : Context).UnderWave = true))
    ∧ (AudioSampleEntry.plainFields ++ ["QuickTimeData"]).filter
        (fun n => AudioSampleEntry.IsOptFieldEnabled
          ⟨⟨[0, 0, 0, 0, 0, 0], 1⟩, 0, [0, 0, 0], 2, 16, 0, 0, 0, [1, 2]⟩ n ⟨true, true⟩)
        = ["QuickTimeData"]
    ∧ AudioSampleEntry.plainFields.filter
        (fun n => AudioSampleEntry.IsOptFieldEnabled
          ⟨⟨[0, 0, 0, 0, 0, 0], 1⟩, 0, [0, 0, 0], 2, 16, 0, 0, 0, []⟩ n ⟨false, true⟩)
        = AudioSampleEntry.plainFields :=
  ⟨(audioSampleEntry_plain_fields
        ⟨⟨[0, 0, 0, 0, 0, 0], 1⟩, 0, [0, 0, 0], 2, 16, 0, 0, 0, [1, 2]⟩ ⟨true, true⟩).1
      "EntryVersion" (by decide),
   (audioSampleEntry_plain_fields
        ⟨⟨[0, 0, 0, 0, 0, 0], 1⟩, 0, [0, 0, 0], 2, 16, 0, 0, 0, [1, 2]⟩ ⟨true, true⟩).2.2.1
      ⟨rfl, rfl⟩,
   (audioSampleEntry_plain_fields
        ⟨⟨[0, 0, 0, 0, 0, 0], 1⟩, 0, [0, 0, 0], 2, 16, 0, 0, 0, []⟩ ⟨false, true⟩).2.2.2
      (by decide)⟩

/-! ### meta -/

theorem readFull_ok_iff (r : ReadSeeker) (n : Nat) (buf : List Byte) (r1 : ReadSeeker) :
    r.ReadFull n = (.ok buf, r1)
      ↔ (((r.data.drop r.pos).take n).length = n ∧ buf = (r.data.drop r.pos).take n
          ∧ r1 = { r with pos := r.pos + n }) := by
  unfold ReadSeeker.ReadFull
  by_cases h : ((r.data.drop r.pos).take n).length = n
  · simp only [h, if_true, Prod.mk.injEq, Except.ok.injEq, true_and]
    constructor
    · rintro ⟨rfl, rfl⟩; exact ⟨rfl, rfl⟩
    · rintro ⟨rfl, rfl⟩; exact ⟨rfl, rfl⟩
  · rw [if_neg h]
    constructor
    · intro hh
      have := (Prod.mk.inj hh).1
      cases this
    · rintro ⟨h1, -⟩
      exact absurd h1 h

theorem seekCurrent_back (r : ReadSeeker) (n : Nat) (h : r.seekErr = none) :
    ReadSeeker.SeekCurrent { r with pos := r.pos + n } (-(n : Int)) = (.ok r.pos, r) := by
  obtain ⟨d, p, ee, se⟩ := r
  simp only at h
  subst h
  have e : ((p + n : Nat) : Int) + -(n : Int) = (p : Int) := by omega
  have hp : ¬ ((p : Int) < 0) := by omega
  simp only [ReadSeeker.SeekCurrent, e, if_neg hp, Int.toNat_ofNat]

/-- The result of `Meta.BeforeUnmarshal` when four bytes can be read and the
reader can seek: the reader is back where it was and `override` tells whether
one of the four bytes is non-zero. -/
theorem meta_beforeUnmarshal_peek (box : Meta) (r : ReadSeeker) (size : Nat) (ctx : Context)
    (b0 b1 b2 b3 : Byte) (hd : (r.data.drop r.pos).take 4 = [b0, b1, b2, b3])
    (hs : r.seekErr = none) :
    Meta.BeforeUnmarshal box r size ctx =
      if b0.val ||| b1.val ||| b2.val ||| b3.val ≠ 0 then
        (⟨0, true, none⟩, { box with toFullBox := { Version := 0, Flags := ⟨0, 0, 0⟩ } }, r)
      else
        (⟨0, false, none⟩, box, r) := by
  have hr : r.ReadFull 4 = (.ok [b0, b1, b2, b3], { r with pos := r.pos + 4 }) := by
    rw [readFull_ok_iff]
    exact ⟨by rw [hd]; rfl, hd.symm, rfl⟩
  have hk := seekCurrent_back r 4 hs
  simp only [Meta.BeforeUnmarshal, hr]
  simp only [Nat.cast_ofNat] at hk
  rw [hk]
  simp

theorem list_length_four {α : Type} (l : List α) (h : l.length = 4) :
    ∃ a b c d, l = [a, b, c, d] := by
  rcases l with _ | ⟨a, _ | ⟨b, _ | ⟨c, _ | ⟨d, _ | ⟨e, t⟩⟩⟩⟩⟩ <;> simp at h
  exact ⟨a, b, c, d, rfl⟩

/-- The result of `Meta.BeforeUnmarshal` when fewer than four bytes can be
read: the error of the failed read is returned and the box is untouched. -/
theorem meta_beforeUnmarshal_read_fails (box : Meta) (r : ReadSeeker) (size : Nat)
    (ctx : Context) (h : ((r.data.drop r.pos).take 4).length ≠ 4) :
    ∃ e r1, r.ReadFull 4 = (.error e, r1)
      ∧ Meta.BeforeUnmarshal box r size ctx = (⟨0, false, some e⟩, box, r1) := by
  have hr : ∃ e r1, r.ReadFull 4 = (.error e, r1) := by
    unfold ReadSeeker.ReadFull
    rw [if_neg h]
    exact ⟨_, _, rfl⟩
  obtain ⟨e, r1, hr⟩ := hr
  exact ⟨e, r1, hr, by simp only [Meta.BeforeUnmarshal, hr]⟩

/-- The result of `Meta.BeforeUnmarshal` when four bytes can be read but the
seek back fails: the error of the seek is returned and the box is untouched. -/
theorem meta_beforeUnmarshal_seek_fails (box : Meta) (r : ReadSeeker) (size : Nat)
    (ctx : Context) (e : IoError) (hl : ((r.data.drop r.pos).take 4).length = 4)
    (hs : r.seekErr = some e) :
    Meta.BeforeUnmarshal box r size ctx
      = (⟨0, false, some e⟩, box, { r with pos := r.pos + 4 }) := by
  have hr : r.ReadFull 4 = (.ok ((r.data.drop r.pos).take 4), { r with pos := r.pos + 4 }) := by
    rw [readFull_ok_iff]
    exact ⟨hl, rfl, rfl⟩
  simp only [Meta.BeforeUnmarshal, hr, ReadSeeker.SeekCurrent, hs]

/-- C10 (as stated, refuted): with `IsQuickTimeCompatible = false`, on a
reader whose next four bytes are `00 00 00 21` (the size of a child box, as in
a QuickTime `meta` payload) `Meta.BeforeUnmarshal` returns `override = true`
with no error, so the FullBox header is not read from the stream. -/
theorem meta_beforeUnmarshal_overrides_without_quickTime :
    (⟨false, false⟩ : Context).IsQuickTimeCompatible = false
    ∧ Meta.BeforeUnmarshal ⟨⟨0, ⟨0, 0, 0⟩⟩⟩
        ⟨[0x00, 0x00, 0x00, 0x21, 0x68, 0x64, 0x6c, 0x72], 0, IoError.EOF, none⟩ 33
        ⟨false, false⟩
      = (⟨0, true, none⟩, ⟨⟨0, ⟨0, 0, 0⟩⟩⟩,
          ⟨[0x00, 0x00, 0x00, 0x21, 0x68, 0x64, 0x6c, 0x72], 0, IoError.EOF, none⟩) := by
  decide

/-- C10 (amended): `Meta.BeforeUnmarshal` does not consult the context, so it
behaves with `IsQuickTimeCompatible = false` as under every other context: it
returns `override = true` exactly when four bytes can be read, the reader can
seek back, and one of the four bytes is non-zero; in every other case (all
four bytes zero, or a failed read or seek) it returns `override = false` and
leaves `Version` and `Flags` as they were. -/
theorem meta_beforeUnmarshal_context_free (box : Meta) (r : ReadSeeker) (size : Nat)
    (ctx : Context) :
    (∀ ctx2 : Context,
        Meta.BeforeUnmarshal box r size ctx2 = Meta.BeforeUnmarshal box r size ctx)
    ∧ ((Meta.BeforeUnmarshal box r size ctx).1.override = true
        ↔ ∃ b0 b1 b2 b3 : Byte, (r.data.drop r.pos).take 4 = [b0, b1, b2, b3]
            ∧ r.seekErr = none ∧ b0.val ||| b1.val ||| b2.val ||| b3.val ≠ 0)
    ∧ ((Meta.BeforeUnmarshal box r size ctx).1.override = false →
        (Meta.BeforeUnmarshal box r size ctx).2.1 = box) := by
  refine ⟨fun _ => rfl, ?_, ?_⟩
  · by_cases hl : ((r.data.drop r.pos).take 4).length = 4
    · obtain ⟨b0, b1, b2, b3, hd⟩ := list_length_four _ hl
      cases hs : r.seekErr with
      | none =>
        rw [meta_beforeUnmarshal_peek box r size ctx b0 b1 b2 b3 hd hs]
        by_cases hb : b0.val ||| b1.val ||| b2.val ||| b3.val ≠ 0
        · rw [if_pos hb]
          exact ⟨fun _ => ⟨b0, b1, b2, b3, hd, rfl, hb⟩, fun _ => rfl⟩
        · rw [if_neg hb]
          constructor
          · intro h; cases h
          · rintro ⟨c0, c1, c2, c3, hc, -, hne⟩
            rw [hd] at hc
            injection hc with e0 hc
            injection hc with e1 hc
            injection hc with e2 hc
            injection hc with e3 hc
            subst e0 e1 e2 e3
            exact absurd hne hb
      | some e =>
        rw [meta_beforeUnmarshal_seek_fails box r size ctx e hl hs]
        constructor
        · intro h; cases h
        · rintro ⟨_, _, _, _, -, h, -⟩; cases h
    · obtain ⟨e, r1, -, hb⟩ := meta_beforeUnmarshal_read_fails box r size ctx hl
      rw [hb]
      constructor
      · intro h; cases h
      · rintro ⟨c0, c1, c2, c3, hc, -, -⟩
        rw [hc] at hl
        exact absurd rfl hl
  · by_cases hl : ((r.data.drop r.pos).take 4).length = 4
    · obtain ⟨b0, b1, b2, b3, hd⟩ := list_length_four _ hl
      cases hs : r.seekErr with
      | none =>
        rw [meta_beforeUnmarshal_peek box r size ctx b0 b1 b2 b3 hd hs]
        by_cases hb : b0.val ||| b1.val ||| b2.val ||| b3.val ≠ 0
        · rw [if_pos hb]; intro h; cases h
        · rw [if_neg hb]; intro _; rfl
      | some e =>
        rw [meta_beforeUnmarshal_seek_fails box r size ctx e hl hs]
        intro _; rfl
    · obtain ⟨e, r1, -, hb⟩ := meta_beforeUnmarshal_read_fails box r size ctx hl
      rw [hb]
      intro _; rfl

theorem meta_beforeUnmarshal_context_free_witness :
    (Meta.BeforeUnmarshal ⟨⟨3, ⟨0, 0, 1⟩⟩⟩
        ⟨[0x00, 0x00, 0x00, 0x00, 0x00, 0x00, 0x00, 0x21], 0, IoError.EOF, none⟩ 41
        ⟨false, false⟩).2.1 = ⟨⟨3, ⟨0, 0, 1⟩⟩⟩ :=
  (meta_beforeUnmarshal_context_free ⟨⟨3, ⟨0, 0, 1⟩⟩⟩
    ⟨[0x00, 0x00, 0x00, 0x00, 0x00, 0x00, 0x00, 0x21], 0, IoError.EOF, none⟩ 41
    ⟨false, false⟩).2.2 (by decide)

theorem nat_or_eq_zero_iff (a b : Nat) : a ||| b = 0 ↔ a = 0 ∧ b = 0 := by
  constructor
  · intro h
    constructor
    · by_contra ha
      obtain ⟨i, hi⟩ := Nat.ne_zero_implies_bit_true ha
      have : (a ||| b).testBit i = true := by rw [Nat.testBit_or, hi]; rfl
      rw [h] at this
      simp at this
    · by_contra hb
      obtain ⟨i, hi⟩ := Nat.ne_zero_implies_bit_true hb
      have : (a ||| b).testBit i = true := by rw [Nat.testBit_or, hi]; simp
      rw [h] at this
      simp at this
  · rintro ⟨rfl, rfl⟩
    rfl

theorem bytes_or_ne_zero_iff (b0 b1 b2 b3 : Byte) :
    b0.val ||| b1.val ||| b2.val ||| b3.val ≠ 0 ↔ (b0 ≠ 0 ∨ b1 ≠ 0 ∨ b2 ≠ 0 ∨ b3 ≠ 0) := by
  rw [Ne, nat_or_eq_zero_iff, nat_or_eq_zero_iff, nat_or_eq_zero_iff]
  have e : ∀ b : Byte, b.val = 0 ↔ b = 0 := fun b => by
    constructor
    · intro h; exact Fin.ext h
    · intro h; rw [h]; rfl
  rw [e b0, e b1, e b2, e b3]
  constructor
  · intro h
    by_contra hc
    push_neg at hc
    exact h ⟨⟨⟨hc.1, hc.2.1⟩, hc.2.2.1⟩, hc.2.2.2⟩
  · rintro h ⟨⟨⟨h0, h1⟩, h2⟩, h3⟩
    rcases h with h | h | h | h
    · exact h h0
    · exact h h1
    · exact h h2
    · exact h h3

/-- C11 (as stated, refuted): a reader with four bytes remaining, the last of
them non-zero, whose seek back fails: `Meta.BeforeUnmarshal` returns
`override = false` and leaves `Version` and `Flags` as they were, although one
of the next four bytes is non-zero. -/
theorem meta_beforeUnmarshal_unseekable_no_override :
    ((([0x00, 0x00, 0x00, 0x21, 0x68, 0x64, 0x6c, 0x72] : List Byte).drop 0).take 4
        = [0x00, 0x00, 0x00, 0x21])
    ∧ (0x21 : Byte) ≠ 0
    ∧ (Meta.BeforeUnmarshal ⟨⟨5, ⟨1, 2, 3⟩⟩⟩
        ⟨[0x00, 0x00, 0x00, 0x21, 0x68, 0x64, 0x6c, 0x72], 0, IoError.EOF,
          some (IoError.other "not seekable")⟩ 33 ⟨true, false⟩).1.override = false
    ∧ (Meta.BeforeUnmarshal ⟨⟨5, ⟨1, 2, 3⟩⟩⟩
        ⟨[0x00, 0x00, 0x00, 0x21, 0x68, 0x64, 0x6c, 0x72], 0, IoError.EOF,
          some (IoError.other "not seekable")⟩ 33 ⟨true, false⟩).2.1
      = ⟨⟨5, ⟨1, 2, 3⟩⟩⟩ := by
  decide

/-- C11 (amended): on a reader with at least four bytes remaining whose seek
back succeeds, `Meta.BeforeUnmarshal` returns `override = true` iff one of the next four
bytes is non-zero, and then sets `Version` to 0 and `Flags` to `{0, 0, 0}`;
when all four bytes are zero it returns `override = false` and leaves the box
as it was; the returned values and the resulting box are the same for any
other reader state with the same next four bytes, any `size` and any
context. -/
theorem meta_beforeUnmarshal_four_bytes (box : Meta) (r : ReadSeeker) (size : Nat)
    (ctx : Context) (b0 b1 b2 b3 : Byte)
    (hd : (r.data.drop r.pos).take 4 = [b0, b1, b2, b3]) (hs : r.seekErr = none) :
    ((Meta.BeforeUnmarshal box r size ctx).1.override = true
        ↔ (b0 ≠ 0 ∨ b1 ≠ 0 ∨ b2 ≠ 0 ∨ b3 ≠ 0))
    ∧ ((b0 ≠ 0 ∨ b1 ≠ 0 ∨ b2 ≠ 0 ∨ b3 ≠ 0) →
        (Meta.BeforeUnmarshal box r size ctx).2.1.toFullBox.Version = 0
        ∧ (Meta.BeforeUnmarshal box r size ctx).2.1.toFullBox.Flags = ⟨0, 0, 0⟩)
    ∧ ((b0 = 0 ∧ b1 = 0 ∧ b2 = 0 ∧ b3 = 0) →
        (Meta.BeforeUnmarshal box r size ctx).1 = ⟨0, false, none⟩
        ∧ (Meta.BeforeUnmarshal box r size ctx).2.1 = box)
    ∧ (∀ (r2 : ReadSeeker) (size2 : Nat) (ctx2 : Context),
        (r2.data.drop r2.pos).take 4 = [b0, b1, b2, b3] → r2.seekErr = none →
        (Meta.BeforeUnmarshal box r2 size2 ctx2).1 = (Meta.BeforeUnmarshal box r size ctx).1
        ∧ (Meta.BeforeUnmarshal box r2 size2 ctx2).2.1
            = (Meta.BeforeUnmarshal box r size ctx).2.1) := by
  have hp := meta_beforeUnmarshal_peek box r size ctx b0 b1 b2 b3 hd hs
  have hiff := bytes_or_ne_zero_iff b0 b1 b2 b3
  refine ⟨?_, ?_, ?_, ?_⟩
  · rw [hp, ← hiff]
    by_cases hb : b0.val ||| b1.val ||| b2.val ||| b3.val ≠ 0
    · rw [if_pos hb]; exact ⟨fun _ => hb, fun _ => rfl⟩
    · rw [if_neg hb]; exact ⟨fun h => (by cases h), fun h => absurd h hb⟩
  · intro hne
    rw [hp, if_pos (hiff.2 hne)]
    exact ⟨rfl, rfl⟩
  · rintro ⟨h0, h1, h2, h3⟩
    have hb : ¬ (b0.val ||| b1.val ||| b2.val ||| b3.val ≠ 0) := by
      rw [hiff]; simp [h0, h1, h2, h3]
    rw [hp, if_neg hb]
    exact ⟨rfl, rfl⟩
  · intro r2 size2 ctx2 hd2 hs2
    rw [hp, meta_beforeUnmarshal_peek box r2 size2 ctx2 b0 b1 b2 b3 hd2 hs2]
    by_cases hb : b0.val ||| b1.val ||| b2.val ||| b3.val ≠ 0
    · rw [if_pos hb, if_pos hb]; exact ⟨rfl, rfl⟩
    · rw [if_neg hb, if_neg hb]; exact ⟨rfl, rfl⟩

theorem meta_beforeUnmarshal_four_bytes_witness :
    ((Meta.BeforeUnmarshal ⟨⟨5, ⟨1, 2, 3⟩⟩⟩
        ⟨[0xff, 0x00, 0x00, 0x00, 0x21, 0x68, 0x64, 0x6c, 0x72], 1, IoError.EOF, none⟩ 33
        ⟨true, false⟩).1.override = true
      ↔ ((0x00 : Byte) ≠ 0 ∨ (0x00 : Byte) ≠ 0 ∨ (0x00 : Byte) ≠ 0 ∨ (0x21 : Byte) ≠ 0))
    ∧ (Meta.BeforeUnmarshal ⟨⟨5, ⟨1, 2, 3⟩⟩⟩
        ⟨[0xff, 0x00, 0x00, 0x00, 0x21, 0x68, 0x64, 0x6c, 0x72], 1, IoError.EOF, none⟩ 33
        ⟨true, false⟩).2.1.toFullBox.Version = 0
    ∧ (Meta.BeforeUnmarshal ⟨⟨5, ⟨1, 2, 3⟩⟩⟩
        ⟨[0x00, 0x00, 0x00, 0x00, 0x21], 0, IoError.EOF, none⟩ 33 ⟨true, false⟩).2.1
      = ⟨⟨5, ⟨1, 2, 3⟩⟩⟩ :=
  ⟨(meta_beforeUnmarshal_four_bytes ⟨⟨5, ⟨1, 2, 3⟩⟩⟩
      ⟨[0xff, 0x00, 0x00, 0x00, 0x21, 0x68, 0x64, 0x6c, 0x72], 1, IoError.EOF, none⟩ 33
      ⟨true, false⟩ 0x00 0x00 0x00 0x21 (by decide) rfl).1,
   ((meta_beforeUnmarshal_four_bytes ⟨⟨5, ⟨1, 2, 3⟩⟩⟩
      ⟨[0xff, 0x00, 0x00, 0x00, 0x21, 0x68, 0x64, 0x6c, 0x72], 1, IoError.EOF, none⟩ 33
      ⟨true, false⟩ 0x00 0x00 0x00 0x21 (by decide) rfl).2.1 (by decide)).1,
   ((meta_beforeUnmarshal_four_bytes ⟨⟨5, ⟨1, 2, 3⟩⟩⟩
      ⟨[0x00, 0x00, 0x00, 0x00, 0x21], 0, IoError.EOF, none⟩ 33 ⟨true, false⟩
      0x00 0x00 0x00 0x00 (by decide) rfl).2.2.1 (by decide)).2⟩

/-- C12: `Meta.BeforeUnmarshal` is a pure peek: the reported byte count `n`
is always 0, and on every return without error the reader is in the state,
in particular at the position, it had at entry, whether or not `override` is
set. -/
theorem meta_beforeUnmarshal_pure_peek (box : Meta) (r : ReadSeeker) (size : Nat)
    (ctx : Context) :
    (Meta.BeforeUnmarshal box r size ctx).1.n = 0
    ∧ ((Meta.BeforeUnmarshal box r size ctx).1.err = none →
        (Meta.BeforeUnmarshal box r size ctx).2.2.pos = r.pos
        ∧ (Meta.BeforeUnmarshal box r size ctx).2.2 = r) := by
  by_cases hl : ((r.data.drop r.pos).take 4).length = 4
  · obtain ⟨b0, b1, b2, b3, hd⟩ := list_length_four _ hl
    cases hs : r.seekErr with
    | none =>
      rw [meta_beforeUnmarshal_peek box r size ctx b0 b1 b2 b3 hd hs]
      by_cases hb : b0.val ||| b1.val ||| b2.val ||| b3.val ≠ 0
      · rw [if_pos hb]; exact ⟨rfl, fun _ => ⟨rfl, rfl⟩⟩
      · rw [if_neg hb]; exact ⟨rfl, fun _ => ⟨rfl, rfl⟩⟩
    | some e =>
      rw [meta_beforeUnmarshal_seek_fails box r size ctx e hl hs]
      exact ⟨rfl, fun h => (by cases h)⟩
  · obtain ⟨e, r1, -, hb⟩ := meta_beforeUnmarshal_read_fails box r size ctx hl
    rw [hb]
    exact ⟨rfl, fun h => (by cases h)⟩

theorem meta_beforeUnmarshal_pure_peek_witness :
    (Meta.BeforeUnmarshal ⟨⟨0, ⟨0, 0, 0⟩⟩⟩
        ⟨[0xff, 0xff, 0x00, 0x00, 0x00, 0x21, 0x68, 0x64], 2, IoError.EOF, none⟩ 33
        ⟨true, false⟩).2.2.pos = 2
    ∧ (Meta.BeforeUnmarshal ⟨⟨0, ⟨0, 0, 0⟩⟩⟩
        ⟨[0x00, 0x00, 0x00, 0x00, 0x00], 1, IoError.EOF, none⟩ 12 ⟨false, false⟩).2.2.pos
      = 1 :=
  ⟨((meta_beforeUnmarshal_pure_peek ⟨⟨0, ⟨0, 0, 0⟩⟩⟩
      ⟨[0xff, 0xff, 0x00, 0x00, 0x00, 0x21, 0x68, 0x64], 2, IoError.EOF, none⟩ 33
      ⟨true, false⟩).2 (by decide)).1,
   ((meta_beforeUnmarshal_pure_peek ⟨⟨0, ⟨0, 0, 0⟩⟩⟩
      ⟨[0x00, 0x00, 0x00, 0x00, 0x00], 1, IoError.EOF, none⟩ 12 ⟨false, false⟩).2
      (by decide)).1⟩

/-- C13 (as stated, refuted): a reader with two bytes remaining whose own
error at the end is `EOF`: `Meta.BeforeUnmarshal` returns `(0, false, err)`
with `err = ErrUnexpectedEOF`, which is not the reader's error. -/
theorem meta_beforeUnmarshal_partial_read_error :
    (ReadSeeker.mk [0xff, 0x00, 0x01] 1 IoError.EOF none).endErr = IoError.EOF
    ∧ (Meta.BeforeUnmarshal ⟨⟨7, ⟨1, 2, 3⟩⟩⟩
        ⟨[0xff, 0x00, 0x01], 1, IoError.EOF, none⟩ 12 ⟨true, false⟩).1
      = ⟨0, false, some IoError.ErrUnexpectedEOF⟩
    ∧ IoError.ErrUnexpectedEOF ≠ IoError.EOF := by
  decide

/-- C13 (amended): when fewer than four bytes can be read, `Meta.BeforeUnmarshal`
returns `(0, false, err)` with `err` the error of the failed read, which is the
reader's own error unless the reader reported `EOF` after one to three bytes,
when it is `ErrUnexpectedEOF`; when the seek back fails it returns
`(0, false, err)` with `err` the error of the seek; in both cases `Version` and
`Flags` are left as they were. -/
theorem meta_beforeUnmarshal_errors (box : Meta) (r : ReadSeeker) (size : Nat)
    (ctx : Context) :
    (((r.data.drop r.pos).take 4).length ≠ 4 →
        ∃ e r1, r.ReadFull 4 = (.error e, r1)
          ∧ Meta.BeforeUnmarshal box r size ctx = (⟨0, false, some e⟩, box, r1)
          ∧ ((r.endErr ≠ IoError.EOF ∨ ((r.data.drop r.pos).take 4).length = 0) →
              e = r.endErr)
          ∧ ((r.endErr = IoError.EOF ∧ 0 < ((r.data.drop r.pos).take 4).length) →
              e = IoError.ErrUnexpectedEOF))
    ∧ (∀ e, ((r.data.drop r.pos).take 4).length = 4 → r.seekErr = some e →
        (ReadSeeker.SeekCurrent { r with pos := r.pos + 4 } (-4)).1 = .error e
        ∧ (Meta.BeforeUnmarshal box r size ctx).1 = ⟨0, false, some e⟩
        ∧ (Meta.BeforeUnmarshal box r size ctx).2.1 = box) := by
  constructor
  · intro hl
    have hr : r.ReadFull 4 = (.error
        (if 0 < ((r.data.drop r.pos).take 4).length ∧ r.endErr = IoError.EOF then
          IoError.ErrUnexpectedEOF else r.endErr),
        { r with pos := r.pos + ((r.data.drop r.pos).take 4).length }) := by
      unfold ReadSeeker.ReadFull
      rw [if_neg hl]
    refine ⟨_, _, hr, by simp only [Meta.BeforeUnmarshal, hr], ?_, ?_⟩
    · rintro (h | h)
      · rw [if_neg (fun hc => h hc.2)]
      · rw [if_neg (fun hc => by omega)]
    · rintro ⟨h1, h2⟩
      rw [if_pos ⟨h2, h1⟩]
  · intro e hl hs
    rw [meta_beforeUnmarshal_seek_fails box r size ctx e hl hs]
    refine ⟨?_, rfl, rfl⟩
    simp only [ReadSeeker.SeekCurrent, hs]

theorem meta_beforeUnmarshal_errors_witness :
    (∃ e r1, ReadSeeker.ReadFull ⟨[0x00, 0x00, 0x01], 1, IoError.other "closed", none⟩ 4
          = (.error e, r1)
        ∧ Meta.BeforeUnmarshal ⟨⟨7, ⟨1, 2, 3⟩⟩⟩
            ⟨[0x00, 0x00, 0x01], 1, IoError.other "closed", none⟩ 12 ⟨true, false⟩
          = (⟨0, false, some e⟩, ⟨⟨7, ⟨1, 2, 3⟩⟩⟩, r1)
        ∧ ((IoError.other "closed" ≠ IoError.EOF
            ∨ ((([0x00, 0x00, 0x01] : List Byte).drop 1).take 4).length = 0) →
            e = IoError.other "closed")
        ∧ ((IoError.other "closed" = IoError.EOF
            ∧ 0 < ((([0x00, 0x00, 0x01] : List Byte).drop 1).take 4).length) →
            e = IoError.ErrUnexpectedEOF))
    ∧ (∃ e r1, ReadSeeker.ReadFull ⟨[0x00, 0x00, 0x01], 1, IoError.EOF, none⟩ 4
          = (.error e, r1)
        ∧ Meta.BeforeUnmarshal ⟨⟨7, ⟨1, 2, 3⟩⟩⟩
            ⟨[0x00, 0x00, 0x01], 1, IoError.EOF, none⟩ 12 ⟨true, false⟩
          = (⟨0, false, some e⟩, ⟨⟨7, ⟨1, 2, 3⟩⟩⟩, r1)
        ∧ ((IoError.EOF ≠ IoError.EOF
            ∨ ((([0x00, 0x00, 0x01] : List Byte).drop 1).take 4).length = 0) →
            e = IoError.EOF)
        ∧ ((IoError.EOF = IoError.EOF
            ∧ 0 < ((([0x00, 0x00, 0x01] : List Byte).drop 1).take 4).length) →
            e = IoError.ErrUnexpectedEOF))
    ∧ (Meta.BeforeUnmarshal ⟨⟨7, ⟨1, 2, 3⟩⟩⟩
        ⟨[0x00, 0x00, 0x00, 0x21], 0, IoError.EOF, some (IoError.other "not seekable")⟩ 33
        ⟨true, false⟩).1 = ⟨0, false, some (IoError.other "not seekable")⟩ :=
  ⟨(meta_beforeUnmarshal_errors ⟨⟨7, ⟨1, 2, 3⟩⟩⟩
      ⟨[0x00, 0x00, 0x01], 1, IoError.other "closed", none⟩ 12 ⟨true, false⟩).1 (by decide),
   (meta_beforeUnmarshal_errors ⟨⟨7, ⟨1, 2, 3⟩⟩⟩
      ⟨[0x00, 0x00, 0x01], 1, IoError.EOF, none⟩ 12 ⟨true, false⟩).1 (by decide),
   ((meta_beforeUnmarshal_errors ⟨⟨7, ⟨1, 2, 3⟩⟩⟩
      ⟨[0x00, 0x00, 0x00, 0x21], 0, IoError.EOF, some (IoError.other "not seekable")⟩ 33
      ⟨true, false⟩).2 (IoError.other "not seekable") (by decide) rfl).2.1⟩

/-! ### emsg -/

/-- C14: for a version-0 `Emsg`, `OnReadField` and `OnWriteField` return
`(0, false, nil)` for every field name and leave the box, the reader and the
writer as they were; for every other version they return `override = true`
exactly for the names `SchemeIdUri` and `Value`, then with 0 bits, no error
and nothing touched, and `override = false` for every other name,
`MessageData` included. -/
theorem emsg_hooks_override (emsg : Emsg) (name : String) (r : ReadSeeker) (w : Writer)
    (leftBits : U64) (ctx : Context) :
    (emsg.toFullBox.GetVersion = 0 →
        emsg.OnReadField name r leftBits ctx = (⟨0, false, none⟩, emsg, r)
        ∧ emsg.OnWriteField name w ctx = (⟨0, false, none⟩, w))
    ∧ (emsg.toFullBox.GetVersion ≠ 0 →
        ((emsg.OnReadField name r leftBits ctx).1.override = true
            ↔ (name = "SchemeIdUri" ∨ name = "Value"))
        ∧ ((emsg.OnWriteField name w ctx).1.override = true
            ↔ (name = "SchemeIdUri" ∨ name = "Value"))
        ∧ ((name = "SchemeIdUri" ∨ name = "Value") →
            emsg.OnReadField name r leftBits ctx = (⟨0, true, none⟩, emsg, r)
            ∧ emsg.OnWriteField name w ctx = (⟨0, true, none⟩, w))
        ∧ (emsg.OnReadField "MessageData" r leftBits ctx).1.override = false
        ∧ (emsg.OnWriteField "MessageData" w ctx).1.override = false) := by
  constructor
  · intro hv
    simp only [Emsg.OnReadField, Emsg.OnWriteField, hv, if_true, and_self]
  · intro hv
    refine ⟨?_, ?_, ?_, ?_, ?_⟩
    · simp only [Emsg.OnReadField, if_neg hv]
      split
      · simp
      · simp
      · simp only [String.reduceEq, or_self, iff_false, Bool.not_eq_true]
        split
        · rfl
        · split <;> rfl
      · rename_i h1 h2 h3
        simp only [Bool.false_eq_true, false_iff, not_or]
        exact ⟨h1, h2⟩
    · simp only [Emsg.OnWriteField, if_neg hv]
      split
      · simp
      · simp
      · simp only [String.reduceEq, or_self, iff_false, Bool.not_eq_true]
        split
        · rfl
        · split <;> rfl
      · rename_i h1 h2 h3
        simp only [Bool.false_eq_true, false_iff, not_or]
        exact ⟨h1, h2⟩
    · rintro (h | h) <;> subst h <;>
        simp only [Emsg.OnReadField, Emsg.OnWriteField, if_neg hv, and_self]
    · simp only [Emsg.OnReadField, if_neg hv]
      split
      · rfl
      · split <;> rfl
    · simp only [Emsg.OnWriteField, if_neg hv]
      split
      · rfl
      · split <;> rfl

theorem emsg_hooks_override_witness :
    (Emsg.OnReadField ⟨⟨0, ⟨0, 0, 0⟩⟩, [0x61], [0x62], 1, 2, 3, 4, 5, [0x63]⟩ "MessageData"
          ⟨[0x63, 0x00], 0, IoError.EOF, none⟩ 16 ⟨false, false⟩
        = (⟨0, false, none⟩, ⟨⟨0, ⟨0, 0, 0⟩⟩, [0x61], [0x62], 1, 2, 3, 4, 5, [0x63]⟩,
            ⟨[0x63, 0x00], 0, IoError.EOF, none⟩)
      ∧ Emsg.OnWriteField ⟨⟨0, ⟨0, 0, 0⟩⟩, [0x61], [0x62], 1, 2, 3, 4, 5, [0x63]⟩
          "MessageData" ⟨[], none, IoError.EOF⟩ ⟨false, false⟩
        = (⟨0, false, none⟩, ⟨[], none, IoError.EOF⟩))
    ∧ (Emsg.OnReadField ⟨⟨1, ⟨0, 0, 0⟩⟩, [0x61], [0x62], 1, 2, 3, 4, 5, [0x63]⟩ "Value"
          ⟨[0x63, 0x00], 0, IoError.EOF, none⟩ 16 ⟨false, false⟩
        = (⟨0, true, none⟩, ⟨⟨1, ⟨0, 0, 0⟩⟩, [0x61], [0x62], 1, 2, 3, 4, 5, [0x63]⟩,
            ⟨[0x63, 0x00], 0, IoError.EOF, none⟩)
      ∧ Emsg.OnWriteField ⟨⟨1, ⟨0, 0, 0⟩⟩, [0x61], [0x62], 1, 2, 3, 4, 5, [0x63]⟩ "Value"
          ⟨[], none, IoError.EOF⟩ ⟨false, false⟩
        = (⟨0, true, none⟩, ⟨[], none, IoError.EOF⟩)) :=
  ⟨(emsg_hooks_override ⟨⟨0, ⟨0, 0, 0⟩⟩, [0x61], [0x62], 1, 2, 3, 4, 5, [0x63]⟩ "MessageData"
      ⟨[0x63, 0x00], 0, IoError.EOF, none⟩ ⟨[], none, IoError.EOF⟩ 16 ⟨false, false⟩).1
      (by decide),
   ((emsg_hooks_override ⟨⟨1, ⟨0, 0, 0⟩⟩, [0x61], [0x62], 1, 2, 3, 4, 5, [0x63]⟩ "Value"
      ⟨[0x63, 0x00], 0, IoError.EOF, none⟩ ⟨[], none, IoError.EOF⟩ 16 ⟨false, false⟩).2
      (by decide)).2.2.1 (Or.inr rfl)⟩

theorem writer_write_none (w w1 : Writer) (p : List Byte) (h : w.Write p = (none, w1)) :
    w1 = { w with out := w.out ++ p } := by
  unfold Writer.Write at h
  split at h
  · exact ((Prod.mk.inj h).2).symm
  · split at h
    · exact ((Prod.mk.inj h).2).symm
    · have := (Prod.mk.inj h).1
      cases this

theorem writeString_none (w w1 : Writer) (s : GoString) (h : WriteString w s = (none, w1)) :
    w1 = { w with out := w.out ++ s ++ [0] } := by
  unfold WriteString at h
  split at h
  · have := (Prod.mk.inj h).1
    cases this
  · rename_i w2 hw2
    have e2 := writer_write_none w w2 s hw2
    have e1 := writer_write_none w2 w1 [0] h
    rw [e1, e2]

theorem writeString_unlimited (w : Writer) (s : GoString) (h : w.limit = none) :
    WriteString w s = (none, { w with out := w.out ++ s ++ [0] }) := by
  obtain ⟨o, l, e⟩ := w
  simp only at h
  subst h
  simp only [WriteString, Writer.Write]

/-- C15: for an `Emsg` of a version other than 0 (in particular version 1),
whenever `OnWriteField("MessageData")` succeeds it has written `SchemeIdUri`,
a NUL, `Value`, a NUL, in that order, and the bit count it returns is 8 times
the number of bytes written, `(len(SchemeIdUri) + len(Value) + 2) * 8`; on a
sink without a limit it does succeed. -/
theorem emsg_onWriteField_messageData (emsg : Emsg) (w : Writer) (ctx : Context)
    (hv : emsg.toFullBox.GetVersion ≠ 0) :
    ((emsg.OnWriteField "MessageData" w ctx).1.err = none →
        (emsg.OnWriteField "MessageData" w ctx).2.out
            = w.out ++ emsg.SchemeIdUri ++ [0] ++ emsg.Value ++ [0]
        ∧ (emsg.OnWriteField "MessageData" w ctx).1.bits
            = 8 * ((emsg.OnWriteField "MessageData" w ctx).2.out.length - w.out.length)
        ∧ (emsg.OnWriteField "MessageData" w ctx).1.bits
            = (emsg.SchemeIdUri.length + emsg.Value.length + 2) * 8)
    ∧ (w.limit = none → (emsg.OnWriteField "MessageData" w ctx).1.err = none) := by
  constructor
  · simp only [Emsg.OnWriteField, if_neg hv]
    split
    · intro h; cases h
    · rename_i w1 h1
      split
      · intro h; cases h
      · rename_i w2 h2
        intro _
        have e1 := writeString_none w w1 _ h1
        have e2 := writeString_none w1 w2 _ h2
        subst e1
        subst e2
        refine ⟨by simp, ?_, by simp⟩
        simp only [List.length_append, List.length_singleton, List.length_cons, List.length_nil]
        omega
  · intro hl
    have h1 := writeString_unlimited w emsg.SchemeIdUri hl
    have h2 := writeString_unlimited { w with out := w.out ++ emsg.SchemeIdUri ++ [0] }
      emsg.Value hl
    simp only [Emsg.OnWriteField, if_neg hv, h1, h2]

theorem emsg_onWriteField_messageData_witness :
    (Emsg.OnWriteField ⟨⟨1, ⟨0, 0, 0⟩⟩, [0x75, 0x72, 0x6e], [0x31], 1000, 0, 0, 0, 1, []⟩
        "MessageData" ⟨[0xaa], none, IoError.EOF⟩ ⟨false, false⟩).2.out
      = [0xaa] ++ [0x75, 0x72, 0x6e] ++ [0] ++ [0x31] ++ [0]
    ∧ (Emsg.OnWriteField ⟨⟨1, ⟨0, 0, 0⟩⟩, [0x75, 0x72, 0x6e], [0x31], 1000, 0, 0, 0, 1, []⟩
        "MessageData" ⟨[0xaa], none, IoError.EOF⟩ ⟨false, false⟩).1.bits = (3 + 1 + 2) * 8 :=
  ⟨((emsg_onWriteField_messageData
        ⟨⟨1, ⟨0, 0, 0⟩⟩, [0x75, 0x72, 0x6e], [0x31], 1000, 0, 0, 0, 1, []⟩
        ⟨[0xaa], none, IoError.EOF⟩ ⟨false, false⟩ (by decide)).1 (by decide)).1,
   ((emsg_onWriteField_messageData
        ⟨⟨1, ⟨0, 0, 0⟩⟩, [0x75, 0x72, 0x6e], [0x31], 1000, 0, 0, 0, 1, []⟩
        ⟨[0xaa], none, IoError.EOF⟩ ⟨false, false⟩ (by decide)).1 (by decide)).2.2⟩

theorem scanCString_append (s rest : List Byte) (h : (0 : Byte) ∉ s) :
    scanCString (s ++ 0 :: rest) = some s := by
  induction s with
  | nil => simp [scanCString]
  | cons b bs ih =>
    have hb : b ≠ 0 := fun hc => h (by rw [hc]; exact List.mem_cons_self _ _)
    have hbs : (0 : Byte) ∉ bs := fun hc => h (List.mem_cons_of_mem _ hc)
    have e := ih hbs
    rw [List.cons_append, scanCString, if_neg hb, e]
    rfl

theorem readString_cstring (r : ReadSeeker) (s rest : List Byte) (h : (0 : Byte) ∉ s)
    (hd : r.data.drop r.pos = s ++ 0 :: rest) :
    ReadString r = ((s, none), { r with pos := r.pos + s.length + 1 })
    ∧ r.data.drop (r.pos + s.length + 1) = rest := by
  constructor
  · simp only [ReadString, hd, scanCString_append s rest h]
  · have : r.data.drop (r.pos + s.length + 1) = (r.data.drop r.pos).drop (s.length + 1) := by
      rw [List.drop_drop, Nat.add_assoc]
    rw [this, hd]
    simp

/-- C16: round trip of the string slot of an `Emsg` of a version other than 0
(in particular version 1): when `SchemeIdUri` and `Value` hold no NUL byte and
the bytes emitted by `OnWriteField("MessageData")` on a sink without a limit
are what the reader holds next, `OnReadField("MessageData")` on any other such
`Emsg` stores the same `SchemeIdUri` and `Value`, reports the bit count the
writer reported, and leaves the reader just after the second NUL. -/
theorem emsg_messageData_roundtrip (emsg fresh : Emsg) (w : Writer) (r : ReadSeeker)
    (rest : List Byte) (leftBits : U64) (ctx ctx2 : Context)
    (hv : emsg.toFullBox.GetVersion ≠ 0) (hf : fresh.toFullBox.GetVersion ≠ 0)
    (hS : (0 : Byte) ∉ emsg.SchemeIdUri) (hV : (0 : Byte) ∉ emsg.Value)
    (hw : w.limit = none)
    (hr : r.data.drop r.pos
      = (emsg.OnWriteField "MessageData" w ctx).2.out.drop w.out.length ++ rest) :
    fresh.OnReadField "MessageData" r leftBits ctx2
      = (⟨(emsg.OnWriteField "MessageData" w ctx).1.bits, false, none⟩,
          { fresh with SchemeIdUri := emsg.SchemeIdUri, Value := emsg.Value },
          { r with pos := r.pos + emsg.SchemeIdUri.length + emsg.Value.length + 2 }) := by
  have h1 := writeString_unlimited w emsg.SchemeIdUri hw
  have h2 := writeString_unlimited { w with out := w.out ++ emsg.SchemeIdUri ++ [0] }
    emsg.Value hw
  have hwr : emsg.OnWriteField "MessageData" w ctx
      = (⟨0 + (emsg.SchemeIdUri.length + emsg.Value.length + 2) * 8, false, none⟩,
          { w with out := w.out ++ emsg.SchemeIdUri ++ [0] ++ emsg.Value ++ [0] }) := by
    simp only [Emsg.OnWriteField, if_neg hv, h1, h2]
  rw [hwr] at hr ⊢
  have hdata : r.data.drop r.pos
      = emsg.SchemeIdUri ++ 0 :: (emsg.Value ++ 0 :: rest) := by
    rw [hr]
    simp
  obtain ⟨ha, hb⟩ := readString_cstring r emsg.SchemeIdUri _ hS hdata
  obtain ⟨hc, -⟩ := readString_cstring { r with pos := r.pos + emsg.SchemeIdUri.length + 1 }
    emsg.Value rest hV hb
  simp only [Emsg.OnReadField, if_neg hf, ha, hc]
  refine Prod.ext rfl (Prod.ext rfl ?_)
  simp only
  congr 1
  omega

theorem emsg_messageData_roundtrip_witness :
    Emsg.OnReadField ⟨⟨1, ⟨0, 0, 0⟩⟩, [], [], 0, 0, 0, 0, 0, []⟩ "MessageData"
        ⟨[0x75, 0x72, 0x6e, 0x00, 0x31, 0x00, 0x99], 0, IoError.EOF, none⟩ 56 ⟨false, false⟩
      = (⟨(Emsg.OnWriteField
              ⟨⟨1, ⟨0, 0, 0⟩⟩, [0x75, 0x72, 0x6e], [0x31], 1000, 0, 0, 0, 1, []⟩
              "MessageData" ⟨[], none, IoError.EOF⟩ ⟨false, false⟩).1.bits, false, none⟩,
          { (⟨⟨1, ⟨0, 0, 0⟩⟩, [], [], 0, 0, 0, 0, 0, []⟩ : Emsg) with
            SchemeIdUri := [0x75, 0x72, 0x6e], Value := [0x31] },
          { (⟨[0x75, 0x72, 0x6e, 0x00, 0x31, 0x00, 0x99], 0, IoError.EOF, none⟩ : ReadSeeker)
            with pos := 0 + 3 + 1 + 2 }) :=
  emsg_messageData_roundtrip
    ⟨⟨1, ⟨0, 0, 0⟩⟩, [0x75, 0x72, 0x6e], [0x31], 1000, 0, 0, 0, 1, []⟩
    ⟨⟨1, ⟨0, 0, 0⟩⟩, [], [], 0, 0, 0, 0, 0, []⟩ ⟨[], none, IoError.EOF⟩
    ⟨[0x75, 0x72, 0x6e, 0x00, 0x31, 0x00, 0x99], 0, IoError.EOF, none⟩ [0x99] 56
    ⟨false, false⟩ ⟨false, false⟩ (by decide) (by decide) (by decide) (by decide) rfl
    (by decide)

/-! ### hdlr -/

/-- C17: `Hdlr.IsPString("Name", bytes, remainingSize, ctx)` returns true iff
`remainingSize = 0` and `PreDefined` is non-zero, whatever `bytes` and the
context are; so with `PreDefined = 0` the name is never a Pascal string. For
any field name other than `Name` it panics. -/
theorem hdlr_isPString (hdlr : Hdlr) (bytes : List Byte) (remainingSize : U64)
    (ctx : Context) :
    (∃ b, hdlr.IsPString "Name" bytes remainingSize ctx = .ok b
        ∧ (b = true ↔ (remainingSize = 0 ∧ hdlr.PreDefined ≠ 0)))
    ∧ (∀ (bytes2 : List Byte) (ctx2 : Context),
        hdlr.IsPString "Name" bytes2 remainingSize ctx2
          = hdlr.IsPString "Name" bytes remainingSize ctx)
    ∧ (hdlr.PreDefined = 0 → hdlr.IsPString "Name" bytes remainingSize ctx = .ok false)
    ∧ (∀ name, name ≠ "Name" →
        ∃ msg, hdlr.IsPString name bytes remainingSize ctx = .panic msg) := by
  refine ⟨⟨_, rfl, ?_⟩, fun _ _ => rfl, ?_, ?_⟩
  · simp
  · intro h
    simp [Hdlr.IsPString, h]
  · intro name hn
    unfold Hdlr.IsPString
    split
    · exact absurd rfl hn
    · exact ⟨_, rfl⟩

theorem hdlr_isPString_witness :
    Hdlr.IsPString ⟨⟨0, ⟨0, 0, 0⟩⟩, 0, ⟨0x76, 0x69, 0x64, 0x65⟩, [0, 0, 0], [0x56], []⟩
        "Name" [0x01, 0x56] 0 ⟨false, false⟩ = .ok false
    ∧ (∃ msg, Hdlr.IsPString
        ⟨⟨0, ⟨0, 0, 0⟩⟩, 0x6d686c72, ⟨0x76, 0x69, 0x64, 0x65⟩, [0, 0, 0], [0x56], []⟩
        "Padding" [] 0 ⟨false, false⟩ = .panic msg) :=
  ⟨(hdlr_isPString ⟨⟨0, ⟨0, 0, 0⟩⟩, 0, ⟨0x76, 0x69, 0x64, 0x65⟩, [0, 0, 0], [0x56], []⟩
      [0x01, 0x56] 0 ⟨false, false⟩).2.2.1 rfl,
   (hdlr_isPString
      ⟨⟨0, ⟨0, 0, 0⟩⟩, 0x6d686c72, ⟨0x76, 0x69, 0x64, 0x65⟩, [0, 0, 0], [0x56], []⟩
      [] 0 ⟨false, false⟩).2.2.2 "Padding" (by decide)⟩

/-! ### stsz -/

/-- C18: `Stsz.GetFieldLength("EntrySize")` returns `SampleCount` when
`SampleSize = 0` and 0 whenever `SampleSize` is non-zero, whatever
`SampleCount` is and however many elements `EntrySize` holds. -/
theorem stsz_getFieldLength_entrySize (stsz : Stsz) (ctx : Context) :
    (stsz.SampleSize = 0 →
        stsz.GetFieldLength "EntrySize" ctx = .ok stsz.SampleCount.val)
    ∧ (stsz.SampleSize ≠ 0 → stsz.GetFieldLength "EntrySize" ctx = .ok 0)
    ∧ (∀ (entries : List U32) (ctx2 : Context),
        Stsz.GetFieldLength { stsz with EntrySize := entries } "EntrySize" ctx2
          = stsz.GetFieldLength "EntrySize" ctx)
    ∧ (∀ (count : U32), stsz.SampleSize ≠ 0 →
        Stsz.GetFieldLength { stsz with SampleCount := count } "EntrySize" ctx = .ok 0) := by
  refine ⟨?_, ?_, fun _ _ => rfl, ?_⟩
  · intro h
    simp [Stsz.GetFieldLength, h]
  · intro h
    simp [Stsz.GetFieldLength, h]
  · intro count h
    simp [Stsz.GetFieldLength, h]

theorem stsz_getFieldLength_entrySize_witness :
    Stsz.GetFieldLength ⟨⟨0, ⟨0, 0, 0⟩⟩, 0, 3, [10, 20, 30]⟩ "EntrySize" ⟨false, false⟩
      = .ok 3
    ∧ Stsz.GetFieldLength ⟨⟨0, ⟨0, 0, 0⟩⟩, 512, 3, [10, 20, 30]⟩ "EntrySize" ⟨false, false⟩
      = .ok 0 :=
  ⟨(stsz_getFieldLength_entrySize ⟨⟨0, ⟨0, 0, 0⟩⟩, 0, 3, [10, 20, 30]⟩ ⟨false, false⟩).1 rfl,
   (stsz_getFieldLength_entrySize ⟨⟨0, ⟨0, 0, 0⟩⟩, 512, 3, [10, 20, 30]⟩
      ⟨false, false⟩).2.1 (by decide)⟩

/-! ### float64 and tkhd -/

theorem roundHalfEven_intCast (n : ℤ) : roundHalfEven (n : ℚ) = n := by
  simp [roundHalfEven]

/-- A value `m * 2 ^ t` with `m` below `2 ^ 53` and `t` at least `-1074` is a
`float64` value: rounding returns it unchanged. -/
theorem roundFloat64_dyadic (m : ℕ) (t : ℤ) (hm : m < 2 ^ 53) (ht : -1074 ≤ t)
    (hmax : (m : ℚ) * 2 ^ t < 2 ^ 1024) :
    roundFloat64 ((m : ℚ) * 2 ^ t) = some ((m : ℚ) * 2 ^ t) := by
  rcases Nat.eq_zero_or_pos m with h0 | hpos
  · subst h0
    simp [roundFloat64]
  have h2 : (0 : ℚ) < 2 ^ t := zpow_pos (by norm_num) t
  have hq : (0 : ℚ) < (m : ℚ) * 2 ^ t := mul_pos (by exact_mod_cast hpos) h2
  have hlog : Int.log 2 ((m : ℚ) * 2 ^ t) < t + 53 := by
    rw [← Int.lt_zpow_iff_log_lt (by norm_num) hq]
    rw [zpow_add₀ (by norm_num), mul_comm]
    push_cast
    apply mul_lt_mul_of_pos_left _ h2
    exact_mod_cast hm
  unfold roundFloat64
  rw [if_neg (ne_of_gt hq), abs_of_pos hq]
  simp only
  generalize he : max (Int.log 2 ((m : ℚ) * 2 ^ t) - 52) (-1074) = e
  have hle : e ≤ t := by
    rw [← he]
    exact max_le (by omega) ht
  obtain ⟨d, hd⟩ := Int.eq_ofNat_of_zero_le (sub_nonneg.2 hle)
  have hte : t = e + d := by omega
  have hdiv : (m : ℚ) * 2 ^ t / 2 ^ e = (((m * 2 ^ d : ℕ) : ℤ) : ℚ) := by
    rw [hte, zpow_add₀ (by norm_num)]
    have h2e : (0 : ℚ) < 2 ^ e := zpow_pos (by norm_num) e
    field_simp
    ring
  rw [hdiv, roundHalfEven_intCast]
  have hback : ((((m * 2 ^ d : ℕ) : ℤ) : ℚ)) * 2 ^ e = (m : ℚ) * 2 ^ t := by
    rw [hte, zpow_add₀ (by norm_num), zpow_natCast]
    push_cast
    ring
  rw [hback, if_neg (not_le.2 hmax), if_neg (not_lt.2 (le_of_lt hq))]

/-- Converting a `uint32` to `float64` and dividing by `1 << 16` is exact. -/
theorem fixed1616_toFloat_exact (w : U32) :
    (roundFloat64 (w.val : ℚ)).bind (fun x => roundFloat64 (x / 65536))
      = some ((w.val : ℚ) / 2 ^ 16) := by
  have hw : w.val < 2 ^ 53 := lt_trans w.isLt (by norm_num)
  have hwq : (w.val : ℚ) < 2 ^ 32 := by exact_mod_cast w.isLt
  have h0 : (w.val : ℚ) ≤ 2 ^ 32 := le_of_lt hwq
  have hnn : (0 : ℚ) ≤ (w.val : ℚ) := by exact_mod_cast Nat.zero_le _
  have h1 := roundFloat64_dyadic w.val 0 hw (by norm_num)
    (by rw [zpow_zero, mul_one]; exact lt_trans hwq (by norm_num))
  rw [zpow_zero, mul_one] at h1
  have e16 : (w.val : ℚ) * 2 ^ (-16 : ℤ) = (w.val : ℚ) / 65536 := by
    rw [zpow_neg, div_eq_mul_inv]
    norm_num
  have h2 := roundFloat64_dyadic w.val (-16) hw (by norm_num)
    (by
      rw [e16]
      have : (w.val : ℚ) / 65536 ≤ (w.val : ℚ) :=
        div_le_self hnn (by norm_num)
      exact lt_of_le_of_lt this (lt_trans hwq (by norm_num)))
  rw [e16] at h2
  rw [h1, Option.some_bind, h2]
  norm_num

/-- C20: for every `uint32` `Width`, `Tkhd.GetWidth` is exactly
`Width / 2 ^ 16` (neither the conversion to `float64` nor the division by
65536 rounds anything away), and `Tkhd.GetHeight` is exactly
`Height / 2 ^ 16`; with `Width = 0x01400000`, `GetWidth` is 320. -/
theorem tkhd_getWidth_exact (tkhd : Tkhd) :
    tkhd.GetWidth = some ((tkhd.Width.val : ℚ) / 2 ^ 16)
    ∧ tkhd.GetHeight = some ((tkhd.Height.val : ℚ) / 2 ^ 16)
    ∧ (tkhd.Width = 0x01400000 → tkhd.GetWidth = some 320) := by
  have hw : tkhd.GetWidth = some ((tkhd.Width.val : ℚ) / 2 ^ 16) :=
    fixed1616_toFloat_exact tkhd.Width
  refine ⟨hw, fixed1616_toFloat_exact tkhd.Height, ?_⟩
  intro h
  have hv : tkhd.Width.val = 20971520 := by rw [h]; rfl
  rw [hw, hv]
  norm_num

theorem tkhd_getWidth_exact_witness :
    Tkhd.GetWidth ⟨⟨0, ⟨0, 0, 7⟩⟩, 0, 0, 1, 0, 0, 0, 0, 0, 0, 0, [0, 0], 0, 0, 0, 0,
        [65536, 0, 0, 0, 65536, 0, 0, 0, 1073741824], 0x01400000, 0x00F00000⟩ = some 320 :=
  (tkhd_getWidth_exact ⟨⟨0, ⟨0, 0, 7⟩⟩, 0, 0, 1, 0, 0, 0, 0, 0, 0, 0, [0, 0], 0, 0, 0, 0,
    [65536, 0, 0, 0, 65536, 0, 0, 0, 1073741824], 0x01400000, 0x00F00000⟩).2.2 rfl

/-! ### Boxes with a counted array -/

/-- C23: for each of `Co64`, `Stco`, `Stss`, `Stts`, `Stsc`, `Ctts`, `Elst`,
`Sbgp`, `Sidx`, `Trun` and `Tfra`, `GetFieldLength` called with the name of the
dynamic-length array returns the count field of the box unchanged, and called
with any other name it panics. -/
theorem getFieldLength_counted_arrays (co64 : Co64) (stco : Stco) (stss : Stss) (stts : Stts)
    (stsc : Stsc) (ctts : Ctts) (elst : Elst) (sbgp : Sbgp) (sidx : Sidx) (trun : Trun)
    (tfra : Tfra) (ctx : Context) :
    (co64.GetFieldLength "ChunkOffset" ctx = .ok co64.EntryCount.val
      ∧ ∀ name, name ≠ "ChunkOffset" → ∃ msg, co64.GetFieldLength name ctx = .panic msg)
    ∧ (stco.GetFieldLength "ChunkOffset" ctx = .ok stco.EntryCount.val
      ∧ ∀ name, name ≠ "ChunkOffset" → ∃ msg, stco.GetFieldLength name ctx = .panic msg)
    ∧ (stss.GetFieldLength "SampleNumber" ctx = .ok stss.EntryCount.val
      ∧ ∀ name, name ≠ "SampleNumber" → ∃ msg, stss.GetFieldLength name ctx = .panic msg)
    ∧ (stts.GetFieldLength "Entries" ctx = .ok stts.EntryCount.val
      ∧ ∀ name, name ≠ "Entries" → ∃ msg, stts.GetFieldLength name ctx = .panic msg)
    ∧ (stsc.GetFieldLength "Entries" ctx = .ok stsc.EntryCount.val
      ∧ ∀ name, name ≠ "Entries" → ∃ msg, stsc.GetFieldLength name ctx = .panic msg)
    ∧ (ctts.GetFieldLength "Entries" ctx = .ok ctts.EntryCount.val
      ∧ ∀ name, name ≠ "Entries" → ∃ msg, ctts.GetFieldLength name ctx = .panic msg)
    ∧ (elst.GetFieldLength "Entries" ctx = .ok elst.EntryCount.val
      ∧ ∀ name, name ≠ "Entries" → ∃ msg, elst.GetFieldLength name ctx = .panic msg)
    ∧ (sbgp.GetFieldLength "Entries" ctx = .ok sbgp.EntryCount.val
      ∧ ∀ name, name ≠ "Entries" → ∃ msg, sbgp.GetFieldLength name ctx = .panic msg)
    ∧ (sidx.GetFieldLength "References" ctx = .ok sidx.ReferenceCount.val
      ∧ ∀ name, name ≠ "References" → ∃ msg, sidx.GetFieldLength name ctx = .panic msg)
    ∧ (trun.GetFieldLength "Entries" ctx = .ok trun.SampleCount.val
      ∧ ∀ name, name ≠ "Entries" → ∃ msg, trun.GetFieldLength name ctx = .panic msg)
    ∧ (tfra.GetFieldLength "Entries" ctx = .ok tfra.NumberOfEntry.val
      ∧ ∀ name, name ≠ "Entries" → ∃ msg, tfra.GetFieldLength name ctx = .panic msg) := by
  refine ⟨⟨rfl, ?_⟩, ⟨rfl, ?_⟩, ⟨rfl, ?_⟩, ⟨rfl, ?_⟩, ⟨rfl, ?_⟩, ⟨rfl, ?_⟩, ⟨rfl, ?_⟩,
    ⟨rfl, ?_⟩, ⟨rfl, ?_⟩, ⟨rfl, ?_⟩, ⟨rfl, ?_⟩⟩
  · intro name hn
    unfold Co64.GetFieldLength
    split
    · exact absurd rfl hn
    · exact ⟨_, rfl⟩
  · intro name hn
    unfold Stco.GetFieldLength
    split
    · exact absurd rfl hn
    · exact ⟨_, rfl⟩
  · intro name hn
    unfold Stss.GetFieldLength
    split
    · exact absurd rfl hn
    · exact ⟨_, rfl⟩
  · intro name hn
    unfold Stts.GetFieldLength
    split
    · exact absurd rfl hn
    · exact ⟨_, rfl⟩
  · intro name hn
    unfold Stsc.GetFieldLength
    split
    · exact absurd rfl hn
    · exact ⟨_, rfl⟩
  · intro name hn
    unfold Ctts.GetFieldLength
    split
    · exact absurd rfl hn
    · exact ⟨_, rfl⟩
  · intro name hn
    unfold Elst.GetFieldLength
    split
    · exact absurd rfl hn
    · exact ⟨_, rfl⟩
  · intro name hn
    unfold Sbgp.GetFieldLength
    split
    · exact absurd rfl hn
    · exact ⟨_, rfl⟩
  · intro name hn
    unfold Sidx.GetFieldLength
    split
    · exact absurd rfl hn
    · exact ⟨_, rfl⟩
  · intro name hn
    unfold Trun.GetFieldLength
    split
    · exact absurd rfl hn
    · exact ⟨_, rfl⟩
  · intro name hn
    unfold Tfra.GetFieldLength
    split
    · exact absurd rfl hn
    · exact ⟨_, rfl⟩

theorem getFieldLength_counted_arrays_witness :
    (∃ msg, Co64.GetFieldLength ⟨⟨0, ⟨0, 0, 0⟩⟩, 2, [16, 4294967312]⟩ "EntryCount"
        ⟨false, false⟩ = .panic msg)
    ∧ (∃ msg, Sidx.GetFieldLength ⟨⟨0, ⟨0, 0, 0⟩⟩, 1, 1000, 0, 0, 0, 0, 0, 1,
        [⟨false, 100, 2000, true, 1, 0⟩]⟩ "Entries" ⟨false, false⟩ = .panic msg) :=
  ⟨(getFieldLength_counted_arrays ⟨⟨0, ⟨0, 0, 0⟩⟩, 2, [16, 4294967312]⟩
      ⟨⟨0, ⟨0, 0, 0⟩⟩, 0, []⟩ ⟨⟨0, ⟨0, 0, 0⟩⟩, 0, []⟩ ⟨⟨0, ⟨0, 0, 0⟩⟩, 0, []⟩
      ⟨⟨0, ⟨0, 0, 0⟩⟩, 0, []⟩ ⟨⟨0, ⟨0, 0, 0⟩⟩, 0, []⟩ ⟨⟨0, ⟨0, 0, 0⟩⟩, 0, []⟩
      ⟨⟨0, ⟨0, 0, 0⟩⟩, 0, 0, 0, []⟩
      ⟨⟨0, ⟨0, 0, 0⟩⟩, 1, 1000, 0, 0, 0, 0, 0, 1, [⟨false, 100, 2000, true, 1, 0⟩]⟩
      ⟨⟨0, ⟨0, 0, 0⟩⟩, 0, 0, 0, []⟩ ⟨⟨0, ⟨0, 0, 0⟩⟩, 1, 0, 0, 0, 0, 0, []⟩
      ⟨false, false⟩).1.2 "EntryCount" (by decide),
   (getFieldLength_counted_arrays ⟨⟨0, ⟨0, 0, 0⟩⟩, 2, [16, 4294967312]⟩
      ⟨⟨0, ⟨0, 0, 0⟩⟩, 0, []⟩ ⟨⟨0, ⟨0, 0, 0⟩⟩, 0, []⟩ ⟨⟨0, ⟨0, 0, 0⟩⟩, 0, []⟩
      ⟨⟨0, ⟨0, 0, 0⟩⟩, 0, []⟩ ⟨⟨0, ⟨0, 0, 0⟩⟩, 0, []⟩ ⟨⟨0, ⟨0, 0, 0⟩⟩, 0, []⟩
      ⟨⟨0, ⟨0, 0, 0⟩⟩, 0, 0, 0, []⟩
      ⟨⟨0, ⟨0, 0, 0⟩⟩, 1, 1000, 0, 0, 0, 0, 0, 1, [⟨false, 100, 2000, true, 1, 0⟩]⟩
      ⟨⟨0, ⟨0, 0, 0⟩⟩, 0, 0, 0, []⟩ ⟨⟨0, ⟨0, 0, 0⟩⟩, 1, 0, 0, 0, 0, 0, []⟩
      ⟨false, false⟩).2.2.2.2.2.2.2.2.1.2 "Entries" (by decide)⟩

/-! ### Fixed-point integer getters -/

theorem fixed1616_intPart (w : U32) :
    ((Fin.ofNat ((w.val >>> 16) % 2 ^ 16) : U16).val = w.val / 2 ^ 16)
    ∧ w.val >>> 16 < 2 ^ 16
    ∧ (∀ n f : Nat, n < 2 ^ 16 → f < 2 ^ 16 → w.val = n * 2 ^ 16 + f →
        (Fin.ofNat ((w.val >>> 16) % 2 ^ 16) : U16).val = n) := by
  have hw : w.val < 4294967296 := w.isLt
  have hs : w.val >>> 16 = w.val / 65536 := by
    rw [Nat.shiftRight_eq_div_pow]
  have hv : (Fin.ofNat ((w.val >>> 16) % 2 ^ 16) : U16).val = w.val / 65536 := by
    show ((w.val >>> 16) % 2 ^ 16) % 65536 = w.val / 65536
    rw [hs]
    omega
  refine ⟨by rw [hv]; norm_num, by rw [hs]; omega, ?_⟩
  intro n f _ hf he
  rw [hv]
  omega

/-- C24: `Tkhd.GetWidthInt` is `floor(Width / 2 ^ 16)` for every `uint32`
`Width`; the shifted value is below `2 ^ 16`, so the conversion to `uint16`
drops no set bit, and `n` is recovered from every `Width = n * 2 ^ 16 + f`
with `0 <= f < 2 ^ 16`; `Tkhd.GetHeightInt` does the same for `Height`. -/
theorem tkhd_getWidthInt_floor (tkhd : Tkhd) :
    (tkhd.GetWidthInt.val = tkhd.Width.val / 2 ^ 16
      ∧ tkhd.Width.val >>> 16 < 2 ^ 16
      ∧ (∀ n f : Nat, n < 2 ^ 16 → f < 2 ^ 16 → tkhd.Width.val = n * 2 ^ 16 + f →
          tkhd.GetWidthInt.val = n))
    ∧ (tkhd.GetHeightInt.val = tkhd.Height.val / 2 ^ 16
      ∧ tkhd.Height.val >>> 16 < 2 ^ 16
      ∧ (∀ n f : Nat, n < 2 ^ 16 → f < 2 ^ 16 → tkhd.Height.val = n * 2 ^ 16 + f →
          tkhd.GetHeightInt.val = n)) :=
  ⟨fixed1616_intPart tkhd.Width, fixed1616_intPart tkhd.Height⟩

theorem tkhd_getWidthInt_floor_witness :
    Tkhd.GetWidthInt ⟨⟨0, ⟨0, 0, 7⟩⟩, 0, 0, 1, 0, 0, 0, 0, 0, 0, 0, [0, 0], 0, 0, 0, 0,
        [65536, 0, 0, 0, 65536, 0, 0, 0, 1073741824], 0x01408000, 0x00F00000⟩ = 320 :=
  Fin.ext ((tkhd_getWidthInt_floor ⟨⟨0, ⟨0, 0, 7⟩⟩, 0, 0, 1, 0, 0, 0, 0, 0, 0, 0, [0, 0],
    0, 0, 0, 0, [65536, 0, 0, 0, 65536, 0, 0, 0, 1073741824], 0x01408000,
    0x00F00000⟩).1.2.2 320 32768 (by decide) (by decide) (by decide))

/-! ### esds -/

/-- C26: for every `Descriptor`, `IsOptFieldEnabled` enables exactly one of
`ESDescriptor`, `DecoderConfigDescriptor`, `Data`: `ESDescriptor` iff
`Tag = 0x03`, `DecoderConfigDescriptor` iff `Tag = 0x04`, and `Data` for every
other tag (among them `0x05`, `0x06` and every negative tag); when `Data` is
the enabled form its length is the `Size` field. -/
theorem descriptor_isOptFieldEnabled (ds : Descriptor) (ctx : Context) :
    (∃ name, Descriptor.optFields.filter (fun n => ds.IsOptFieldEnabled n ctx) = [name])
    ∧ (ds.IsOptFieldEnabled "ESDescriptor" ctx = true ↔ ds.Tag = 0x03)
    ∧ (ds.IsOptFieldEnabled "DecoderConfigDescriptor" ctx = true ↔ ds.Tag = 0x04)
    ∧ (ds.IsOptFieldEnabled "Data" ctx = true ↔ (ds.Tag ≠ 0x03 ∧ ds.Tag ≠ 0x04))
    ∧ ((ds.Tag = DecSpecificInfoTag ∨ ds.Tag = SLConfigDescrTag ∨ ds.Tag < 0) →
        Descriptor.optFields.filter (fun n => ds.IsOptFieldEnabled n ctx) = ["Data"])
    ∧ (ds.IsOptFieldEnabled "Data" ctx = true →
        ds.GetFieldLength "Data" ctx = .ok ds.Size.val) := by
  have key : ∀ n, ds.IsOptFieldEnabled n ctx =
      if ds.Tag = 3 then decide (n = "ESDescriptor")
      else if ds.Tag = 4 then decide (n = "DecoderConfigDescriptor")
      else decide (n = "Data") := fun _ => rfl
  simp only [Descriptor.optFields, List.filter_cons, List.filter_nil, key,
    DecSpecificInfoTag, SLConfigDescrTag]
  by_cases h3 : ds.Tag = 3
  · simp +decide [h3]
  · by_cases h4 : ds.Tag = 4
    · simp +decide [h4]
    · simp +decide [h3, h4]
      rfl

theorem descriptor_isOptFieldEnabled_witness :
    Descriptor.optFields.filter
        (fun n => Descriptor.IsOptFieldEnabled ⟨5, 2, none, none, [0x12, 0x10]⟩ n
          ⟨false, false⟩) = ["Data"]
    ∧ Descriptor.optFields.filter
        (fun n => Descriptor.IsOptFieldEnabled ⟨-128, 1, none, none, [0x00]⟩ n
          ⟨false, false⟩) = ["Data"]
    ∧ Descriptor.GetFieldLength ⟨6, 1, none, none, [0x02]⟩ "Data" ⟨false, false⟩ = .ok 1 :=
  ⟨(descriptor_isOptFieldEnabled ⟨5, 2, none, none, [0x12, 0x10]⟩ ⟨false, false⟩).2.2.2.2.1
      (Or.inl rfl),
   (descriptor_isOptFieldEnabled ⟨-128, 1, none, none, [0x00]⟩ ⟨false, false⟩).2.2.2.2.1
      (Or.inr (Or.inr (by decide))),
   (descriptor_isOptFieldEnabled ⟨6, 1, none, none, [0x02]⟩ ⟨false, false⟩).2.2.2.2.2
      (by decide)⟩

/-! ### avcC -/

/-- C29: `AVCDecoderConfiguration.OnWriteField("HighProfileFieldsEnabled")`
returns an error iff `HighProfileFieldsEnabled` is true while `Profile` is
none of 100, 110, 122, 144, and then it is the inconsistency error with 0 bits
and no override; otherwise it returns `(0, true, nil)`; for every other field
name it returns `(0, false, nil)`. -/
theorem avcc_onWriteField (avcc : AVCDecoderConfiguration) (w : Writer) (ctx : Context) :
    ((avcc.OnWriteField "HighProfileFieldsEnabled" w ctx).err ≠ none
        ↔ (avcc.HighProfileFieldsEnabled = true ∧ avcc.Profile ≠ 100 ∧ avcc.Profile ≠ 110
            ∧ avcc.Profile ≠ 122 ∧ avcc.Profile ≠ 144))
    ∧ ((avcc.OnWriteField "HighProfileFieldsEnabled" w ctx).err ≠ none →
        avcc.OnWriteField "HighProfileFieldsEnabled" w ctx
          = ⟨0, false, some avcInconsistentError⟩)
    ∧ ((avcc.OnWriteField "HighProfileFieldsEnabled" w ctx).err = none →
        avcc.OnWriteField "HighProfileFieldsEnabled" w ctx = ⟨0, true, none⟩)
    ∧ (∀ name, name ≠ "HighProfileFieldsEnabled" →
        avcc.OnWriteField name w ctx = ⟨0, false, none⟩) := by
  have key : avcc.OnWriteField "HighProfileFieldsEnabled" w ctx =
      if (avcc.HighProfileFieldsEnabled && avcc.Profile != 100 && avcc.Profile != 110
          && avcc.Profile != 122 && avcc.Profile != 144) = true then
        ⟨0, false, some avcInconsistentError⟩
      else ⟨0, true, none⟩ := rfl
  refine ⟨?_, ?_, ?_, ?_⟩
  · rw [key]
    split
    · rename_i h
      simp only [Bool.and_eq_true, bne_iff_ne, ne_eq] at h
      simp only [ne_eq, reduceCtorEq, not_false_eq_true, true_iff]
      tauto
    · rename_i h
      simp only [Bool.and_eq_true, bne_iff_ne, ne_eq] at h
      simp only [ne_eq, not_true_eq_false, false_iff]
      tauto
  · rw [key]
    split
    · intro _; rfl
    · intro h; exact absurd rfl h
  · rw [key]
    split
    · intro h; cases h
    · intro _; rfl
  · intro name hn
    simp only [AVCDecoderConfiguration.OnWriteField, if_neg hn]

theorem avcc_onWriteField_witness :
    AVCDecoderConfiguration.OnWriteField
        ⟨1, 66, 0, 30, 63, 3, 7, 0, [], 0, [], true, 63, 1, 31, 0, 31, 0, 0, []⟩
        "HighProfileFieldsEnabled" ⟨[], none, IoError.EOF⟩ ⟨false, false⟩
      = ⟨0, false, some avcInconsistentError⟩
    ∧ AVCDecoderConfiguration.OnWriteField
        ⟨1, 100, 0, 30, 63, 3, 7, 0, [], 0, [], true, 63, 1, 31, 0, 31, 0, 0, []⟩
        "HighProfileFieldsEnabled" ⟨[], none, IoError.EOF⟩ ⟨false, false⟩ = ⟨0, true, none⟩
    ∧ AVCDecoderConfiguration.OnWriteField
        ⟨1, 66, 0, 30, 63, 3, 7, 0, [], 0, [], true, 63, 1, 31, 0, 31, 0, 0, []⟩
        "Profile" ⟨[], none, IoError.EOF⟩ ⟨false, false⟩ = ⟨0, false, none⟩ :=
  ⟨(avcc_onWriteField
      ⟨1, 66, 0, 30, 63, 3, 7, 0, [], 0, [], true, 63, 1, 31, 0, 31, 0, 0, []⟩
      ⟨[], none, IoError.EOF⟩ ⟨false, false⟩).2.1 (by decide),
   (avcc_onWriteField
      ⟨1, 100, 0, 30, 63, 3, 7, 0, [], 0, [], true, 63, 1, 31, 0, 31, 0, 0, []⟩
      ⟨[], none, IoError.EOF⟩ ⟨false, false⟩).2.2.1 (by decide),
   (avcc_onWriteField
      ⟨1, 66, 0, 30, 63, 3, 7, 0, [], 0, [], true, 63, 1, 31, 0, 31, 0, 0, []⟩
      ⟨[], none, IoError.EOF⟩ ⟨false, false⟩).2.2.2 "Profile" (by decide)⟩

/-- C30: for every `AVCDecoderConfiguration` and every `leftBits`,
`OnReadField("HighProfileFieldsEnabled")` sets the flag to
`leftBits >= 32 and Profile in {100, 110, 122, 144}`, changes nothing else,
returns `(0, true, nil)`, and `OnWriteField("HighProfileFieldsEnabled")` on the
resulting box returns `(0, true, nil)`, never the inconsistency error. -/
theorem avcc_read_write_consistent (avcc : AVCDecoderConfiguration) (r : ReadSeeker)
    (leftBits : U64) (w : Writer) (ctx ctx2 : Context) :
    (avcc.OnReadField "HighProfileFieldsEnabled" r leftBits ctx).1 = ⟨0, true, none⟩
    ∧ ((avcc.OnReadField "HighProfileFieldsEnabled" r leftBits ctx).2.HighProfileFieldsEnabled
          = true
        ↔ (32 ≤ leftBits.val ∧ (avcc.Profile = 100 ∨ avcc.Profile = 110
            ∨ avcc.Profile = 122 ∨ avcc.Profile = 144)))
    ∧ (avcc.OnReadField "HighProfileFieldsEnabled" r leftBits ctx).2
        = { avcc with HighProfileFieldsEnabled :=
            (avcc.OnReadField "HighProfileFieldsEnabled" r leftBits
              ctx).2.HighProfileFieldsEnabled }
    ∧ (avcc.OnReadField "HighProfileFieldsEnabled" r leftBits ctx).2.OnWriteField
        "HighProfileFieldsEnabled" w ctx2 = ⟨0, true, none⟩ := by
  have key : avcc.OnReadField "HighProfileFieldsEnabled" r leftBits ctx =
      (⟨0, true, none⟩, { avcc with HighProfileFieldsEnabled :=
        (decide (32 ≤ leftBits.val) && (avcc.Profile == 100 || avcc.Profile == 110
          || avcc.Profile == 122 || avcc.Profile == 144)) }) := rfl
  rw [key]
  refine ⟨rfl, ?_, rfl, ?_⟩
  · simp only [Bool.and_eq_true, decide_eq_true_eq, Bool.or_eq_true, beq_iff_eq]
    tauto
  · by_cases h1 : avcc.Profile = 100
    · simp +decide [AVCDecoderConfiguration.OnWriteField, h1, AVCHighProfile]
    by_cases h2 : avcc.Profile = 110
    · simp +decide [AVCDecoderConfiguration.OnWriteField, h2, AVCHigh10Profile]
    by_cases h3 : avcc.Profile = 122
    · simp +decide [AVCDecoderConfiguration.OnWriteField, h3, AVCHigh422Profile]
    by_cases h4 : avcc.Profile = 144
    · simp +decide [AVCDecoderConfiguration.OnWriteField, h4]
    · simp +decide [AVCDecoderConfiguration.OnWriteField, h1, h2, h3, h4]

/-! ### mvhd -/

theorem roundFloat64_neg (q : ℚ) (hq : 0 < q) :
    roundFloat64 (-q) = (roundFloat64 q).map (fun v => -v) := by
  have h1 : ¬ (-q = 0) := by
    intro h
    have : q = 0 := by linarith
    linarith
  have h2 : ¬ (q = 0) := ne_of_gt hq
  have h3 : -q < 0 := by linarith
  have h4 : ¬ (q < 0) := not_lt.2 (le_of_lt hq)
  simp only [roundFloat64, if_neg h1, if_neg h2, abs_neg, if_pos h3, if_neg h4]
  split <;> rfl

/-- Converting a natural number below `2 ^ 53` to `float64` and dividing by
`1 << 16` is exact. -/
theorem nat_fixed1616_toFloat_exact (n : ℕ) (hn : n < 2 ^ 53) :
    roundFloat64 (n : ℚ) = some (n : ℚ)
    ∧ roundFloat64 ((n : ℚ) / 65536) = some ((n : ℚ) / 65536) := by
  have hnq : (n : ℚ) < 2 ^ 53 := by exact_mod_cast hn
  have hnn : (0 : ℚ) ≤ (n : ℚ) := by exact_mod_cast Nat.zero_le _
  have h1 := roundFloat64_dyadic n 0 hn (by norm_num)
    (by rw [zpow_zero, mul_one]; exact lt_trans hnq (by norm_num))
  rw [zpow_zero, mul_one] at h1
  have e16 : (n : ℚ) * 2 ^ (-16 : ℤ) = (n : ℚ) / 65536 := by
    rw [zpow_neg, div_eq_mul_inv]
    norm_num
  have h2 := roundFloat64_dyadic n (-16) hn (by norm_num)
    (by
      rw [e16]
      have : (n : ℚ) / 65536 ≤ (n : ℚ) := div_le_self hnn (by norm_num)
      exact lt_of_le_of_lt this (lt_trans hnq (by norm_num)))
  rw [e16] at h2
  exact ⟨h1, h2⟩

/-- Converting an `int32` to `float64` and dividing by `1 << 16` is exact. -/
theorem int_fixed1616_toFloat_exact (z : ℤ) (hlo : -2 ^ 31 ≤ z) (hhi : z < 2 ^ 31) :
    (roundFloat64 (z : ℚ)).bind (fun x => roundFloat64 (x / 65536))
      = some ((z : ℚ) / 2 ^ 16) := by
  have e : ((2 : ℚ) ^ 16) = 65536 := by norm_num
  rw [e]
  rcases le_or_lt 0 z with hz | hz
  · obtain ⟨n, rfl⟩ := Int.eq_ofNat_of_zero_le hz
    have hn : n < 2 ^ 53 := by omega
    obtain ⟨h1, h2⟩ := nat_fixed1616_toFloat_exact n hn
    simp only [Int.cast_natCast]
    rw [h1, Option.some_bind, h2]
  · obtain ⟨n, hn⟩ := Int.eq_ofNat_of_zero_le (show 0 ≤ -z by omega)
    have hz' : z = -(n : ℤ) := by omega
    have hnpos : 0 < n := by omega
    have hn53 : n < 2 ^ 53 := by omega
    obtain ⟨h1, h2⟩ := nat_fixed1616_toFloat_exact n hn53
    have hq1 : (0 : ℚ) < (n : ℚ) := by exact_mod_cast hnpos
    have hq2 : (0 : ℚ) < (n : ℚ) / 65536 := div_pos hq1 (by norm_num)
    subst hz'
    simp only [Int.cast_neg, Int.cast_natCast]
    rw [roundFloat64_neg _ hq1, h1]
    simp only [Option.map_some', Option.some_bind]
    rw [neg_div, roundFloat64_neg _ hq2, h2]
    rfl

/-- C25: for every `int32` `Rate`, `Mvhd.GetRateInt` is `floor(Rate / 2 ^ 16)`,
rounding toward negative infinity (`Rate = -1` gives `-1`); the shifted value
lies in the `int16` range, so the conversion does not overflow; `GetRate` is
exactly `Rate / 2 ^ 16` and `GetRateInt` equals its integer part iff
`Rate >= 0` or `Rate` is a multiple of `2 ^ 16`. -/
theorem mvhd_getRateInt_floor (mvhd : Mvhd) (hlo : -2 ^ 31 ≤ mvhd.Rate)
    (hhi : mvhd.Rate < 2 ^ 31) :
    mvhd.GetRateInt = ⌊(mvhd.Rate : ℚ) / 2 ^ 16⌋
    ∧ (-2 ^ 15 ≤ mvhd.Rate >>> (16 : Nat) ∧ mvhd.Rate >>> (16 : Nat) < 2 ^ 15
        ∧ toInt16 (mvhd.Rate >>> (16 : Nat)) = mvhd.Rate >>> (16 : Nat))
    ∧ (mvhd.Rate = -1 → mvhd.GetRateInt = -1)
    ∧ mvhd.GetRate = some ((mvhd.Rate : ℚ) / 2 ^ 16)
    ∧ (mvhd.GetRateInt = integerPart ((mvhd.Rate : ℚ) / 2 ^ 16)
        ↔ (0 ≤ mvhd.Rate ∨ (2 ^ 16 : ℤ) ∣ mvhd.Rate)) := by
  have hs : mvhd.Rate >>> (16 : Nat) = mvhd.Rate / 65536 := by
    rw [Int.shiftRight_eq_div_pow]
    norm_num
  have hfl : ⌊(mvhd.Rate : ℚ) / 2 ^ 16⌋ = mvhd.Rate / 65536 := by
    have := Rat.floor_intCast_div_natCast mvhd.Rate 65536
    norm_num at this ⊢
    exact this
  have hg : mvhd.GetRateInt = mvhd.Rate / 65536 := by
    simp only [Mvhd.GetRateInt, toInt16, hs]
    omega
  have hceil : ⌈(mvhd.Rate : ℚ) / 2 ^ 16⌉ = -((-mvhd.Rate) / 65536) := by
    have h1 : ⌈(mvhd.Rate : ℚ) / 2 ^ 16⌉ = -⌊-((mvhd.Rate : ℚ) / 2 ^ 16)⌋ := by
      rw [Int.floor_neg, neg_neg]
    have h2 := Rat.floor_intCast_div_natCast (-mvhd.Rate) 65536
    rw [h1, ← neg_div]
    norm_num at h2 ⊢
    exact h2
  refine ⟨by rw [hg, hfl], ⟨by rw [hs]; omega, by rw [hs]; omega, ?_⟩, ?_, ?_, ?_⟩
  · simp only [toInt16, hs]
    omega
  · intro h
    rw [hg, h]
    decide
  · exact int_fixed1616_toFloat_exact mvhd.Rate hlo hhi
  · rw [hg]
    unfold integerPart
    have hsign : (0 ≤ (mvhd.Rate : ℚ) / 2 ^ 16) ↔ 0 ≤ mvhd.Rate := by
      rw [div_nonneg_iff]
      constructor
      · rintro (⟨h, -⟩ | ⟨-, h⟩)
        · exact_mod_cast h
        · norm_num at h
      · intro h
        left
        exact ⟨by exact_mod_cast h, by norm_num⟩
    by_cases hz : 0 ≤ mvhd.Rate
    · rw [if_pos (hsign.2 hz), hfl]
      simp [hz]
    · rw [if_neg (fun h => hz (hsign.1 h)), hceil]
      omega

theorem mvhd_getRateInt_floor_witness :
    Mvhd.GetRateInt ⟨⟨0, ⟨0, 0, 0⟩⟩, 0, 0, 0, 0, 1000, 0, 0, -1, 256, 0, [0, 0],
        [65536, 0, 0, 0, 65536, 0, 0, 0, 1073741824], [0, 0, 0, 0, 0, 0], 2⟩ = -1
    ∧ Mvhd.GetRate ⟨⟨0, ⟨0, 0, 0⟩⟩, 0, 0, 0, 0, 1000, 0, 0, -1, 256, 0, [0, 0],
        [65536, 0, 0, 0, 65536, 0, 0, 0, 1073741824], [0, 0, 0, 0, 0, 0], 2⟩
      = some ((((-1 : ℤ) : ℚ)) / 2 ^ 16) :=
  ⟨(mvhd_getRateInt_floor ⟨⟨0, ⟨0, 0, 0⟩⟩, 0, 0, 0, 0, 1000, 0, 0, -1, 256, 0, [0, 0],
      [65536, 0, 0, 0, 65536, 0, 0, 0, 1073741824], [0, 0, 0, 0, 0, 0], 2⟩
      (by decide) (by decide)).2.2.1 rfl,
   (mvhd_getRateInt_floor ⟨⟨0, ⟨0, 0, 0⟩⟩, 0, 0, 0, 0, 1000, 0, 0, -1, 256, 0, [0, 0],
      [65536, 0, 0, 0, 65536, 0, 0, 0, 1073741824], [0, 0, 0, 0, 0, 0], 2⟩
      (by decide) (by decide)).2.2.2.1⟩

/-! ### Schemas -/

/-- C28 (evaluated on the catalog): of the eleven arrays of records that
declare a literal `size=N`, ten declare the width of one element record under
every registered version; `Sgpd.RollDistancesL` declares `size=16` while one
`RollDistanceWithLength` is 32 + 16 = 48 bits wide. -/
theorem catalog_record_array_sizes (flags : Nat) :
    (recordArrayDecls.filter (fun a => !a.consistent flags)).map (fun a => (a.box, a.field))
      = [("Sgpd", "RollDistancesL")]
    ∧ (recordArrayDecls.filter (fun a => a.consistent flags)).length = 10
    ∧ (∀ version, schemaWidth RollDistanceWithLength.schema version flags noFieldSize
        = .ok 48) := by
  refine ⟨?_, ?_, fun _ => ?_⟩
  · rfl
  · rfl
  · rfl

theorem bne_and_zero (flags m : Nat) : (flags &&& m != 0) = decide (flags &&& m ≠ 0) := by
  by_cases h : flags &&& m = 0 <;> simp [h]

/-- C27: the dynamic entry sizes agree with the entry schemas. For `Elst` and
`Tfra` at versions 0 and 1 (any length codes) and for `Trun` at any version
and flags, `GetFieldSize("Entries")` is the sum of the bit widths of the fields
of `ElstEntry`, `TfraEntry`, `TrunEntry` present under the version and flags
of the box, the three dynamic widths of `TfraEntry` coming from
`Tfra.GetFieldSize`; for `Elst` the sum is 96 bits at version 0 and 160 bits at
version 1. -/
theorem entry_sizes_agree_with_schemas (elst : Elst) (tfra : Tfra) (trun : Trun)
    (ctx : Context) :
    ((elst.toFullBox.GetVersion = 0 ∨ elst.toFullBox.GetVersion = 1) →
        elst.GetFieldSize "Entries" ctx
          = schemaWidth ElstEntry.schema elst.toFullBox.GetVersion elst.toFullBox.GetFlags
              (fun n => elst.GetFieldSize n ctx))
    ∧ (elst.toFullBox.GetVersion = 0 →
        schemaWidth ElstEntry.schema elst.toFullBox.GetVersion elst.toFullBox.GetFlags
          (fun n => elst.GetFieldSize n ctx) = .ok 96)
    ∧ (elst.toFullBox.GetVersion = 1 →
        schemaWidth ElstEntry.schema elst.toFullBox.GetVersion elst.toFullBox.GetFlags
          (fun n => elst.GetFieldSize n ctx) = .ok 160)
    ∧ ((tfra.toFullBox.GetVersion = 0 ∨ tfra.toFullBox.GetVersion = 1) →
        tfra.GetFieldSize "Entries" ctx
          = schemaWidth TfraEntry.schema tfra.toFullBox.GetVersion tfra.toFullBox.GetFlags
              (fun n => tfra.GetFieldSize n ctx))
    ∧ trun.GetFieldSize "Entries" ctx
        = schemaWidth TrunEntry.schema trun.toFullBox.GetVersion trun.toFullBox.GetFlags
            (fun n => trun.GetFieldSize n ctx) := by
  refine ⟨?_, ?_, ?_, ?_, ?_⟩
  · rintro (h | h) <;> simp only [Elst.GetFieldSize, h] <;> rfl
  · intro h
    rw [h]
    rfl
  · intro h
    rw [h]
    rfl
  · rintro (h | h) <;>
      simp [Tfra.GetFieldSize, h, schemaWidth, TfraEntry.schema, SchemaField.present,
        SchemaField.width, SchemaField.plain] <;> ring
  · generalize trun.toFullBox.GetVersion = v
    simp only [Trun.GetFieldSize, schemaWidth, TrunEntry.schema, SchemaField.present,
      SchemaField.width, SchemaField.plain, Bool.true_and, Bool.and_true, bne_and_zero]
    by_cases h1 : trun.toFullBox.GetFlags &&& 0x100 = 0 <;>
    by_cases h2 : trun.toFullBox.GetFlags &&& 0x200 = 0 <;>
    by_cases h3 : trun.toFullBox.GetFlags &&& 0x400 = 0 <;>
    by_cases h4 : trun.toFullBox.GetFlags &&& 0x800 = 0 <;>
    by_cases hv : v = 0 <;>
      simp [h1, h2, h3, h4, hv]

theorem entry_sizes_agree_with_schemas_witness :
    schemaWidth ElstEntry.schema 0 0
        (fun n => Elst.GetFieldSize ⟨⟨0, ⟨0, 0, 0⟩⟩, 1, []⟩ n ⟨false, false⟩) = .ok 96
    ∧ schemaWidth ElstEntry.schema 1 0
        (fun n => Elst.GetFieldSize ⟨⟨1, ⟨0, 0, 0⟩⟩, 1, []⟩ n ⟨false, false⟩) = .ok 160
    ∧ Tfra.GetFieldSize ⟨⟨1, ⟨0, 0, 0⟩⟩, 1, 0, 0, 3, 2, 0, []⟩ "Entries" ⟨false, false⟩
      = schemaWidth TfraEntry.schema 1 0
          (fun n => Tfra.GetFieldSize ⟨⟨1, ⟨0, 0, 0⟩⟩, 1, 0, 0, 3, 2, 0, []⟩ n
            ⟨false, false⟩) :=
  ⟨(entry_sizes_agree_with_schemas ⟨⟨0, ⟨0, 0, 0⟩⟩, 1, []⟩
      ⟨⟨1, ⟨0, 0, 0⟩⟩, 1, 0, 0, 3, 2, 0, []⟩ ⟨⟨0, ⟨0, 0, 0⟩⟩, 0, 0, 0, []⟩
      ⟨false, false⟩).2.1 rfl,
   (entry_sizes_agree_with_schemas ⟨⟨1, ⟨0, 0, 0⟩⟩, 1, []⟩
      ⟨⟨1, ⟨0, 0, 0⟩⟩, 1, 0, 0, 3, 2, 0, []⟩ ⟨⟨0, ⟨0, 0, 0⟩⟩, 0, 0, 0, []⟩
      ⟨false, false⟩).2.2.1 rfl,
   (entry_sizes_agree_with_schemas ⟨⟨1, ⟨0, 0, 0⟩⟩, 1, []⟩
      ⟨⟨1, ⟨0, 0, 0⟩⟩, 1, 0, 0, 3, 2, 0, []⟩ ⟨⟨0, ⟨0, 0, 0⟩⟩, 0, 0, 0, []⟩
      ⟨false, false⟩).2.2.2.1 (Or.inr rfl)⟩

/-! ### tfhd -/

theorem tfhd_flag_tests (flags : Nat) :
    ((flags &&& 1 != 0) = flags.testBit 0) ∧ ((flags &&& 2 != 0) = flags.testBit 1)
    ∧ ((flags &&& 8 != 0) = flags.testBit 3) ∧ ((flags &&& 16 != 0) = flags.testBit 4)
    ∧ ((flags &&& 32 != 0) = flags.testBit 5) := by
  have e0 := and_two_pow_ne_zero_iff flags 0
  have e1 := and_two_pow_ne_zero_iff flags 1
  have e3 := and_two_pow_ne_zero_iff flags 3
  have e4 := and_two_pow_ne_zero_iff flags 4
  have e5 := and_two_pow_ne_zero_iff flags 5
  norm_num at e0 e1 e3 e4 e5
  simp only [bne_and_zero]
  refine ⟨?_, ?_, ?_, ?_, ?_⟩
  · cases h : flags.testBit 0 <;> simp_all
  · cases h : flags.testBit 1 <;> simp_all
  · cases h : flags.testBit 3 <;> simp_all
  · cases h : flags.testBit 4 <;> simp_all
  · cases h : flags.testBit 5 <;> simp_all

theorem tfhd_present_eq (name : String) (version flags : Nat) :
    schemaFieldPresent Tfhd.schema name version flags
      = ("Version" == name || ("Flags" == name || ("TrackID" == name
          || (("BaseDataOffset" == name && flags.testBit 0)
          || (("SampleDescriptionIndex" == name && flags.testBit 1)
          || (("DefaultSampleDuration" == name && flags.testBit 3)
          || (("DefaultSampleSize" == name && flags.testBit 4)
          || ("DefaultSampleFlags" == name && flags.testBit 5)))))))) := by
  obtain ⟨e0, e1, e3, e4, e5⟩ := tfhd_flag_tests flags
  simp only [schemaFieldPresent, Tfhd.schema, FullBox.schema, SchemaField.plain,
    List.cons_append, List.nil_append, List.any_cons, List.any_nil, SchemaField.present,
    Bool.and_true, Bool.true_and, Bool.or_false, e0, e1, e3, e4, e5]

theorem tfhd_width_eq (version flags : Nat) :
    schemaWidth Tfhd.schema version flags noFieldSize
      = .ok (8 + (24 + (32 + ((if flags.testBit 0 then 64 else 0)
          + ((if flags.testBit 1 then 32 else 0) + ((if flags.testBit 3 then 32 else 0)
          + ((if flags.testBit 4 then 32 else 0)
          + (if flags.testBit 5 then 32 else 0)))))))) := by
  obtain ⟨e0, e1, e3, e4, e5⟩ := tfhd_flag_tests flags
  simp only [schemaWidth, Tfhd.schema, FullBox.schema, SchemaField.plain,
    List.cons_append, List.nil_append, SchemaField.present, SchemaField.width,
    Bool.and_true, Bool.true_and, e0, e1, e3, e4, e5]
  cases flags.testBit 0 <;> cases flags.testBit 1 <;> cases flags.testBit 3 <;>
    cases flags.testBit 4 <;> cases flags.testBit 5 <;> rfl

theorem testBit_clearFlags (flags i j : Nat) (hi : i < 24) :
    (clearFlags flags (2 ^ j)).testBit i = (flags.testBit i && decide (i ≠ j)) := by
  have h24 : Nat.testBit 16777215 i = true := by
    have : 16777215 = 2 ^ 24 - 1 := by norm_num
    rw [this, Nat.testBit_two_pow_sub_one]
    simpa using hi
  simp only [clearFlags, Nat.testBit_and, Nat.testBit_xor, h24, Nat.testBit_two_pow]
  by_cases hij : j = i
  · subst hij; simp
  · have : ¬ i = j := fun h => hij h.symm
    simp [hij, this]

theorem testBit_xor_high (flags i j : Nat) (hij : j ≠ i) :
    (flags ^^^ 2 ^ j).testBit i = flags.testBit i := by
  simp [Nat.testBit_xor, Nat.testBit_two_pow, hij]

/-- C22: flag-masked optionality of `Tfhd`. Each of the five optional fields
is present iff its own flag bit is set; the `opt=` masks are the exported
`Tfhd...Present` constants, single bits that are pairwise disjoint; clearing
the bit of a present field removes that field, shrinks the payload by the
size of the field (64 bits for `BaseDataOffset`, 32 bits for each other) and
changes the presence of no other field; the bits `0x010000` and `0x020000`
gate no field. -/
theorem tfhd_flag_masked_optionality (version flags : Nat) :
    (∀ t ∈ Tfhd.optFields,
        schemaFieldPresent Tfhd.schema t.1 version flags = flags.testBit t.2.1)
    ∧ (Tfhd.schema.filterMap (fun f => f.opt)
        = [TfhdBaseDataOffsetPresent, TfhdSampleDescriptionIndexPresent,
           TfhdDefaultSampleDurationPresent, TfhdDefaultSampleSizePresent,
           TfhdDefaultSampleFlagsPresent]
      ∧ Tfhd.optFields.map (fun t => 2 ^ t.2.1) = Tfhd.schema.filterMap (fun f => f.opt)
      ∧ Tfhd.optFields.map (fun t => (t.1, t.2.2))
          = [("BaseDataOffset", 64), ("SampleDescriptionIndex", 32),
             ("DefaultSampleDuration", 32), ("DefaultSampleSize", 32),
             ("DefaultSampleFlags", 32)]
      ∧ ∀ a ∈ Tfhd.schema.filterMap (fun f => f.opt),
          ∀ b ∈ Tfhd.schema.filterMap (fun f => f.opt), a ≠ b → a &&& b = 0)
    ∧ (∀ t ∈ Tfhd.optFields, flags.testBit t.2.1 = true →
        schemaFieldPresent Tfhd.schema t.1 version (clearFlags flags (2 ^ t.2.1)) = false
        ∧ (∀ name, name ≠ t.1 →
            schemaFieldPresent Tfhd.schema name version (clearFlags flags (2 ^ t.2.1))
              = schemaFieldPresent Tfhd.schema name version flags)
        ∧ ∃ w, schemaWidth Tfhd.schema version (clearFlags flags (2 ^ t.2.1)) noFieldSize
              = .ok w
            ∧ schemaWidth Tfhd.schema version flags noFieldSize = .ok (w + t.2.2))
    ∧ (∀ name,
        schemaFieldPresent Tfhd.schema name version (flags ^^^ TfhdDurationIsEmpty)
          = schemaFieldPresent Tfhd.schema name version flags
        ∧ schemaFieldPresent Tfhd.schema name version (flags ^^^ TfhdDefaultBaseIsMoof)
          = schemaFieldPresent Tfhd.schema name version flags) := by
  refine ⟨?_, ⟨rfl, rfl, rfl, by decide⟩, ?_, ?_⟩
  · intro t ht
    simp only [Tfhd.optFields, List.mem_cons, List.mem_singleton, List.not_mem_nil,
      or_false] at ht
    rcases ht with rfl | rfl | rfl | rfl | rfl <;>
      simp +decide [tfhd_present_eq]
  · intro t ht hb
    simp only [Tfhd.optFields, List.mem_cons, List.mem_singleton, List.not_mem_nil,
      or_false] at ht
    have c0 := fun j => testBit_clearFlags flags 0 j (by norm_num)
    have c1 := fun j => testBit_clearFlags flags 1 j (by norm_num)
    have c3 := fun j => testBit_clearFlags flags 3 j (by norm_num)
    have c4 := fun j => testBit_clearFlags flags 4 j (by norm_num)
    have c5 := fun j => testBit_clearFlags flags 5 j (by norm_num)
    rcases ht with rfl | rfl | rfl | rfl | rfl
    · simp only at hb
      refine ⟨?_, ?_, ?_⟩
      · simp only [tfhd_present_eq, c0, c1, c3, c4, c5]
        simp +decide
      · intro name hn
        have hn2 : ("BaseDataOffset" == name) = false := by
          simpa using fun h => hn h.symm
        simp only [tfhd_present_eq, c0, c1, c3, c4, c5]
        simp +decide [hn2]
      · refine ⟨_, tfhd_width_eq _ _, ?_⟩
        rw [tfhd_width_eq]
        simp only [c0, c1, c3, c4, c5, hb]
        simp +decide
        try omega
    · simp only at hb
      refine ⟨?_, ?_, ?_⟩
      · simp only [tfhd_present_eq, c0, c1, c3, c4, c5]
        simp +decide
      · intro name hn
        have hn2 : ("SampleDescriptionIndex" == name) = false := by
          simpa using fun h => hn h.symm
        simp only [tfhd_present_eq, c0, c1, c3, c4, c5]
        simp +decide [hn2]
      · refine ⟨_, tfhd_width_eq _ _, ?_⟩
        rw [tfhd_width_eq]
        simp only [c0, c1, c3, c4, c5, hb]
        simp +decide
        try omega
    · simp only at hb
      refine ⟨?_, ?_, ?_⟩
      · simp only [tfhd_present_eq, c0, c1, c3, c4, c5]
        simp +decide
      · intro name hn
        have hn2 : ("DefaultSampleDuration" == name) = false := by
          simpa using fun h => hn h.symm
        simp only [tfhd_present_eq, c0, c1, c3, c4, c5]
        simp +decide [hn2]
      · refine ⟨_, tfhd_width_eq _ _, ?_⟩
        rw [tfhd_width_eq]
        simp only [c0, c1, c3, c4, c5, hb]
        simp +decide
        try omega
    · simp only at hb
      refine ⟨?_, ?_, ?_⟩
      · simp only [tfhd_present_eq, c0, c1, c3, c4, c5]
        simp +decide
      · intro name hn
        have hn2 : ("DefaultSampleSize" == name) = false := by
          simpa using fun h => hn h.symm
        simp only [tfhd_present_eq, c0, c1, c3, c4, c5]
        simp +decide [hn2]
      · refine ⟨_, tfhd_width_eq _ _, ?_⟩
        rw [tfhd_width_eq]
        simp only [c0, c1, c3, c4, c5, hb]
        simp +decide
        try omega
    · simp only at hb
      refine ⟨?_, ?_, ?_⟩
      · simp only [tfhd_present_eq, c0, c1, c3, c4, c5]
        simp +decide
      · intro name hn
        have hn2 : ("DefaultSampleFlags" == name) = false := by
          simpa using fun h => hn h.symm
        simp only [tfhd_present_eq, c0, c1, c3, c4, c5]
        simp +decide [hn2]
      · refine ⟨_, tfhd_width_eq _ _, ?_⟩
        rw [tfhd_width_eq]
        simp only [c0, c1, c3, c4, c5, hb]
        simp +decide
        try omega
  · intro name
    have e16 : TfhdDurationIsEmpty = 2 ^ 16 := by decide
    have e17 : TfhdDefaultBaseIsMoof = 2 ^ 17 := by decide
    rw [e16, e17]
    simp only [tfhd_present_eq]
    rw [testBit_xor_high flags 0 16 (by decide), testBit_xor_high flags 1 16 (by decide),
      testBit_xor_high flags 3 16 (by decide), testBit_xor_high flags 4 16 (by decide),
      testBit_xor_high flags 5 16 (by decide), testBit_xor_high flags 0 17 (by decide),
      testBit_xor_high flags 1 17 (by decide), testBit_xor_high flags 3 17 (by decide),
      testBit_xor_high flags 4 17 (by decide), testBit_xor_high flags 5 17 (by decide)]
    exact ⟨rfl, rfl⟩

theorem tfhd_flag_masked_optionality_witness :
    schemaFieldPresent Tfhd.schema "BaseDataOffset" 0 (clearFlags 0x000039 (2 ^ 0)) = false
    ∧ (∃ w, schemaWidth Tfhd.schema 0 (clearFlags 0x000039 (2 ^ 3)) noFieldSize = .ok w
        ∧ schemaWidth Tfhd.schema 0 0x000039 noFieldSize = .ok (w + 32)) :=
  ⟨((tfhd_flag_masked_optionality 0 0x000039).2.2.1 ("BaseDataOffset", 0, 64)
      (by decide) (by decide)).1,
   ((tfhd_flag_masked_optionality 0 0x000039).2.2.1 ("DefaultSampleDuration", 3, 32)
      (by decide) (by decide)).2.2⟩

/-! ### ftyp -/


theorem writeBits_length (n v : Nat) : (writeBits n v).length = n := by
  simp [writeBits]

theorem writeBits_succ (n v : Nat) :
    writeBits (n + 1) v = writeBits n (v / 2) ++ [v.testBit 0] := by
  simp only [writeBits, List.range_succ_eq_map, List.reverse_cons, List.map_append,
    List.map_cons, List.map_nil, ← List.map_reverse, List.map_map]
  congr 1
  apply List.map_congr_left
  intro i _
  simp [Function.comp, Nat.testBit_succ]

theorem bitsToNat_foldl (l : List Bool) (acc : Nat) :
    l.foldl (fun a b => 2 * a + b.toNat) acc = acc * 2 ^ l.length + bitsToNat l := by
  induction l generalizing acc with
  | nil => simp [bitsToNat]
  | cons b bs ih =>
    simp only [List.foldl_cons, bitsToNat, List.length_cons]
    rw [ih, ih (2 * 0 + b.toNat)]
    ring

theorem bitsToNat_append (x y : List Bool) :
    bitsToNat (x ++ y) = bitsToNat x * 2 ^ y.length + bitsToNat y := by
  simp only [bitsToNat, List.foldl_append]
  rw [bitsToNat_foldl]
  rfl

theorem bitsToNat_lt (l : List Bool) : bitsToNat l < 2 ^ l.length := by
  induction l using List.reverseRecOn with
  | nil => simp [bitsToNat]
  | append_singleton xs b ih =>
    rw [bitsToNat_append, List.length_append]
    have hb : bitsToNat [b] ≤ 1 := by cases b <;> simp [bitsToNat]
    simp only [List.length_singleton, pow_one, pow_succ]
    omega

theorem writeBits_bitsToNat (l : List Bool) : writeBits l.length (bitsToNat l) = l := by
  induction l using List.reverseRecOn with
  | nil => rfl
  | append_singleton xs b ih =>
    rw [List.length_append, List.length_singleton, writeBits_succ, bitsToNat_append]
    have hb : bitsToNat [b] = b.toNat := by simp [bitsToNat]
    simp only [List.length_singleton, pow_one, hb]
    have h1 : (bitsToNat xs * 2 + b.toNat) / 2 = bitsToNat xs := by
      cases b <;> simp; omega
    have h2 : (bitsToNat xs * 2 + b.toNat).testBit 0 = b := by
      cases b <;> simp [Nat.testBit_zero]; omega
    rw [h1, h2, ih]
theorem writeBits_eight (v : Nat) :
    writeBits 8 v = [v.testBit 7, v.testBit 6, v.testBit 5, v.testBit 4, v.testBit 3,
      v.testBit 2, v.testBit 1, v.testBit 0] := rfl

theorem byte_of_bits (b : Byte) :
    (Fin.ofNat (bitsToNat (writeBits 8 b.val)) : Byte) = b := by
  have h : bitsToNat (writeBits 8 b.val) < 2 ^ 8 := by
    have := bitsToNat_lt (writeBits 8 b.val)
    rwa [writeBits_length] at this
  have h256 : bitsToNat (writeBits 8 b.val) < 256 := by simpa using h
  apply Fin.ext
  show bitsToNat (writeBits 8 b.val) % 256 = b.val
  rw [Nat.mod_eq_of_lt h256]
  apply Nat.eq_of_testBit_eq
  intro i
  by_cases hi : i < 8
  · have hw := writeBits_bitsToNat (writeBits 8 b.val)
    rw [writeBits_length] at hw
    rw [writeBits_eight, writeBits_eight] at hw
    simp only [List.cons.injEq, and_true] at hw
    obtain ⟨h7, h6, h5, h4, h3, h2, h1, h0⟩ := hw
    rw [writeBits_eight]
    interval_cases i <;> assumption
  · have h1 : bitsToNat (writeBits 8 b.val) < 2 ^ i :=
      lt_of_lt_of_le h (Nat.pow_le_pow_right (by norm_num) (by omega))
    have h2 : b.val < 2 ^ i :=
      lt_of_lt_of_le b.isLt (by
        have : (256 : Nat) = 2 ^ 8 := by norm_num
        rw [this]
        exact Nat.pow_le_pow_right (by norm_num) (by omega))
    rw [Nat.testBit_lt_two_pow h1, Nat.testBit_lt_two_pow h2]

theorem packBits_byte (b : Byte) (rest : List Bool) :
    packBits (writeBits 8 b.val ++ rest) = b :: packBits rest := by
  have h := byte_of_bits b
  rw [writeBits_eight] at h ⊢
  simp only [List.cons_append, List.nil_append, packBits, h]
  rfl

theorem packBits_unpackBits (bs : List Byte) : packBits (unpackBits bs) = bs := by
  induction bs with
  | nil => rfl
  | cons b bs ih =>
    have : unpackBits (b :: bs) = writeBits 8 b.val ++ unpackBits bs := by
      simp [unpackBits]
    rw [this, packBits_byte, ih]

theorem unpackBits_length (bs : List Byte) : (unpackBits bs).length = 8 * bs.length := by
  induction bs with
  | nil => rfl
  | cons b bs ih =>
    have : unpackBits (b :: bs) = writeBits 8 b.val ++ unpackBits bs := by
      simp [unpackBits]
    rw [this, List.length_append, writeBits_length, ih, List.length_cons]
    omega

theorem readBits_ok (size : Nat) (bits : List Bool) (h : size ≤ bits.length) :
    readBits size bits = some (bitsToNat (bits.take size), bits.drop size) := by
  simp only [readBits, if_neg (not_lt.2 h)]

theorem writeBits_take (size : Nat) (bits : List Bool) (h : size ≤ bits.length) :
    writeBits size (bitsToNat (bits.take size)) = bits.take size := by
  have hl : (bits.take size).length = size := by
    rw [List.length_take]
    omega
  have := writeBits_bitsToNat (bits.take size)
  rwa [hl] at this

theorem byte_val_of_take (bits : List Bool) (h : 8 ≤ bits.length) :
    writeBits 8 (Fin.ofNat (bitsToNat (bits.take 8)) : Byte).val = bits.take 8 := by
  have hl : (bits.take 8).length = 8 := by
    rw [List.length_take]
    omega
  have hlt : bitsToNat (bits.take 8) < 256 := by
    have := bitsToNat_lt (bits.take 8)
    rw [hl] at this
    simpa using this
  have hv : (Fin.ofNat (bitsToNat (bits.take 8)) : Byte).val = bitsToNat (bits.take 8) := by
    show bitsToNat (bits.take 8) % 256 = _
    exact Nat.mod_eq_of_lt hlt
  rw [hv]
  exact writeBits_take 8 bits h

theorem readByte4_spec (bits : List Bool) (h : 32 ≤ bits.length) :
    ∃ b : Byte4, readByte4 bits = some (b, bits.drop 32) ∧ b.bits = bits.take 32 := by
  have l1 : 8 ≤ bits.length := by omega
  have l2 : 8 ≤ (bits.drop 8).length := by rw [List.length_drop]; omega
  have l3 : 8 ≤ ((bits.drop 8).drop 8).length := by
    rw [List.length_drop, List.length_drop]; omega
  have l4 : 8 ≤ (((bits.drop 8).drop 8).drop 8).length := by
    rw [List.length_drop, List.length_drop, List.length_drop]; omega
  refine ⟨⟨Fin.ofNat (bitsToNat (bits.take 8)),
    Fin.ofNat (bitsToNat ((bits.drop 8).take 8)),
    Fin.ofNat (bitsToNat (((bits.drop 8).drop 8).take 8)),
    Fin.ofNat (bitsToNat ((((bits.drop 8).drop 8).drop 8).take 8))⟩, ?_, ?_⟩
  · simp only [readByte4, readBits_ok 8 _ l1, readBits_ok 8 _ l2, readBits_ok 8 _ l3,
      readBits_ok 8 _ l4]
    simp [List.drop_drop]
  · simp only [Byte4.bits, byte_val_of_take _ l1, byte_val_of_take _ l2,
      byte_val_of_take _ l3, byte_val_of_take _ l4]
    have e : ∀ l : List Bool, l.take 32
        = l.take 8 ++ (l.drop 8).take 8 ++ ((l.drop 8).drop 8).take 8
          ++ (((l.drop 8).drop 8).drop 8).take 8 := by
      intro l
      have t1 : l.take 32 = l.take 8 ++ (l.drop 8).take 24 := by
        rw [show 32 = 8 + 24 from rfl, List.take_add]
      have t2 : (l.drop 8).take 24 = (l.drop 8).take 8 ++ ((l.drop 8).drop 8).take 16 := by
        rw [show 24 = 8 + 16 from rfl, List.take_add]
      have t3 : ((l.drop 8).drop 8).take 16
          = ((l.drop 8).drop 8).take 8 ++ (((l.drop 8).drop 8).drop 8).take 8 := by
        rw [show 16 = 8 + 8 from rfl, List.take_add]
      rw [t1, t2, t3]
      simp only [List.append_assoc]
    rw [e bits]
set_option maxRecDepth 100000 in
theorem ftyp_example_decodes :
    Ftyp.UnmarshalBox ftypExample
      = some ⟨⟨0x69, 0x73, 0x6F, 0x6D⟩, 1,
          [⟨⟨0x69, 0x73, 0x6F, 0x6D⟩⟩, ⟨⟨0x61, 0x76, 0x63, 0x31⟩⟩]⟩
    ∧ Ftyp.MarshalBox ⟨⟨0x69, 0x73, 0x6F, 0x6D⟩, 1,
          [⟨⟨0x69, 0x73, 0x6F, 0x6D⟩⟩, ⟨⟨0x61, 0x76, 0x63, 0x31⟩⟩]⟩ = ftypExample := by
  decide

theorem readBrands_spec (n : Nat) (bits : List Bool) (h : 32 * n ≤ bits.length) :
    ∃ bs : List CompatibleBrandElem, readBrands n bits = some (bs, bits.drop (32 * n))
      ∧ bs.length = n
      ∧ bs.flatMap (fun e => e.CompatibleBrand.bits) = bits.take (32 * n) := by
  induction n generalizing bits with
  | zero => exact ⟨[], rfl, rfl, rfl⟩
  | succ n ih =>
    have h32 : 32 ≤ bits.length := by omega
    obtain ⟨b, hb, hbits⟩ := readByte4_spec bits h32
    have hrest : 32 * n ≤ (bits.drop 32).length := by
      rw [List.length_drop]; omega
    obtain ⟨bs, hbs, hlen, hflat⟩ := ih (bits.drop 32) hrest
    refine ⟨⟨b⟩ :: bs, ?_, by simp [hlen], ?_⟩
    · simp only [readBrands, hb, hbs, List.drop_drop]
      have : 32 + 32 * n = 32 * (n + 1) := by ring
      rw [this]
    · simp only [List.flatMap_cons, hbits, hflat]
      have : 32 * (n + 1) = 32 + 32 * n := by ring
      rw [this, List.take_add]

theorem unpackBits_drop (n : Nat) (bs : List Byte) :
    (unpackBits bs).drop (8 * n) = unpackBits (bs.drop n) := by
  induction n generalizing bs with
  | zero => rfl
  | succ n ih =>
    cases bs with
    | nil => simp [unpackBits]
    | cons b bs =>
      have e : unpackBits (b :: bs) = writeBits 8 b.val ++ unpackBits bs := by
        simp [unpackBits]
      have : 8 * (n + 1) = 8 + 8 * n := by ring
      rw [e, this, ← List.drop_drop, List.drop_left' (writeBits_length 8 b.val)]
      simpa using ih bs

theorem packBits_byte4 (b : Byte4) (rest : List Bool) :
    packBits (b.bits ++ rest) = b.b0 :: b.b1 :: b.b2 :: b.b3 :: packBits rest := by
  simp only [Byte4.bits, List.append_assoc, packBits_byte]

theorem packBits_brands (bs : List CompatibleBrandElem) :
    packBits (bs.flatMap (fun e => e.CompatibleBrand.bits))
      = bs.flatMap (fun e => [e.CompatibleBrand.b0, e.CompatibleBrand.b1,
          e.CompatibleBrand.b2, e.CompatibleBrand.b3]) := by
  induction bs with
  | nil => rfl
  | cons e es ih =>
    rw [List.flatMap_cons, packBits_byte4, ih]
    rfl

/-- C21: under the `Ftyp` schema a payload of `8 + 4k` bytes decodes, the
result holds exactly `k` compatible brands, their bytes are the payload bytes
after the first eight in stream order, and encoding the result gives the
payload back; the 24-byte box of the scenario decodes to `MajorBrand` `isom`,
`MinorVersion` 1, `CompatibleBrands` `isom`, `avc1` and encodes back to the
same 24 bytes. -/
theorem ftyp_roundtrip (payload : List Byte) (k : Nat) (h : payload.length = 8 + 4 * k) :
    (∃ ftyp : Ftyp, Ftyp.Unmarshal payload = some ftyp
      ∧ ftyp.CompatibleBrands.length = k
      ∧ ftyp.CompatibleBrands.flatMap (fun e => [e.CompatibleBrand.b0,
          e.CompatibleBrand.b1, e.CompatibleBrand.b2, e.CompatibleBrand.b3])
        = payload.drop 8
      ∧ Ftyp.Marshal ftyp = payload)
    ∧ Ftyp.UnmarshalBox ftypExample
      = some ⟨⟨0x69, 0x73, 0x6F, 0x6D⟩, 1,
          [⟨⟨0x69, 0x73, 0x6F, 0x6D⟩⟩, ⟨⟨0x61, 0x76, 0x63, 0x31⟩⟩]⟩
    ∧ Ftyp.MarshalBox ⟨⟨0x69, 0x73, 0x6F, 0x6D⟩, 1,
          [⟨⟨0x69, 0x73, 0x6F, 0x6D⟩⟩, ⟨⟨0x61, 0x76, 0x63, 0x31⟩⟩]⟩ = ftypExample := by
  refine ⟨?_, ftyp_example_decodes.1, ftyp_example_decodes.2⟩
  have hlen : (unpackBits payload).length = 64 + 32 * k := by
    rw [unpackBits_length, h]; ring
  obtain ⟨mb, hmb, hmbits⟩ := readByte4_spec (unpackBits payload) (by omega)
  have hl2 : 32 ≤ ((unpackBits payload).drop 32).length := by
    rw [List.length_drop]; omega
  have hminor := readBits_ok 32 _ hl2
  have hl3 : (((unpackBits payload).drop 32).drop 32).length = 32 * k := by
    rw [List.length_drop, List.length_drop]; omega
  have hk : (((unpackBits payload).drop 32).drop 32).length / 32 = k := by
    rw [hl3]; omega
  obtain ⟨brands, hbr, hbl, hbits⟩ :=
    readBrands_spec k (((unpackBits payload).drop 32).drop 32) (by omega)
  have hnil : (((unpackBits payload).drop 32).drop 32).drop (32 * k) = [] := by
    apply List.drop_eq_nil_of_le
    omega
  have htake : (((unpackBits payload).drop 32).drop 32).take (32 * k)
      = ((unpackBits payload).drop 32).drop 32 := by
    apply List.take_of_length_le
    omega
  have hlt : bitsToNat (((unpackBits payload).drop 32).take 32) < 4294967296 := by
    have := bitsToNat_lt (((unpackBits payload).drop 32).take 32)
    have hl : (((unpackBits payload).drop 32).take 32).length = 32 := by
      rw [List.length_take]; omega
    rw [hl] at this
    simpa using this
  have hval : (Fin.ofNat (bitsToNat (((unpackBits payload).drop 32).take 32)) : U32).val
      = bitsToNat (((unpackBits payload).drop 32).take 32) := by
    show _ % 4294967296 = _
    exact Nat.mod_eq_of_lt hlt
  have hbrandBits : brands.flatMap (fun e => e.CompatibleBrand.bits)
      = unpackBits (payload.drop 8) := by
    rw [hbits, htake, List.drop_drop, ← unpackBits_drop 8 payload]
  refine ⟨⟨mb, Fin.ofNat (bitsToNat (((unpackBits payload).drop 32).take 32)), brands⟩,
    ?_, hbl, ?_, ?_⟩
  · simp only [Ftyp.Unmarshal, hmb, hminor, hk, hbr, hnil, if_true]
  · rw [← packBits_brands, hbrandBits, packBits_unpackBits]
  · simp only [Ftyp.Marshal, hmbits, hval, writeBits_take 32 _ hl2, hbits, htake]
    rw [List.append_assoc, List.take_append_drop, List.take_append_drop,
      packBits_unpackBits]

theorem ftyp_roundtrip_witness :
    ∃ ftyp : Ftyp, Ftyp.Unmarshal (ftypExample.drop 8) = some ftyp
      ∧ ftyp.CompatibleBrands.length = 2
      ∧ ftyp.CompatibleBrands.flatMap (fun e => [e.CompatibleBrand.b0,
          e.CompatibleBrand.b1, e.CompatibleBrand.b2, e.CompatibleBrand.b3])
        = (ftypExample.drop 8).drop 8
      ∧ Ftyp.Marshal ftyp = ftypExample.drop 8 :=
  (ftyp_roundtrip (ftypExample.drop 8) 2 (by decide)).1

/-! ### avcC extension fields -/

/-- C31: `AVCDecoderConfiguration.IsOptFieldEnabled` returns
`HighProfileFieldsEnabled` for exactly the eight names `Reserved3`,
`ChromaFormat`, `Reserved4`, `BitDepthLumaMinus8`, `Reserved5`,
`BitDepthChromaMinus8`, `NumOfSequenceParameterSetExt`,
`SequenceParameterSetsExt` and false for every other name; the first seven of
them, the fields of fixed width, total 32 bits, which is the number of
remaining bits `OnReadField` requires before it enables the extension. -/
theorem avcc_isOptFieldEnabled (avcc : AVCDecoderConfiguration) (ctx : Context) :
    (∀ name ∈ AVCDecoderConfiguration.optFields,
        avcc.IsOptFieldEnabled name ctx = avcc.HighProfileFieldsEnabled)
    ∧ (∀ name, name ∉ AVCDecoderConfiguration.optFields →
        avcc.IsOptFieldEnabled name ctx = false)
    ∧ AVCDecoderConfiguration.highProfileSchema.map (fun f => f.name)
        = AVCDecoderConfiguration.optFields.take 7
    ∧ (∀ version flags,
        schemaWidth AVCDecoderConfiguration.highProfileSchema version flags noFieldSize
          = .ok 32)
    ∧ (∀ (r : ReadSeeker) (leftBits : U64) (ctx2 : Context),
        (avcc.OnReadField "HighProfileFieldsEnabled" r leftBits
            ctx2).2.HighProfileFieldsEnabled = true → 32 ≤ leftBits.val)
    ∧ (∀ (r : ReadSeeker) (ctx2 : Context), avcc.Profile = AVCHighProfile →
        (avcc.OnReadField "HighProfileFieldsEnabled" r 32 ctx2).2.HighProfileFieldsEnabled
          = true
        ∧ (avcc.OnReadField "HighProfileFieldsEnabled" r 31 ctx2).2.HighProfileFieldsEnabled
          = false) := by
  refine ⟨?_, ?_, rfl, fun _ _ => rfl, ?_, ?_⟩
  · intro name hm
    simp only [AVCDecoderConfiguration.optFields, List.mem_cons, List.mem_singleton,
      List.not_mem_nil, or_false] at hm
    rcases hm with rfl | rfl | rfl | rfl | rfl | rfl | rfl | rfl <;> rfl
  · intro name hn
    simp only [AVCDecoderConfiguration.optFields, List.mem_cons, List.mem_singleton,
      List.not_mem_nil, or_false, not_or] at hn
    obtain ⟨h1, h2, h3, h4, h5, h6, h7, h8⟩ := hn
    unfold AVCDecoderConfiguration.IsOptFieldEnabled
    split <;> first | rfl | contradiction
  · intro r leftBits ctx2 h
    have key : (avcc.OnReadField "HighProfileFieldsEnabled" r leftBits
        ctx2).2.HighProfileFieldsEnabled
        = (decide (32 ≤ leftBits.val) && (avcc.Profile == AVCHighProfile
            || avcc.Profile == AVCHigh10Profile || avcc.Profile == AVCHigh422Profile
            || avcc.Profile == 144)) := rfl
    rw [key] at h
    simp only [Bool.and_eq_true, decide_eq_true_eq] at h
    exact h.1
  · intro r ctx2 hp
    have key : ∀ lb : U64, (avcc.OnReadField "HighProfileFieldsEnabled" r lb
        ctx2).2.HighProfileFieldsEnabled
        = (decide (32 ≤ lb.val) && (avcc.Profile == AVCHighProfile
            || avcc.Profile == AVCHigh10Profile || avcc.Profile == AVCHigh422Profile
            || avcc.Profile == 144)) := fun _ => rfl
    rw [key, key, hp]
    exact ⟨by decide, by decide⟩

theorem avcc_isOptFieldEnabled_witness :
    AVCDecoderConfiguration.IsOptFieldEnabled
        ⟨1, 100, 0, 30, 63, 3, 7, 0, [], 0, [], true, 63, 1, 31, 0, 31, 0, 0, []⟩
        "ChromaFormat" ⟨false, false⟩ = true
    ∧ AVCDecoderConfiguration.IsOptFieldEnabled
        ⟨1, 100, 0, 30, 63, 3, 7, 0, [], 0, [], true, 63, 1, 31, 0, 31, 0, 0, []⟩
        "Profile" ⟨false, false⟩ = false
    ∧ 32 ≤ (40 : U64).val :=
  ⟨(avcc_isOptFieldEnabled
      ⟨1, 100, 0, 30, 63, 3, 7, 0, [], 0, [], true, 63, 1, 31, 0, 31, 0, 0, []⟩
      ⟨false, false⟩).1 "ChromaFormat" (by decide),
   (avcc_isOptFieldEnabled
      ⟨1, 100, 0, 30, 63, 3, 7, 0, [], 0, [], true, 63, 1, 31, 0, 31, 0, 0, []⟩
      ⟨false, false⟩).2.1 "Profile" (by decide),
   (avcc_isOptFieldEnabled
      ⟨1, 100, 0, 30, 63, 3, 7, 0, [], 0, [], false, 63, 1, 31, 0, 31, 0, 0, []⟩
      ⟨false, false⟩).2.2.2.2.1 ⟨[], 0, IoError.EOF, none⟩ 40 ⟨false, false⟩ (by decide)⟩

/-! ### VisualSampleEntry -/

/-- C32: `VisualSampleEntry.StringifyField("Compressorname")` on the 32-byte
array never slices out of bounds: when the first byte `n` is at most 31 it
returns the `n` bytes at positions 1 to `n` between double quotes with
`handled = true` (two quotes alone for `n = 0`), and when `n > 31` it returns
`("", false)`; for every other field name it returns `("", false)`. -/
theorem visualSampleEntry_stringifyField (vse : VisualSampleEntry) (indent : GoString)
    (depth : Int) (ctx : Context) (hlen : vse.Compressorname.length = 32) :
    (∃ n rest, vse.Compressorname = n :: rest
      ∧ (n.val ≤ 31 →
          vse.StringifyField "Compressorname" indent depth ctx
            = .ok ([0x22] ++ rest.take n.val ++ [0x22], true)
          ∧ (rest.take n.val).length = n.val
          ∧ (∀ i, i < n.val →
              (rest.take n.val)[i]? = vse.Compressorname[i + 1]?))
      ∧ (n.val = 0 →
          vse.StringifyField "Compressorname" indent depth ctx = .ok ([0x22, 0x22], true))
      ∧ (31 < n.val →
          vse.StringifyField "Compressorname" indent depth ctx = .ok ([], false)))
    ∧ (∀ name, name ≠ "Compressorname" →
        vse.StringifyField name indent depth ctx = .ok ([], false)) := by
  constructor
  · rcases hc : vse.Compressorname with _ | ⟨n, rest⟩
    · rw [hc] at hlen; simp at hlen
    · have hrest : rest.length = 31 := by
        rw [hc] at hlen
        simpa using hlen
      have hle : ∀ (h : n.val ≤ 31),
          vse.StringifyField "Compressorname" indent depth ctx
            = .ok ([0x22] ++ rest.take n.val ++ [0x22], true) := by
        intro h
        have h1 : (n.val + 1) % 2 ^ 8 = n.val + 1 := by omega
        have h2 : (1 ≤ n.val + 1 ∧ n.val + 1 ≤ (n :: rest).length) := by
          simp only [List.length_cons, hrest]; omega
        simp only [VisualSampleEntry.StringifyField, hc, List.head?_cons, if_pos h, h1,
          sliceArray, if_pos h2, List.take_succ_cons, List.drop_succ_cons, List.drop_zero]
      refine ⟨n, rest, rfl, ?_, ?_, ?_⟩
      · intro h
        refine ⟨hle h, by rw [List.length_take]; omega, ?_⟩
        intro i hi
        rw [List.getElem?_cons_succ, List.getElem?_take_of_lt hi]
      · intro h0
        rw [hle (by omega), h0]
        rfl
      · intro h
        have hn : ¬ n.val ≤ 31 := by omega
        simp only [VisualSampleEntry.StringifyField, hc, List.head?_cons, if_neg hn]
  · intro name hn
    unfold VisualSampleEntry.StringifyField
    split
    · exact absurd rfl hn
    · rfl

theorem visualSampleEntry_stringifyField_witness :
    VisualSampleEntry.StringifyField
        ⟨⟨[0, 0, 0, 0, 0, 0], 1⟩, 0, 0, [0, 0, 0], 320, 240, 0x00480000, 0x00480000, 0, 1,
          [4, 0x78, 0x32, 0x36, 0x34] ++ List.replicate 27 0, 24, -1⟩
        "Compressorname" [] 0 ⟨false, false⟩
      = .ok ([0x22, 0x78, 0x32, 0x36, 0x34, 0x22], true)
    ∧ VisualSampleEntry.StringifyField
        ⟨⟨[0, 0, 0, 0, 0, 0], 1⟩, 0, 0, [0, 0, 0], 320, 240, 0x00480000, 0x00480000, 0, 1,
          [4, 0x78, 0x32, 0x36, 0x34] ++ List.replicate 27 0, 24, -1⟩
        "Width" [] 0 ⟨false, false⟩ = .ok ([], false) := by
  have h := visualSampleEntry_stringifyField
    ⟨⟨[0, 0, 0, 0, 0, 0], 1⟩, 0, 0, [0, 0, 0], 320, 240, 0x00480000, 0x00480000, 0, 1,
      [4, 0x78, 0x32, 0x36, 0x34] ++ List.replicate 27 0, 24, -1⟩ [] 0 ⟨false, false⟩ (by decide)
  obtain ⟨⟨n, rest, hc, h1, -, -⟩, h2⟩ := h
  refine ⟨?_, h2 "Width" (by decide)⟩
  simp only [List.cons_append, List.cons.injEq] at hc
  obtain ⟨hn, hr⟩ := hc
  subst hn hr
  exact (h1 (by decide)).1
/-! ### pssh -/

/-- C33: `Pssh.GetFieldLength("Data")` equals `DataSize` for every
`DataSize >= 0`; for every negative `int32` `DataSize` it is neither 0 nor an
error but the wrapped value `2 ^ 64 + DataSize`, at least `2 ^ 64 - 2 ^ 31` and
so beyond every length a 63-bit stream offset can reach;
`GetFieldLength("KIDs")` equals `KIDCount` for every value. -/
theorem pssh_getFieldLength (pssh : Pssh) (ctx : Context) (hlo : -2 ^ 31 ≤ pssh.DataSize)
    (hhi : pssh.DataSize < 2 ^ 31) :
    (0 ≤ pssh.DataSize →
        ∃ n : Nat, pssh.GetFieldLength "Data" ctx = .ok n ∧ (n : Int) = pssh.DataSize)
    ∧ (pssh.DataSize < 0 →
        ∃ n : Nat, pssh.GetFieldLength "Data" ctx = .ok n
          ∧ (n : Int) = 2 ^ 64 + pssh.DataSize ∧ n ≠ 0
          ∧ 2 ^ 64 - 2 ^ 31 ≤ n ∧ 2 ^ 63 ≤ n)
    ∧ pssh.GetFieldLength "KIDs" ctx = .ok pssh.KIDCount.val := by
  have key : pssh.GetFieldLength "Data" ctx = .ok (pssh.DataSize % 2 ^ 64).toNat := rfl
  refine ⟨?_, ?_, rfl⟩
  · intro h
    refine ⟨_, key, ?_⟩
    omega
  · intro h
    refine ⟨_, key, ?_, ?_, ?_, ?_⟩ <;> omega

theorem pssh_getFieldLength_witness :
    (∃ n : Nat, Pssh.GetFieldLength
          ⟨⟨0, ⟨0, 0, 0⟩⟩, [1, 2, 3, 4, 5, 6, 7, 8, 9, 10, 11, 12, 13, 14, 15, 16], 0, [], -1,
            []⟩ "Data" ⟨false, false⟩ = .ok n
        ∧ (n : Int) = 2 ^ 64 + (-1) ∧ n ≠ 0 ∧ 2 ^ 64 - 2 ^ 31 ≤ n ∧ 2 ^ 63 ≤ n)
    ∧ (∃ n : Nat, Pssh.GetFieldLength
          ⟨⟨0, ⟨0, 0, 0⟩⟩, [1, 2, 3, 4, 5, 6, 7, 8, 9, 10, 11, 12, 13, 14, 15, 16], 0, [], 5,
            [1, 2, 3, 4, 5]⟩ "Data" ⟨false, false⟩ = .ok n
        ∧ (n : Int) = 5) :=
  ⟨(pssh_getFieldLength
      ⟨⟨0, ⟨0, 0, 0⟩⟩, [1, 2, 3, 4, 5, 6, 7, 8, 9, 10, 11, 12, 13, 14, 15, 16], 0, [], -1, []⟩
      ⟨false, false⟩ (by decide) (by decide)).2.1 (by decide),
   (pssh_getFieldLength
      ⟨⟨0, ⟨0, 0, 0⟩⟩, [1, 2, 3, 4, 5, 6, 7, 8, 9, 10, 11, 12, 13, 14, 15, 16], 0, [], 5,
        [1, 2, 3, 4, 5]⟩
      ⟨false, false⟩ (by decide) (by decide)).1 (by decide)⟩

/-! ### sgpd sizes -/

theorem mul_eight_wrap (l : U32) :
    ((l.val * 8) % 2 ^ 32 = l.val * 8 ↔ l.val < 2 ^ 29)
    ∧ (l.val = 2 ^ 29 → (l.val * 8) % 2 ^ 32 = 0 ∧ l.val ≠ 0) := by
  have := l.isLt
  constructor
  · constructor <;> intro h <;> omega
  · intro h
    omega

/-- C34: `Sgpd.GetFieldSize("AlternativeStartupEntries")` and
`AlternativeStartupEntryL.GetFieldSize("AlternativeStartupEntry")` return
`(L * 8) mod 2 ^ 32` with `L` the `DefaultLength` resp. `DescriptionLength`; the
result is `L * 8` exactly when `L < 2 ^ 29`, and for `L = 2 ^ 29` it is 0 although
`L` is not. -/
theorem sgpd_getFieldSize_wraps (sgpd : Sgpd) (entry : AlternativeStartupEntryL)
    (ctx : Context) :
    (sgpd.GetFieldSize "AlternativeStartupEntries" ctx
        = (sgpd.DefaultLength.val * 8) % 2 ^ 32
      ∧ (sgpd.GetFieldSize "AlternativeStartupEntries" ctx = sgpd.DefaultLength.val * 8
          ↔ sgpd.DefaultLength.val < 2 ^ 29)
      ∧ (sgpd.DefaultLength.val = 2 ^ 29 →
          sgpd.GetFieldSize "AlternativeStartupEntries" ctx = 0
          ∧ sgpd.DefaultLength.val ≠ 0))
    ∧ (entry.GetFieldSize "AlternativeStartupEntry" ctx
        = (entry.DescriptionLength.val * 8) % 2 ^ 32
      ∧ (entry.GetFieldSize "AlternativeStartupEntry" ctx = entry.DescriptionLength.val * 8
          ↔ entry.DescriptionLength.val < 2 ^ 29)
      ∧ (entry.DescriptionLength.val = 2 ^ 29 →
          entry.GetFieldSize "AlternativeStartupEntry" ctx = 0
          ∧ entry.DescriptionLength.val ≠ 0)) := by
  have k1 : sgpd.GetFieldSize "AlternativeStartupEntries" ctx
      = (sgpd.DefaultLength.val * 8) % 2 ^ 32 := rfl
  have k2 : entry.GetFieldSize "AlternativeStartupEntry" ctx
      = (entry.DescriptionLength.val * 8) % 2 ^ 32 := rfl
  rw [k1, k2]
  exact ⟨⟨rfl, mul_eight_wrap _⟩, ⟨rfl, mul_eight_wrap _⟩⟩

theorem sgpd_getFieldSize_wraps_witness :
    Sgpd.GetFieldSize
        ⟨⟨1, ⟨0, 0, 0⟩⟩, fccAlst, 536870912, 0, 1, [], [], [], [], [], [], [], [], []⟩
        "AlternativeStartupEntries" ⟨false, false⟩ = 0
    ∧ (536870912 : U32).val ≠ 0 :=
  (sgpd_getFieldSize_wraps
    ⟨⟨1, ⟨0, 0, 0⟩⟩, fccAlst, 536870912, 0, 1, [], [], [], [], [], [], [], [], []⟩
    ⟨4, ⟨1, 0, [], []⟩⟩ ⟨false, false⟩).1.2.2 (by decide)

/-! ### Registered versions -/

/-- C35: `Elst.GetFieldSize("Entries")` and `Tfra.GetFieldSize("Entries")`
return a size for every box whose version is one of the registered versions 0
and 1, and panic for every other version and for every field name they do not
size; so under the registered versions `Entries` never reaches the panic. -/
theorem getFieldSize_entries_versions (elst : Elst) (tfra : Tfra) (ctx : Context) :
    (elst.toFullBox.GetVersion ∈ Elst.versions →
        ∃ n, elst.GetFieldSize "Entries" ctx = .ok n)
    ∧ (elst.toFullBox.GetVersion ∉ Elst.versions →
        ∃ msg, elst.GetFieldSize "Entries" ctx = .panic msg)
    ∧ (∀ name, name ≠ "Entries" → ∃ msg, elst.GetFieldSize name ctx = .panic msg)
    ∧ (tfra.toFullBox.GetVersion ∈ Tfra.versions →
        ∃ n, tfra.GetFieldSize "Entries" ctx = .ok n)
    ∧ (tfra.toFullBox.GetVersion ∉ Tfra.versions →
        ∃ msg, tfra.GetFieldSize "Entries" ctx = .panic msg)
    ∧ (∀ name, name ∉ ["TrafNumber", "TrunNumber", "SampleNumber", "Entries"] →
        ∃ msg, tfra.GetFieldSize name ctx = .panic msg) := by
  refine ⟨?_, ?_, ?_, ?_, ?_, ?_⟩
  · intro h
    simp only [Elst.versions, List.mem_cons, List.mem_singleton, List.not_mem_nil,
      or_false] at h
    rcases h with h | h <;> simp only [Elst.GetFieldSize, h] <;> exact ⟨_, rfl⟩
  · intro h
    simp only [Elst.versions, List.mem_cons, List.mem_singleton, List.not_mem_nil,
      or_false, not_or] at h
    simp only [Elst.GetFieldSize]
    split
    · exact absurd ‹_› h.1
    · exact absurd ‹_› h.2
    · exact ⟨_, rfl⟩
  · intro name hn
    unfold Elst.GetFieldSize
    split
    · exact absurd rfl hn
    · exact ⟨_, rfl⟩
  · intro h
    simp only [Tfra.versions, List.mem_cons, List.mem_singleton, List.not_mem_nil,
      or_false] at h
    rcases h with h | h <;> simp only [Tfra.GetFieldSize, h] <;> exact ⟨_, rfl⟩
  · intro h
    simp only [Tfra.versions, List.mem_cons, List.mem_singleton, List.not_mem_nil,
      or_false, not_or] at h
    simp only [Tfra.GetFieldSize]
    split
    · exact absurd ‹_› h.1
    · exact absurd ‹_› h.2
    · exact ⟨_, rfl⟩
  · intro name hn
    simp only [List.mem_cons, List.mem_singleton, List.not_mem_nil, or_false, not_or] at hn
    obtain ⟨h1, h2, h3, h4⟩ := hn
    unfold Tfra.GetFieldSize
    split <;> first | contradiction | exact ⟨_, rfl⟩

theorem getFieldSize_entries_versions_witness :
    (∃ n, Elst.GetFieldSize ⟨⟨1, ⟨0, 0, 0⟩⟩, 1, []⟩ "Entries" ⟨false, false⟩ = .ok n)
    ∧ (∃ msg, Elst.GetFieldSize ⟨⟨2, ⟨0, 0, 0⟩⟩, 1, []⟩ "Entries" ⟨false, false⟩
        = .panic msg)
    ∧ (∃ msg, Tfra.GetFieldSize ⟨⟨7, ⟨0, 0, 0⟩⟩, 1, 0, 0, 3, 2, 0, []⟩ "Entries"
        ⟨false, false⟩ = .panic msg) :=
  ⟨(getFieldSize_entries_versions ⟨⟨1, ⟨0, 0, 0⟩⟩, 1, []⟩
      ⟨⟨7, ⟨0, 0, 0⟩⟩, 1, 0, 0, 3, 2, 0, []⟩ ⟨false, false⟩).1 (by decide),
   (getFieldSize_entries_versions ⟨⟨2, ⟨0, 0, 0⟩⟩, 1, []⟩
      ⟨⟨7, ⟨0, 0, 0⟩⟩, 1, 0, 0, 3, 2, 0, []⟩ ⟨false, false⟩).2.1 (by decide),
   (getFieldSize_entries_versions ⟨⟨2, ⟨0, 0, 0⟩⟩, 1, []⟩
      ⟨⟨7, ⟨0, 0, 0⟩⟩, 1, 0, 0, 3, 2, 0, []⟩ ⟨false, false⟩).2.2.2.2.1 (by decide)⟩

/-! ### tkhd schema -/

/-- C36: summing the bit widths of the `Tkhd` fields present for each version,
FullBox header included, gives 84 payload bytes at version 0 and 96 payload
bytes at version 1, a whole number of bytes in both cases, and for each of the
two versions exactly one field of every V0/V1 pair is present. -/
theorem tkhd_schema_byte_exact (flags : Nat) :
    schemaWidth Tkhd.schema 0 flags noFieldSize = .ok (84 * 8)
    ∧ schemaWidth Tkhd.schema 1 flags noFieldSize = .ok (96 * 8)
    ∧ (∀ v ∈ Tkhd.versions, ∃ bytes,
        schemaWidth Tkhd.schema v flags noFieldSize = .ok (bytes * 8))
    ∧ (∀ v ∈ Tkhd.versions, ∀ p ∈ Tkhd.versionPairs,
        (schemaFieldPresent Tkhd.schema p.1 v flags
          != schemaFieldPresent Tkhd.schema p.2 v flags) = true)
    ∧ (∀ p ∈ Tkhd.versionPairs,
        schemaFieldPresent Tkhd.schema p.1 0 flags = true
        ∧ schemaFieldPresent Tkhd.schema p.2 0 flags = false
        ∧ schemaFieldPresent Tkhd.schema p.1 1 flags = false
        ∧ schemaFieldPresent Tkhd.schema p.2 1 flags = true) := by
  refine ⟨rfl, rfl, ?_, ?_, ?_⟩
  · intro v hv
    simp only [Tkhd.versions, List.mem_cons, List.mem_singleton, List.not_mem_nil,
      or_false] at hv
    rcases hv with rfl | rfl
    · exact ⟨84, rfl⟩
    · exact ⟨96, rfl⟩
  · intro v hv p hp
    simp only [Tkhd.versions, List.mem_cons, List.mem_singleton, List.not_mem_nil,
      or_false] at hv
    simp only [Tkhd.versionPairs, List.mem_cons, List.mem_singleton, List.not_mem_nil,
      or_false] at hp
    rcases hv with rfl | rfl <;> rcases hp with rfl | rfl | rfl | rfl | rfl <;> rfl
  · intro p hp
    simp only [Tkhd.versionPairs, List.mem_cons, List.mem_singleton, List.not_mem_nil,
      or_false] at hp
    rcases hp with rfl | rfl | rfl | rfl | rfl <;> exact ⟨rfl, rfl, rfl, rfl⟩

theorem tkhd_schema_byte_exact_witness :
    (∃ bytes, schemaWidth Tkhd.schema 1 0 noFieldSize = .ok (bytes * 8))
    ∧ (schemaFieldPresent Tkhd.schema "DurationV0" 1 0
        != schemaFieldPresent Tkhd.schema "DurationV1" 1 0) = true :=
  ⟨(tkhd_schema_byte_exact 0).2.2.1 1 (by decide),
   (tkhd_schema_byte_exact 0).2.2.2.1 1 (by decide) ("DurationV0", "DurationV1")
      (by decide)⟩

/-! ### stsz encoding -/

/-- C19: under the `Stsz` schema an `Stsz` with `SampleSize = 0`,
`SampleCount = 3`, `EntrySize = [10, 20, 30]` encodes, after the four bytes of
its FullBox header (whatever version and flags they hold), to the 20-byte
payload `00 00 00 00 00 00 00 03 00 00 00 0A 00 00 00 14 00 00 00 1E`, which
ends in `00 00 00 03 00 00 00 0A 00 00 00 14 00 00 00 1E`. -/
theorem stsz_marshal_payload (fb : FullBox) (ctx : Context) :
    Stsz.Marshal ⟨fb, 0, 3, [10, 20, 30]⟩ ctx
      = some ([fb.Version, fb.Flags.b0, fb.Flags.b1, fb.Flags.b2]
          ++ [0x00, 0x00, 0x00, 0x00, 0x00, 0x00, 0x00, 0x03, 0x00, 0x00, 0x00, 0x0A,
              0x00, 0x00, 0x00, 0x14, 0x00, 0x00, 0x00, 0x1E])
    ∧ (Stsz.Marshal ⟨fb, 0, 3, [10, 20, 30]⟩ ctx).map (fun b => (b.drop 4).length)
      = some 20
    ∧ (Stsz.Marshal ⟨fb, 0, 3, [10, 20, 30]⟩ ctx).map (fun b => (b.drop 4).drop 4)
      = some [0x00, 0x00, 0x00, 0x03, 0x00, 0x00, 0x00, 0x0A, 0x00, 0x00, 0x00, 0x14,
              0x00, 0x00, 0x00, 0x1E] := by
  have hn : Stsz.GetFieldLength ⟨fb, 0, 3, [10, 20, 30]⟩ "EntrySize" ctx = .ok 3 := rfl
  have hrest : packBits (writeBits 32 (0 : U32).val ++ writeBits 32 (3 : U32).val
      ++ (([10, 20, 30] : List U32).take 3).flatMap (fun e => writeBits 32 e.val))
      = [0x00, 0x00, 0x00, 0x00, 0x00, 0x00, 0x00, 0x03, 0x00, 0x00, 0x00, 0x0A,
         0x00, 0x00, 0x00, 0x14, 0x00, 0x00, 0x00, 0x1E] := by
    decide
  have h : Stsz.Marshal ⟨fb, 0, 3, [10, 20, 30]⟩ ctx
      = some ([fb.Version, fb.Flags.b0, fb.Flags.b1, fb.Flags.b2]
          ++ [0x00, 0x00, 0x00, 0x00, 0x00, 0x00, 0x00, 0x03, 0x00, 0x00, 0x00, 0x0A,
              0x00, 0x00, 0x00, 0x14, 0x00, 0x00, 0x00, 0x1E]) := by
    simp only [Stsz.Marshal, hn, FullBox.marshalBits, List.append_assoc, packBits_byte]
    rw [← List.append_assoc, hrest]
    simp
  rw [h]
  exact ⟨rfl, rfl, rfl⟩

end Mp4
